import Mathlib

/-!
# Conway's Breakout: the per-frame simulation core

A shallow embedding of `conways-breakout.cpp` (class `LifeBreakout`).

* `std::vector<std::vector<bool>>` is a list of rows; `grid[y][x]` is `Grid.read g y x`, which is
  `none` when an index is out of range (undefined behaviour in the source), and
  `grid[y][x] = v` is `Grid.write g y x v`, again `none` out of range.
* `int` is `Int` (no value in the program comes near the 32-bit range); `%` and `/` on `int`
  are `Int.tmod` and `Int.tdiv`.
* `sf::Clock` is the time stamp (microseconds) at which it was last restarted; the functions
  reading it take the current time stamp as an argument.
* `float` is an exact real number or NaN (`Flt`); the ball's and paddle's positions are finite
  reals. Rounding, overflow and signed zeros are not modelled.
* The bounds of the ball are those of the 30-point polygon by which SFML represents the
  circle, not those of the circle.
* Every value drawn from `rng` is an argument of the function that draws it, and the two key
  states read by `updatePaddle` are its arguments.
* The reachable states are those obtained from a constructed state by calls of the methods
  (`Step`, `Reachable`); this includes every state that a sequence of `update` calls produces.
-/

namespace LifeBreakout

/-! ## Constants -/

def WINDOW_WIDTH : Int := 800
def WINDOW_HEIGHT : Int := 600
def CELL_SIZE : Int := 10
def GRID_WIDTH : Int := WINDOW_WIDTH.tdiv CELL_SIZE
def GRID_HEIGHT : Int := (WINDOW_HEIGHT.tdiv 2).tdiv CELL_SIZE

/-! ## Grid state -/

/-- A grid is a vector of rows of cells. -/
abbrev Grid := List (List Bool)

/-- The read `grid[y][x]`; `none` when `y` or `x` is not a valid index. -/
def Grid.read (g : Grid) (y x : Int) : Option Bool :=
  if 0 ≤ y ∧ 0 ≤ x then (g[y.toNat]?).bind (fun row => row[x.toNat]?) else none

/-- The assignment `grid[y][x] = v`; `none` when `y` or `x` is not a valid index. -/
def Grid.write (g : Grid) (y x : Int) (v : Bool) : Option Grid :=
  if 0 ≤ y ∧ 0 ≤ x then
    match g[y.toNat]? with
    | some row => if x.toNat < row.length then some (g.set y.toNat (row.set x.toNat v)) else none
    | none => none
  else none

/-- A grid of `H` rows of `W` cells each, as built by the constructor's `resize`. -/
def Grid.WellFormed (W H : Int) (g : Grid) : Prop :=
  g.length = H.toNat ∧ ∀ row ∈ g, row.length = W.toNat

instance (W H : Int) (g : Grid) : Decidable (Grid.WellFormed W H g) := by
  unfold Grid.WellFormed; exact inferInstance

/-- The bounds of both `for` loops of `countNeighbors`: `-1, 0, 1`. -/
def offsets : List Int := [-1, 0, 1]

/-- The method `countNeighbors(x, y)` on a grid of width `W` and height `H`
(the source reads the global constants `GRID_WIDTH` and `GRID_HEIGHT`). -/
def countNeighborsOn (W H : Int) (grid : Grid) (x y : Int) : Option Int :=
  offsets.foldlM (fun count i =>
    offsets.foldlM (fun count j =>
      if i = 0 ∧ j = 0 then some count
      else
        let newX := (x + i + W).tmod W
        let newY := (y + j + H).tmod H
        (grid.read newY newX).map (fun c => count + (if c then 1 else 0))) count) 0

/-- The method `countNeighbors(x, y)` of the program. -/
def countNeighbors (grid : Grid) (x y : Int) : Option Int :=
  countNeighborsOn GRID_WIDTH GRID_HEIGHT grid x y

/-- The two nested loops of `updateLife` on a grid of width `W` and height `H`: start from a copy
of `grid` and assign every cell of `tempGrid` from `countNeighbors` and `grid[y][x]`. -/
def lifeGenerationOn (W H : Int) (grid : Grid) : Option Grid :=
  (List.range H.toNat).foldlM (fun tempGrid (y : Nat) =>
    (List.range W.toNat).foldlM (fun tempGrid (x : Nat) => do
      let neighbors ← countNeighborsOn W H grid x y
      let cell ← grid.read y x
      if cell then tempGrid.write y x (neighbors == 2 || neighbors == 3)
      else tempGrid.write y x (neighbors == 3)) tempGrid) grid

/-! ## Floating-point values

A `float` is modelled as an exact real number or NaN: arithmetic is exact and unbounded, the
square root of a negative number is NaN, NaN propagates through every operation, and every
comparison with NaN is false. Rounding is not modelled, so a property that holds in binary32
only according to how `sqrt`, `atan2` and `cos` round at the threshold `|cos| = 0.3` of
`adjustBallVelocity` is outside this model. -/

/-- A `float`: a real value or NaN. -/
inductive Flt where
  | nan : Flt
  | val (r : ℝ) : Flt

namespace Flt

/-- Lift a binary operation on the reals; NaN propagates. -/
def lift2 (f : ℝ → ℝ → ℝ) : Flt → Flt → Flt
  | val a, val b => val (f a b)
  | _, _ => nan

/-- Lift a unary operation on the reals; NaN propagates. -/
def lift1 (f : ℝ → ℝ) : Flt → Flt
  | val a => val (f a)
  | nan => nan

noncomputable instance : Add Flt := ⟨lift2 (· + ·)⟩
noncomputable instance : Sub Flt := ⟨lift2 (· - ·)⟩
noncomputable instance : Mul Flt := ⟨lift2 (· * ·)⟩
noncomputable instance : Neg Flt := ⟨lift1 (fun a => -a)⟩

/-- The function `std::abs`. -/
noncomputable def abs : Flt → Flt := lift1 (fun a => |a|)

/-- The function `std::sqrt`: NaN on a negative argument. -/
noncomputable def sqrt : Flt → Flt
  | val a => if 0 ≤ a then val (Real.sqrt a) else nan
  | nan => nan

/-- The function `std::atan2(y, x)`: the argument of the point `(x, y)`, with `atan2(0, 0) = 0`. -/
noncomputable def atan2 : Flt → Flt → Flt
  | val y, val x => val (Complex.arg ⟨x, y⟩)
  | _, _ => nan

/-- The function `std::cos`. -/
noncomputable def cos : Flt → Flt := lift1 Real.cos

/-- The comparison `a < b`: false when either side is NaN. -/
def lt : Flt → Flt → Prop
  | val a, val b => a < b
  | _, _ => False

noncomputable instance (a b : Flt) : Decidable (lt a b) := Classical.propDecidable _

end Flt

/-- The type `sf::Vector2f` of the ball's velocity. -/
structure Vector2f where
  x : Flt
  y : Flt

/-- The type `sf::FloatRect`, with finite coordinates. -/
structure FloatRect where
  left : ℝ
  top : ℝ
  width : ℝ
  height : ℝ

/-- SFML's `Rect::intersects`: the two rectangles overlap in a region of positive area. -/
def FloatRect.intersects (a b : FloatRect) : Prop :=
  max (min a.left (a.left + a.width)) (min b.left (b.left + b.width))
      < min (max a.left (a.left + a.width)) (max b.left (b.left + b.width)) ∧
  max (min a.top (a.top + a.height)) (min b.top (b.top + b.height))
      < min (max a.top (a.top + a.height)) (max b.top (b.top + b.height))

noncomputable instance (a b : FloatRect) : Decidable (a.intersects b) := Classical.propDecidable _

/-- The paddle, an `sf::RectangleShape`: position of its top-left corner and its size. -/
structure Paddle where
  x : ℝ
  y : ℝ
  width : ℝ
  height : ℝ

/-- The ball, an `sf::CircleShape`: position of the top-left corner of its bounding square and
its radius. The position is a finite number. -/
structure Ball where
  x : ℝ
  y : ℝ
  radius : ℝ

/-- The state of a `LifeBreakout` object. `lifeClock` is the time stamp, in microseconds, of the
last restart of the `sf::Clock`. -/
structure Game where
  grid : Grid
  nextGrid : Grid
  paddle : Paddle
  ball : Ball
  ballVelocity : Vector2f
  lifeClock : Int

/-- The bounds `paddle.getGlobalBounds()`. -/
def Paddle.getGlobalBounds (p : Paddle) : FloatRect := ⟨p.x, p.y, p.width, p.height⟩

/-- The cosine of `pi / 30`. An `sf::CircleShape` is the polygon of its 30 points
`(radius + radius * cos a, radius + radius * sin a)`, `a = i * 2 * pi / 30 - pi / 2`; the largest
and least `cos a` are `cos (pi / 30)` (at `i = 7, 8`) and `-cos (pi / 30)` (at `i = 22, 23`), the
largest and least `sin a` are `1` (at `i = 15`) and `-1` (at `i = 0`). -/
noncomputable def circleCos : ℝ := Real.cos (Real.pi / 30)

/-- The bounds `ball.getGlobalBounds()`: the bounds of the 30-point polygon of the circle, moved
to the ball's position: `(x + radius * (1 - cos (pi / 30)), y, 2 * radius * cos (pi / 30),
2 * radius)`, about `(x + 0.0274, y, 9.945, 10)` for the radius 5. -/
noncomputable def Ball.getGlobalBounds (b : Ball) : FloatRect :=
  ⟨b.x + b.radius * (1 - circleCos), b.y, 2 * b.radius * circleCos, 2 * b.radius⟩

noncomputable def INITIAL_BALL_SPEED : ℝ := 4

/-- The constant `LIFE_UPDATE_INTERVAL`, in seconds. -/
def LIFE_UPDATE_INTERVAL : ℚ := 1

/-- The conversion `sf::Time::asSeconds` of a duration in microseconds. -/
def asSeconds (microseconds : Int) : ℚ := microseconds / 1000000

/-- The conversion `static_cast<int>` of a finite `float`: truncation toward zero. -/
noncomputable def truncToInt (r : ℝ) : Int := if 0 ≤ r then ⌊r⌋ else ⌈r⌉

/-! ## The automaton tick -/

/-- The method `updateLife`, called at time `now` (microseconds). -/
def updateLife (now : Int) (s : Game) : Option Game :=
  if asSeconds (now - s.lifeClock) ≥ LIFE_UPDATE_INTERVAL then
    (lifeGenerationOn GRID_WIDTH GRID_HEIGHT s.grid).map fun tempGrid =>
      { s with grid := tempGrid, nextGrid := tempGrid, lifeClock := now }
  else some s

/-! ## Ball physics -/

/-- The method `adjustBallVelocity`; `adjustment` is the value `dist(rng)` drawn from
`[-0.2, 0.2]` when the correction branch is taken. -/
noncomputable def adjustBallVelocity (adjustment : ℝ) (ballVelocity : Vector2f) : Vector2f :=
  let angle := Flt.atan2 ballVelocity.y ballVelocity.x
  let speed := Flt.sqrt (ballVelocity.x * ballVelocity.x + ballVelocity.y * ballVelocity.y)
  if Flt.lt (Flt.abs (Flt.cos angle)) (Flt.val (3 / 10)) then
    let x : Flt :=
      if Flt.lt (Flt.val 0) ballVelocity.x then speed * Flt.val (3 / 10) + Flt.val |adjustment|
      else -speed * Flt.val (3 / 10) - Flt.val |adjustment|
    let ySign : Flt := if Flt.lt (Flt.val 0) ballVelocity.y then Flt.val 1 else Flt.val (-1)
    { x := x, y := ySign * Flt.sqrt (speed * speed - x * x) }
  else ballVelocity

/-- The method `resetBall`; `randomAngle` is the value drawn from `[-0.3, 0.3]` and `adjustment`
the value drawn by `adjustBallVelocity`. -/
noncomputable def resetBall (randomAngle adjustment : ℝ) (s : Game) : Game :=
  { s with
    ball := { s.ball with
      x := ((WINDOW_WIDTH.tdiv 2 : Int) : ℝ) - s.ball.radius
      y := ((WINDOW_HEIGHT.tdiv 2 : Int) : ℝ) - s.ball.radius }
    ballVelocity := adjustBallVelocity adjustment
      ⟨Flt.val (randomAngle * INITIAL_BALL_SPEED), Flt.val INITIAL_BALL_SPEED⟩ }

/-- The random values one call of `checkCollisions` may draw, in the order of the source:
the adjustments of the two wall corrections, the jitter of the paddle factor (from
`[-0.02, 0.02]`), and the adjustments of the paddle and brick corrections. -/
structure Draws where
  wallX : ℝ
  wallY : ℝ
  paddleFactor : ℝ
  paddle : ℝ
  brick : ℝ

/-- The wall stage of `checkCollisions`: the velocity after the two wall tests. -/
noncomputable def wallStage (d : Draws) (s : Game) : Vector2f :=
  let v1 :=
    if s.ball.x ≤ 0 ∨ s.ball.x ≥ (WINDOW_WIDTH : ℝ) - s.ball.radius * 2 then
      adjustBallVelocity d.wallX { s.ballVelocity with x := -s.ballVelocity.x }
    else s.ballVelocity
  if s.ball.y ≤ 0 then adjustBallVelocity d.wallY { v1 with y := -v1.y } else v1

/-- The paddle stage of `checkCollisions`, from the velocity `v` left by the wall stage. -/
noncomputable def paddleStage (d : Draws) (s : Game) (v : Vector2f) : Vector2f :=
  if s.ball.getGlobalBounds.intersects s.paddle.getGlobalBounds then
    let y := -Flt.abs v.y
    let paddleCenter := s.paddle.x + s.paddle.width / 2
    let ballCenter := s.ball.x + s.ball.radius
    let difference := ballCenter - paddleCenter
    let randomFactor := 8 / 100 + d.paddleFactor
    adjustBallVelocity d.paddle { x := Flt.val (difference * randomFactor), y := y }
  else v

/-- The bounds `brickBounds` of the cell at column `checkX`, row `checkY`. -/
def brickBounds (checkX checkY : Int) : FloatRect :=
  ⟨((checkX * CELL_SIZE : Int) : ℝ), ((checkY * CELL_SIZE : Int) : ℝ),
    ((CELL_SIZE - 1 : Int) : ℝ), ((CELL_SIZE - 1 : Int) : ℝ)⟩

/-- The body of the innermost `if` of the brick scan: destroy the brick at `(checkX, checkY)` in
both grids, bounce on the side of least overlap and correct the angle. -/
noncomputable def brickHit (adjustment : ℝ) (s : Game) (v : Vector2f) (checkX checkY : Int) :
    Option Game := do
  let grid ← s.grid.write checkY checkX false
  let nextGrid ← s.nextGrid.write checkY checkX false
  let ballBounds := s.ball.getGlobalBounds
  let brick := brickBounds checkX checkY
  let ballBottom := ballBounds.top + ballBounds.height
  let ballRight := ballBounds.left + ballBounds.width
  let brickBottom := brick.top + brick.height
  let brickRight := brick.left + brick.width
  let overlapLeft := ballRight - brick.left
  let overlapRight := brickRight - ballBounds.left
  let overlapTop := ballBottom - brick.top
  let overlapBottom := brickBottom - ballBounds.top
  let minOverlap := min (min (min overlapLeft overlapRight) overlapTop) overlapBottom
  let v1 : Vector2f :=
    if minOverlap = overlapLeft ∨ minOverlap = overlapRight then { v with x := -v.x } else v
  let v2 : Vector2f :=
    if minOverlap = overlapTop ∨ minOverlap = overlapBottom then { v1 with y := -v1.y } else v1
  some { s with grid := grid, nextGrid := nextGrid, ballVelocity := adjustBallVelocity adjustment v2 }

/-- The 3x3 window of the brick scan in the order of the two `for` loops: `dy` outermost,
`dx` innermost; each entry is `(dy, dx)`. -/
def scanWindow : List (Int × Int) :=
  offsets.flatMap fun dy => offsets.map fun dx => (dy, dx)

/-- The brick scan of `checkCollisions` over the remaining window entries; it returns at the
first live in-range cell whose bounds intersect the ball's. -/
noncomputable def brickScan (adjustment : ℝ) (s : Game) (v : Vector2f) (gridX gridY : Int) :
    List (Int × Int) → Option Game
  | [] => some { s with ballVelocity := v }
  | (dy, dx) :: rest =>
    let checkX := gridX + dx
    let checkY := gridY + dy
    if checkX ≥ 0 ∧ checkX < GRID_WIDTH ∧ checkY ≥ 0 ∧ checkY < GRID_HEIGHT then
      match s.grid.read checkY checkX with
      | none => none
      | some true =>
        if s.ball.getGlobalBounds.intersects (brickBounds checkX checkY) then
          brickHit adjustment s v checkX checkY
        else brickScan adjustment s v gridX gridY rest
      | some false => brickScan adjustment s v gridX gridY rest
    else brickScan adjustment s v gridX gridY rest

/-- The method `checkCollisions`. -/
noncomputable def checkCollisions (d : Draws) (s : Game) : Option Game :=
  let v := paddleStage d s (wallStage d s)
  let gridX := truncToInt (s.ball.x / (CELL_SIZE : ℝ))
  let gridY := truncToInt (s.ball.y / (CELL_SIZE : ℝ))
  brickScan d.brick s v gridX gridY scanWindow

/-! ## The paddle, the ball's motion, the constructor and the colour of a cell -/

/-- The member `paddleSpeed`. -/
noncomputable def paddleSpeed : ℝ := 7

/-- The method `updatePaddle`; `left` and `right` are the states of the two arrow keys. -/
noncomputable def updatePaddle (left right : Bool) (s : Game) : Game :=
  let paddle1 : Paddle :=
    if left then
      { s.paddle with
        x := max 0 (s.paddle.x - paddleSpeed), y := ((WINDOW_HEIGHT - 30 : Int) : ℝ) }
    else s.paddle
  let paddle2 : Paddle :=
    if right then
      { paddle1 with
        x := min (paddle1.x + paddleSpeed) ((WINDOW_WIDTH : ℝ) - paddle1.width),
        y := ((WINDOW_HEIGHT - 30 : Int) : ℝ) }
    else paddle1
  { s with paddle := paddle2 }

/-- The call `ball.move(ballVelocity)` of `update`. A NaN component of the velocity would make
the position NaN, which leaves the model (`none`). -/
noncomputable def moveBall (s : Game) : Option Game :=
  match s.ballVelocity with
  | ⟨Flt.val vx, Flt.val vy⟩ =>
    some { s with ball := { s.ball with x := s.ball.x + vx, y := s.ball.y + vy } }
  | _ => none

/-- The method `checkBallLost`; the two draws are those of `resetBall`. -/
noncomputable def checkBallLost (randomAngle adjustment : ℝ) (s : Game) : Game :=
  if s.ball.y > (WINDOW_HEIGHT : ℝ) then resetBall randomAngle adjustment s else s

/-- The method `initializeGrid`; `dis y x` is the value `dis(gen)` drawn, from `0..100`, in the
iteration for row `y` and column `x`. -/
def initializeGrid (dis : Nat → Nat → Int) (s : Game) : Option Game :=
  ((List.range GRID_HEIGHT.toNat).foldlM (fun (grid : Grid) (y : Nat) =>
    (List.range GRID_WIDTH.toNat).foldlM (fun (grid : Grid) (x : Nat) =>
      grid.write y x (decide (dis y x < 15))) grid) s.grid).map
    fun grid => { s with grid := grid, nextGrid := grid }

/-- The constructor `LifeBreakout(win)`, run at time `startTime`: both grids are resized to
`GRID_HEIGHT` rows of `GRID_WIDTH` dead cells, the grid is seeded, the paddle gets its size and
position, the ball its radius, and the ball is reset. -/
noncomputable def construct (dis : Nat → Nat → Int) (randomAngle adjustment : ℝ)
    (startTime : Int) : Option Game :=
  let resized : Grid := List.replicate GRID_HEIGHT.toNat (List.replicate GRID_WIDTH.toNat false)
  let s0 : Game :=
    { grid := resized, nextGrid := resized, paddle := ⟨0, 0, 0, 0⟩, ball := ⟨0, 0, 0⟩,
      ballVelocity := ⟨Flt.val 0, Flt.val 0⟩, lifeClock := startTime }
  (initializeGrid dis s0).map fun s1 =>
    let s2 : Game :=
      { s1 with
        paddle := ⟨((WINDOW_WIDTH.tdiv 2 - 50 : Int) : ℝ), ((WINDOW_HEIGHT - 30 : Int) : ℝ),
          100, 10⟩ }
    let s3 : Game := { s2 with ball := { s2.ball with radius := 5 } }
    resetBall randomAngle adjustment s3

/-- One call of a method that changes the state: `initializeGrid`, or one of the methods that
`update` calls. -/
def Step (s s1 : Game) : Prop :=
  (∃ dis, initializeGrid dis s = some s1) ∨
  (∃ left right, updatePaddle left right s = s1) ∨
  moveBall s = some s1 ∨
  (∃ d, checkCollisions d s = some s1) ∨
  (∃ randomAngle adjustment, checkBallLost randomAngle adjustment s = s1) ∨
  (∃ now, updateLife now s = some s1)

/-- The states the program can be in: those reached from a constructed state by method calls. -/
def Reachable (s : Game) : Prop :=
  ∃ dis randomAngle adjustment startTime s0,
    construct dis randomAngle adjustment startTime = some s0 ∧ Relation.ReflTransGen Step s0 s

/-- The conversion of an `int` to `sf::Uint8`: reduction modulo 256. -/
def toUint8 (n : Int) : Int := n % 256

/-- The colour `sf::Color(0, 150 + (neighbors * 15), 0)` of `draw`, as `(red, green, blue)`. -/
def cellColor (neighbors : Int) : Int × Int × Int :=
  (toUint8 0, toUint8 (150 + neighbors * 15), toUint8 0)

/-- The body of the loops of `draw` for the cell at column `x`, row `y`: the colour computed
for a live cell, `some none` for a dead cell (nothing is drawn), `none` on an index out of
range. -/
def drawCellColor (grid : Grid) (x y : Int) : Option (Option (Int × Int × Int)) := do
  let cell ← grid.read y x
  if cell then
    let neighbors ← countNeighbors grid x y
    some (some (cellColor neighbors))
  else some none

/-- The velocity `brickHit` passes to `adjustBallVelocity`: `v` with the x-component negated when
the least overlap is the left or right one and the y-component negated when it is the top or
bottom one. -/
noncomputable def brickBounce (s : Game) (v : Vector2f) (checkX checkY : Int) : Vector2f :=
  let ballBounds := s.ball.getGlobalBounds
  let brick := brickBounds checkX checkY
  let ballBottom := ballBounds.top + ballBounds.height
  let ballRight := ballBounds.left + ballBounds.width
  let brickBottom := brick.top + brick.height
  let brickRight := brick.left + brick.width
  let overlapLeft := ballRight - brick.left
  let overlapRight := brickRight - ballBounds.left
  let overlapTop := ballBottom - brick.top
  let overlapBottom := brickBottom - ballBounds.top
  let minOverlap := min (min (min overlapLeft overlapRight) overlapTop) overlapBottom
  let v1 : Vector2f :=
    if minOverlap = overlapLeft ∨ minOverlap = overlapRight then { v with x := -v.x } else v
  if minOverlap = overlapTop ∨ minOverlap = overlapBottom then { v1 with y := -v1.y } else v1

/-! ## Specification-side definitions -/

/-- The eight offsets `(i, j)` of `{-1,0,1} x {-1,0,1}` other than `(0, 0)`. -/
def neighborOffsets : List (Int × Int) :=
  [(-1, -1), (-1, 0), (-1, 1), (0, -1), (0, 1), (1, -1), (1, 0), (1, 1)]

/-- The cell at column `x`, row `y` exists and is live. -/
def Grid.isLive (g : Grid) (x y : Int) : Bool := g.read y x == some true

/-- The number of offsets `(i, j)` among the eight for which the cell at column `(x+i) mod W`,
row `(y+j) mod H` is live. -/
def liveWrappedNeighbors (W H : Int) (g : Grid) (x y : Int) : Nat :=
  neighborOffsets.countP (fun p => g.isLive ((x + p.1) % W) ((y + p.2) % H))

/-- The rule of `updateLife` as a function of a cell's state and neighbour count. -/
def conwayRule (live : Bool) (n : Int) : Bool :=
  if live then (n == 2 || n == 3) else n == 3

/-! ## Specification-side definitions for the ball physics -/

/-- The window entry `(dy, dx)` around `(gridX, gridY)` names an in-range live cell whose bounds
intersect the ball's. -/
noncomputable def isHit (s : Game) (gridX gridY : Int) (p : Int × Int) : Bool :=
  decide (0 ≤ gridX + p.2 ∧ gridX + p.2 < GRID_WIDTH ∧ 0 ≤ gridY + p.1 ∧ gridY + p.1 < GRID_HEIGHT)
    && s.grid.isLive (gridX + p.2) (gridY + p.1)
    && decide (s.ball.getGlobalBounds.intersects (brickBounds (gridX + p.2) (gridY + p.1)))

/-- The first entry of the scan window, in scan order, that is a hit. -/
noncomputable def firstHit (s : Game) : Option (Int × Int) :=
  scanWindow.find? (isHit s (truncToInt (s.ball.x / (CELL_SIZE : ℝ)))
    (truncToInt (s.ball.y / (CELL_SIZE : ℝ))))

/-- The cell of the grid that the first hit of the scan names, as `(column, row)`. -/
noncomputable def firstHitCell (s : Game) : Option (Int × Int) :=
  (firstHit s).map fun p =>
    (truncToInt (s.ball.x / (CELL_SIZE : ℝ)) + p.2, truncToInt (s.ball.y / (CELL_SIZE : ℝ)) + p.1)

/-- The grid `g1` differs from `g` in exactly the named cell `(column, row)`, which was live in
`g` and is dead in `g1`; with no cell named, `g1` is `g`. -/
def ClearsOnly (g g1 : Grid) : Option (Int × Int) → Prop
  | none => g1 = g
  | some (cx, cy) => g.read cy cx = some true ∧ g1.read cy cx = some false ∧
      ∀ x y : Int, ¬ (x = cx ∧ y = cy) → g1.read y x = g.read y x

/-- The square of side `2 * radius` at the ball's position, the bounding box of the circle
itself. -/
noncomputable def Ball.boundingSquare (b : Ball) : FloatRect :=
  ⟨b.x, b.y, 2 * b.radius, 2 * b.radius⟩

/-- The magnitude of a velocity, as `adjustBallVelocity` computes `speed`. -/
noncomputable def Vector2f.speed (v : Vector2f) : Flt :=
  Flt.sqrt (v.x * v.x + v.y * v.y)

/-- The test of `adjustBallVelocity`: the angle of the velocity is too vertical. -/
def tooVertical (v : Vector2f) : Prop :=
  Flt.lt (Flt.abs (Flt.cos (Flt.atan2 v.y v.x))) (Flt.val (3 / 10))

/-- The comparison `a <= b`: false when either side is NaN. -/
def Flt.le : Flt → Flt → Prop
  | Flt.val a, Flt.val b => a ≤ b
  | _, _ => False

/-! ## Specification-side definitions for the invariants, walls and bounces -/

/-- The paddle's invariant: the size the constructor gives it, `x` in `[0, 700]`, `y = 570`. -/
def PaddleInv (p : Paddle) : Prop :=
  p.width = 100 ∧ 0 ≤ p.x ∧ p.x ≤ 700 ∧ p.y = 570

/-- The invariant of the two grids: both have the program's dimensions and are equal. -/
def GridInv (s : Game) : Prop :=
  s.grid.WellFormed GRID_WIDTH GRID_HEIGHT ∧ s.nextGrid.WellFormed GRID_WIDTH GRID_HEIGHT ∧
    s.nextGrid = s.grid

/-- The overlap `overlapLeft = ballRight - brickLeft` of the brick at `(checkX, checkY)`. -/
noncomputable def overlapLeft (s : Game) (checkX checkY : Int) : ℝ :=
  (s.ball.getGlobalBounds.left + s.ball.getGlobalBounds.width) - (brickBounds checkX checkY).left

/-- The overlap `overlapRight = brickRight - ballLeft`. -/
noncomputable def overlapRight (s : Game) (checkX checkY : Int) : ℝ :=
  ((brickBounds checkX checkY).left + (brickBounds checkX checkY).width)
    - s.ball.getGlobalBounds.left

/-- The overlap `overlapTop = ballBottom - brickTop`. -/
noncomputable def overlapTop (s : Game) (checkX checkY : Int) : ℝ :=
  (s.ball.getGlobalBounds.top + s.ball.getGlobalBounds.height) - (brickBounds checkX checkY).top

/-- The overlap `overlapBottom = brickBottom - ballTop`. -/
noncomputable def overlapBottom (s : Game) (checkX checkY : Int) : ℝ :=
  ((brickBounds checkX checkY).top + (brickBounds checkX checkY).height)
    - s.ball.getGlobalBounds.top

/-- The least of the four overlaps. -/
noncomputable def minOverlap (s : Game) (checkX checkY : Int) : ℝ :=
  min (min (min (overlapLeft s checkX checkY) (overlapRight s checkX checkY))
    (overlapTop s checkX checkY)) (overlapBottom s checkX checkY)

/-- The reals `a` and `b` have the same sign: both positive, both negative or both zero. -/
def sameSign (a b : ℝ) : Prop := (0 < a ↔ 0 < b) ∧ (a < 0 ↔ b < 0)

/-- The side-wall test of `checkCollisions`. -/
def atSideWall (s : Game) : Prop :=
  s.ball.x ≤ 0 ∨ s.ball.x ≥ (WINDOW_WIDTH : ℝ) - s.ball.radius * 2

/-- The top-wall test of `checkCollisions`. -/
def atTopWall (s : Game) : Prop := s.ball.y ≤ 0

/-! ## Concrete inputs -/

/-- The grid of `H` rows of `W` cells whose cell at column `x`, row `y` is `f x y`. -/
def gridOf (W H : Nat) (f : Nat → Nat → Bool) : Grid :=
  (List.range H).map fun y => (List.range W).map fun x => f x y

/-- The all-dead grid of the program's dimensions. -/
def deadGrid : Grid := gridOf 80 30 fun _ _ => false

/-- The 4x4 grid whose only live cell is the corner `(3, 3)`. -/
def cornerGrid : Grid :=
  [[false, false, false, false], [false, false, false, false],
   [false, false, false, false], [false, false, false, true]]

/-- The 10x10 grid whose only live cells are the three horizontally adjacent cells of row `cy`
centred on column `cx` (columns `cx-1`, `cx`, `cx+1` on the torus). -/
def blinkerRow (cx cy : Nat) : Grid :=
  gridOf 10 10 fun x y => decide (y = cy ∧ (x = (cx + 9) % 10 ∨ x = cx ∨ x = (cx + 1) % 10))

/-- The 10x10 grid whose only live cells are the three vertically adjacent cells of column `cx`
centred on row `cy` (rows `cy-1`, `cy`, `cy+1` on the torus). -/
def blinkerCol (cx cy : Nat) : Grid :=
  gridOf 10 10 fun x y => decide (x = cx ∧ (y = (cy + 9) % 10 ∨ y = cy ∨ y = (cy + 1) % 10))

/-- The horizontal blinker in coordinates relative to its centre. -/
def relRow (a b : Int) : Bool := decide (b % 10 = 0 ∧ (a % 10 = 9 ∨ a % 10 = 0 ∨ a % 10 = 1))

/-- The vertical blinker in coordinates relative to its centre. -/
def relCol (a b : Int) : Bool := decide (a % 10 = 0 ∧ (b % 10 = 9 ∨ b % 10 = 0 ∨ b % 10 = 1))

/-- A game state: all-dead grids, the paddle and ball as the constructor places them (before
the ball's velocity is drawn), the ball falling straight down, the clock restarted at time 0. -/
noncomputable def game0 : Game :=
  { grid := deadGrid, nextGrid := deadGrid,
    paddle := ⟨350, 570, 100, 10⟩, ball := ⟨395, 295, 5⟩,
    ballVelocity := ⟨Flt.val 0, Flt.val 4⟩, lifeClock := 0 }

/-- A game state in which the bounds of the ball, at `(105, 100)`, intersect the two live
cells `(10, 10)` and `(11, 10)`, the only live cells of the grid. -/
noncomputable def game1 : Game :=
  { grid := gridOf 80 30 fun x y => decide (y = 10 ∧ (x = 10 ∨ x = 11)),
    nextGrid := gridOf 80 30 fun x y => decide (y = 10 ∧ (x = 10 ∨ x = 11)),
    paddle := ⟨350, 570, 100, 10⟩, ball := ⟨105, 100, 5⟩,
    ballVelocity := ⟨Flt.val 3, Flt.val (-4)⟩, lifeClock := 0 }

/-- No jitter in any draw. -/
noncomputable def draws0 : Draws := ⟨0, 0, 0, 0, 0⟩

/-- A game state whose ball, falling straight down, overlaps the paddle at its centre. -/
noncomputable def gamePaddle : Game :=
  { game0 with ball := ⟨395, 565, 5⟩ }

/-- A game state whose ball is left of and above the field. -/
noncomputable def gameOutside : Game :=
  { game1 with ball := ⟨-50, -37, 5⟩ }

/-- The all-live grid of the program's dimensions. -/
def liveGrid : Grid := gridOf 80 30 fun _ _ => true

/-- The state `game1` with the ball at `(105, 105)`. -/
noncomputable def game2 : Game :=
  { game1 with ball := ⟨105, 105, 5⟩ }

/-- A game state whose ball overlaps the paddle at its centre while falling slowly, with the
velocity `(0, 0.1)`. -/
noncomputable def gameSlow : Game :=
  { gamePaddle with ballVelocity := ⟨Flt.val 0, Flt.val (1 / 10)⟩ }

/-- The draws whose adjustment of the paddle correction is `-0.2`; no jitter elsewhere. -/
noncomputable def drawsSlow : Draws := ⟨0, 0, 0, -(1 / 5), 0⟩

/-- A game state whose ball is past the left wall and below the rows of the grid, moving left
and down; the grid is that of `game1`. -/
noncomputable def gameWall : Game :=
  { game1 with ball := ⟨-1, 400, 5⟩, ballVelocity := ⟨Flt.val (-3), Flt.val 4⟩ }

/-- A game state whose only live cell is `(10, 10)`, with bounds `(100, 100, 9, 9)`, and whose
ball is at `(108.99, 100)`: the square `(108.99, 100, 10, 10)` intersects the cell's bounds,
the ball's bounds, which start right of `x = 109`, do not. -/
noncomputable def gameEdge : Game :=
  { grid := gridOf 80 30 fun x y => decide (y = 10 ∧ x = 10),
    nextGrid := gridOf 80 30 fun x y => decide (y = 10 ∧ x = 10),
    paddle := ⟨350, 570, 100, 10⟩, ball := ⟨10899 / 100, 100, 5⟩,
    ballVelocity := ⟨Flt.val 3, Flt.val (-4)⟩, lifeClock := 0 }

/-! ## Reading and writing well-formed grids -/

theorem Grid.read_isSome {W H : Int} {g : Grid} (hwf : g.WellFormed W H) {x y : Int}
    (hx0 : 0 ≤ x) (hxW : x < W) (hy0 : 0 ≤ y) (hyH : y < H) :
    g.read y x = some (g.isLive x y) := by
  obtain ⟨hlen, hrows⟩ := hwf
  have hy : y.toNat < g.length := by omega
  have hrow : (g[y.toNat]).length = W.toNat := hrows _ (List.getElem_mem _)
  have hxr : x.toNat < (g[y.toNat]).length := by omega
  have hread : g.read y x = some ((g[y.toNat])[x.toNat]) := by
    simp [Grid.read, hx0, hy0, List.getElem?_eq_getElem hy, List.getElem?_eq_getElem hxr]
  rw [Grid.isLive, hread]
  cases (g[y.toNat])[x.toNat] <;> rfl

theorem wrap_index {W x i : Int} (hx0 : 0 ≤ x) (hxW : x < W) (hi : -1 ≤ i) :
    (x + i + W).tmod W = (x + i) % W := by
  rw [Int.tmod_eq_emod (by omega) (by omega), Int.add_emod_self]

theorem read_wrapped {W H : Int} {g : Grid} (hwf : g.WellFormed W H) {x y : Int}
    (hx0 : 0 ≤ x) (hxW : x < W) (hy0 : 0 ≤ y) (hyH : y < H) {i j : Int}
    (hi : -1 ≤ i) (hj : -1 ≤ j) :
    g.read ((y + j + H).tmod H) ((x + i + W).tmod W)
      = some (g.isLive ((x + i) % W) ((y + j) % H)) := by
  rw [wrap_index hx0 hxW hi, wrap_index hy0 hyH hj]
  exact Grid.read_isSome hwf (Int.emod_nonneg _ (by omega)) (Int.emod_lt_of_pos _ (by omega))
    (Int.emod_nonneg _ (by omega)) (Int.emod_lt_of_pos _ (by omega))

theorem countNeighborsOn_eq {W H : Int} {g : Grid} (hwf : g.WellFormed W H) {x y : Int}
    (hx0 : 0 ≤ x) (hxW : x < W) (hy0 : 0 ≤ y) (hyH : y < H) :
    countNeighborsOn W H g x y = some (liveWrappedNeighbors W H g x y : Int) := by
  have r := fun (i j : Int) (hi : -1 ≤ i) (hj : -1 ≤ j) =>
    read_wrapped hwf hx0 hxW hy0 hyH hi hj
  simp only [countNeighborsOn, offsets, List.foldlM_cons, List.foldlM_nil,
    r (-1) (-1) (by decide) (by decide), r (-1) 0 (by decide) (by decide),
    r (-1) 1 (by decide) (by decide), r 0 (-1) (by decide) (by decide),
    r 0 1 (by decide) (by decide), r 1 (-1) (by decide) (by decide),
    r 1 0 (by decide) (by decide), r 1 1 (by decide) (by decide)]
  simp [liveWrappedNeighbors, neighborOffsets, List.countP_cons]
  ring

theorem Grid.write_spec {W H : Int} {g : Grid} (hwf : g.WellFormed W H) {x y : Int}
    (hx0 : 0 ≤ x) (hxW : x < W) (hy0 : 0 ≤ y) (hyH : y < H) (v : Bool) :
    ∃ g1, g.write y x v = some g1 ∧ g1.WellFormed W H ∧
      ∀ y1 x1 : Int, g1.read y1 x1 = if y1 = y ∧ x1 = x then some v else g.read y1 x1 := by
  obtain ⟨hlen, hrows⟩ := hwf
  have hy : y.toNat < g.length := by omega
  have hrow : (g[y.toNat]).length = W.toNat := hrows _ (List.getElem_mem _)
  have hxr : x.toNat < (g[y.toNat]).length := by omega
  refine ⟨g.set y.toNat ((g[y.toNat]).set x.toNat v), ?_, ⟨?_, ?_⟩, ?_⟩
  · simp [Grid.write, hx0, hy0, List.getElem?_eq_getElem hy, hxr]
  · simpa using hlen
  · intro row hmem
    rcases List.mem_or_eq_of_mem_set hmem with h | h
    · exact hrows _ h
    · rw [h, List.length_set]; exact hrow
  · intro y1 x1
    by_cases hneg : 0 ≤ y1 ∧ 0 ≤ x1
    · obtain ⟨hy1, hx1⟩ := hneg
      by_cases hyy : y1 = y
      · subst hyy
        by_cases hxx : x1 = x
        · subst hxx
          simp [Grid.read, hy1, hx1, List.getElem?_set, hy, hxr]
        · have hne : x.toNat ≠ x1.toNat := by omega
          simp [Grid.read, hy1, hx1, List.getElem?_set, hy, hxx, hne,
            List.getElem?_eq_getElem hy]
      · have hne : y.toNat ≠ y1.toNat := by omega
        simp [Grid.read, hy1, hx1, List.getElem?_set, hyy, hne]
    · have hne : ¬ (y1 = y ∧ x1 = x) := by
        rintro ⟨rfl, rfl⟩; exact hneg ⟨hy0, hx0⟩
      simp [Grid.read, hneg, hne]

/-- The inner loop of `updateLife` over the first `k` columns of row `y`. -/
theorem lifeRow_spec {W H : Int} {g : Grid} (hwf : g.WellFormed W H) (y : Nat) (hy : (y : Int) < H)
    (k : Nat) (hk : (k : Int) ≤ W) (temp : Grid) (htemp : temp.WellFormed W H) :
    ∃ t1, (List.range k).foldlM (fun tempGrid (x : Nat) => do
        let neighbors ← countNeighborsOn W H g x y
        let cell ← g.read y x
        if cell then tempGrid.write y x (neighbors == 2 || neighbors == 3)
        else tempGrid.write y x (neighbors == 3)) temp = some t1 ∧ t1.WellFormed W H ∧
      ∀ y1 x1 : Int, t1.read y1 x1 =
        if y1 = y ∧ 0 ≤ x1 ∧ x1 < k
        then some (conwayRule (g.isLive x1 y) (liveWrappedNeighbors W H g x1 y))
        else temp.read y1 x1 := by
  induction k with
  | zero =>
    refine ⟨temp, by simp, htemp, ?_⟩
    intro y1 x1
    have : ¬ (y1 = y ∧ 0 ≤ x1 ∧ x1 < ((0 : Nat) : Int)) := by omega
    rw [if_neg this]
  | succ k ih =>
    obtain ⟨t1, hfold, hwf1, hread1⟩ := ih (by omega)
    have hk0 : (0 : Int) ≤ k := by omega
    have hkW : (k : Int) < W := by omega
    have hy0 : (0 : Int) ≤ y := by omega
    obtain ⟨t2, hw2, hwf2, hread2⟩ := Grid.write_spec hwf1 hk0 hkW hy0 hy
      (conwayRule (g.isLive k y) (liveWrappedNeighbors W H g k y))
    refine ⟨t2, ?_, hwf2, ?_⟩
    · rw [List.range_succ, List.foldlM_append, hfold]
      simp only [Option.bind_eq_bind, Option.some_bind, List.foldlM_cons, List.foldlM_nil,
        countNeighborsOn_eq hwf hk0 hkW hy0 hy, Grid.read_isSome hwf hk0 hkW hy0 hy]
      rw [← hw2]
      cases hlive : g.isLive k y <;> simp [conwayRule]
    · intro y1 x1
      rw [hread2, hread1]
      by_cases h1 : y1 = y ∧ x1 = k
      · have h3 : y1 = y ∧ 0 ≤ x1 ∧ x1 < ((k + 1 : Nat) : Int) := by omega
        rw [if_pos h1, if_pos h3, h1.2]
      · by_cases h2 : y1 = y ∧ 0 ≤ x1 ∧ x1 < (k : Int)
        · have h3 : y1 = y ∧ 0 ≤ x1 ∧ x1 < ((k + 1 : Nat) : Int) := by omega
          rw [if_neg h1, if_pos h2, if_pos h3]
        · have h3 : ¬ (y1 = y ∧ 0 ≤ x1 ∧ x1 < ((k + 1 : Nat) : Int)) := by omega
          rw [if_neg h1, if_neg h2, if_neg h3]

/-- The two loops of `updateLife` on a well-formed grid: every cell of the result is the rule
applied to the pre-tick cell and the pre-tick neighbour count. -/
theorem lifeGenerationOn_spec {W H : Int} {g : Grid} (hwf : g.WellFormed W H) (hW : 0 ≤ W) :
    ∃ g1, lifeGenerationOn W H g = some g1 ∧ g1.WellFormed W H ∧
      ∀ x y : Int, 0 ≤ x → x < W → 0 ≤ y → y < H →
        g1.read y x = some (conwayRule (g.isLive x y) (liveWrappedNeighbors W H g x y)) := by
  have key : ∀ m : Nat, (m : Int) ≤ H →
      ∃ t1, (List.range m).foldlM (fun tempGrid (y : Nat) =>
        (List.range W.toNat).foldlM (fun tempGrid (x : Nat) => do
          let neighbors ← countNeighborsOn W H g x y
          let cell ← g.read y x
          if cell then tempGrid.write y x (neighbors == 2 || neighbors == 3)
          else tempGrid.write y x (neighbors == 3)) tempGrid) g = some t1 ∧ t1.WellFormed W H ∧
        ∀ y1 x1 : Int, t1.read y1 x1 =
          if (0 ≤ y1 ∧ y1 < m) ∧ 0 ≤ x1 ∧ x1 < W
          then some (conwayRule (g.isLive x1 y1) (liveWrappedNeighbors W H g x1 y1))
          else g.read y1 x1 := by
    intro m
    induction m with
    | zero =>
      intro _
      refine ⟨g, by simp, hwf, ?_⟩
      intro y1 x1
      have : ¬ ((0 ≤ y1 ∧ y1 < ((0 : Nat) : Int)) ∧ 0 ≤ x1 ∧ x1 < W) := by omega
      rw [if_neg this]
    | succ m ih =>
      intro hm
      obtain ⟨t1, hfold, hwf1, hread1⟩ := ih (by omega)
      obtain ⟨t2, hrow, hwf2, hread2⟩ :=
        lifeRow_spec hwf m (by omega) W.toNat (by omega) t1 hwf1
      refine ⟨t2, ?_, hwf2, ?_⟩
      · rw [List.range_succ, List.foldlM_append, hfold]
        simp only [Option.bind_eq_bind, Option.some_bind, List.foldlM_cons, List.foldlM_nil]
        simpa using hrow
      · intro y1 x1
        rw [hread2, hread1]
        have hWn : ((W.toNat : Nat) : Int) = W := Int.toNat_of_nonneg hW
        rw [hWn]
        by_cases h1 : y1 = (m : Int) ∧ 0 ≤ x1 ∧ x1 < W
        · have h3 : (0 ≤ y1 ∧ y1 < ((m + 1 : Nat) : Int)) ∧ 0 ≤ x1 ∧ x1 < W := by omega
          rw [if_pos h1, if_pos h3, h1.1]
        · by_cases h2 : (0 ≤ y1 ∧ y1 < (m : Int)) ∧ 0 ≤ x1 ∧ x1 < W
          · have h3 : (0 ≤ y1 ∧ y1 < ((m + 1 : Nat) : Int)) ∧ 0 ≤ x1 ∧ x1 < W := by omega
            rw [if_neg h1, if_pos h2, if_pos h3]
          · have h3 : ¬ ((0 ≤ y1 ∧ y1 < ((m + 1 : Nat) : Int)) ∧ 0 ≤ x1 ∧ x1 < W) := by omega
            rw [if_neg h1, if_neg h2, if_neg h3]
  by_cases hH : 0 ≤ H
  · obtain ⟨t1, hfold, hwf1, hread1⟩ := key H.toNat (by omega)
    refine ⟨t1, hfold, hwf1, ?_⟩
    intro x y hx0 hxW hy0 hyH
    rw [hread1, if_pos]
    omega
  · have hz : H.toNat = 0 := by omega
    refine ⟨g, by simp [lifeGenerationOn, hz], hwf, ?_⟩
    intro x y hx0 hxW hy0 hyH
    omega

theorem Grid.read_eq_getElem {g : Grid} {x y : Nat} (hy : y < g.length)
    (hx : x < (g[y]).length) : g.read y x = some ((g[y])[x]) := by
  simp [Grid.read, List.getElem?_eq_getElem hy, List.getElem?_eq_getElem hx]

theorem Grid.ext_of_read {W H : Int} {a b : Grid} (ha : a.WellFormed W H)
    (hb : b.WellFormed W H)
    (h : ∀ x y : Int, 0 ≤ x → x < W → 0 ≤ y → y < H → a.read y x = b.read y x) : a = b := by
  obtain ⟨hla, hra⟩ := ha
  obtain ⟨hlb, hrb⟩ := hb
  apply List.ext_getElem (by omega)
  intro n hna hnb
  have hran : (a[n]).length = W.toNat := hra _ (List.getElem_mem _)
  have hrbn : (b[n]).length = W.toNat := hrb _ (List.getElem_mem _)
  apply List.ext_getElem (by omega)
  intro m hma hmb
  have e := h m n (by omega) (by omega) (by omega) (by omega)
  rw [Grid.read_eq_getElem hna hma, Grid.read_eq_getElem hnb hmb] at e
  exact Option.some.inj e

theorem gridOf_wellFormed (W H : Nat) (f : Nat → Nat → Bool) :
    (gridOf W H f).WellFormed W H := by
  refine ⟨by simp [gridOf], ?_⟩
  intro row hrow
  simp only [gridOf, List.mem_map] at hrow
  obtain ⟨_, _, rfl⟩ := hrow
  simp

theorem gridOf_isLive (W H : Nat) (f : Nat → Nat → Bool) {x y : Int}
    (hx0 : 0 ≤ x) (hxW : x < W) (hy0 : 0 ≤ y) (hyH : y < H) :
    (gridOf W H f).isLive x y = f x.toNat y.toNat := by
  have hy : y.toNat < H := by omega
  have hx : x.toNat < W := by omega
  have hr : (gridOf W H f).read y x = some (f x.toNat y.toNat) := by
    simp [Grid.read, gridOf, hx0, hy0, List.getElem?_map, List.getElem?_range, hx, hy]
  rw [Grid.isLive, hr]
  cases f x.toNat y.toNat <;> rfl

theorem GRID_WIDTH_eq : GRID_WIDTH = 80 := by decide

theorem GRID_HEIGHT_eq : GRID_HEIGHT = 30 := by decide

theorem deadGrid_wellFormed : deadGrid.WellFormed GRID_WIDTH GRID_HEIGHT := by
  rw [GRID_WIDTH_eq, GRID_HEIGHT_eq]
  refine ⟨by simp [deadGrid, gridOf], ?_⟩
  intro row hrow
  simp only [deadGrid, gridOf, List.mem_map] at hrow
  obtain ⟨_, _, rfl⟩ := hrow
  simp

/-! ## The automaton: claims C1 to C5 -/

/-- C1: an `updateLife` call that takes effect on a grid of the fixed dimensions succeeds, and
the new state of every cell `(x, y)` is computed from the pre-tick grid only: with `n` the
pre-tick `countNeighbors(x, y)` and `live` the pre-tick cell, the new cell is live iff
`n` is 2 or 3 when `live`, and iff `n` is 3 when not `live`. -/
theorem updateLife_rule_from_snapshot (s : Game) (now : Int)
    (hwf : s.grid.WellFormed GRID_WIDTH GRID_HEIGHT)
    (hdue : asSeconds (now - s.lifeClock) ≥ LIFE_UPDATE_INTERVAL) :
    ∃ s1, updateLife now s = some s1 ∧
      ∀ x y : Int, 0 ≤ x → x < GRID_WIDTH → 0 ≤ y → y < GRID_HEIGHT →
        ∃ (n : Int) (live : Bool), countNeighbors s.grid x y = some n ∧
          s.grid.read y x = some live ∧
          s1.grid.read y x = some (if live then (n == 2 || n == 3) else n == 3) := by
  obtain ⟨g1, hgen, _, hread⟩ := lifeGenerationOn_spec hwf (by decide : (0 : Int) ≤ GRID_WIDTH)
  refine ⟨{ s with grid := g1, nextGrid := g1, lifeClock := now }, ?_, ?_⟩
  · simp [updateLife, hdue, hgen]
  · intro x y hx0 hxW hy0 hyH
    refine ⟨_, _, countNeighborsOn_eq hwf hx0 hxW hy0 hyH,
      Grid.read_isSome hwf hx0 hxW hy0 hyH, ?_⟩
    show g1.read y x = _
    rw [hread x y hx0 hxW hy0 hyH]
    rfl

theorem updateLife_rule_from_snapshot_witness :
    game0.grid.WellFormed GRID_WIDTH GRID_HEIGHT ∧
    asSeconds (1000000 - game0.lifeClock) ≥ LIFE_UPDATE_INTERVAL ∧
    ∃ s1, updateLife 1000000 game0 = some s1 ∧
      ∀ x y : Int, 0 ≤ x → x < GRID_WIDTH → 0 ≤ y → y < GRID_HEIGHT →
        ∃ (n : Int) (live : Bool), countNeighbors game0.grid x y = some n ∧
          game0.grid.read y x = some live ∧
          s1.grid.read y x = some (if live then (n == 2 || n == 3) else n == 3) :=
  ⟨deadGrid_wellFormed, by norm_num [asSeconds, LIFE_UPDATE_INTERVAL, game0],
    updateLife_rule_from_snapshot game0 1000000 deadGrid_wellFormed
      (by norm_num [asSeconds, LIFE_UPDATE_INTERVAL, game0])⟩

/-- C2: on a grid of the fixed dimensions and an in-range cell `(x, y)`, `countNeighbors(x, y)`
succeeds (every index it uses is in range) and returns the number of the 8 offsets `(i, j)`
whose cell at column `(x+i) mod GRID_WIDTH`, row `(y+j) mod GRID_HEIGHT` is live; that number
is at most 8, none of the 8 cells is `(x, y)` itself, and every index `newX`, `newY` the loop
computes lies in the grid. -/
theorem countNeighbors_counts_wrapped_neighbours (grid : Grid) (x y : Int)
    (hwf : grid.WellFormed GRID_WIDTH GRID_HEIGHT)
    (hx : 0 ≤ x ∧ x < GRID_WIDTH) (hy : 0 ≤ y ∧ y < GRID_HEIGHT) :
    countNeighbors grid x y
        = some (liveWrappedNeighbors GRID_WIDTH GRID_HEIGHT grid x y : Int) ∧
      liveWrappedNeighbors GRID_WIDTH GRID_HEIGHT grid x y ≤ 8 ∧
      (∀ p ∈ neighborOffsets,
        ((x + p.1) % GRID_WIDTH, (y + p.2) % GRID_HEIGHT) ≠ (x, y)) ∧
      (∀ i ∈ offsets, ∀ j ∈ offsets,
        (0 ≤ (x + i + GRID_WIDTH).tmod GRID_WIDTH ∧
          (x + i + GRID_WIDTH).tmod GRID_WIDTH < GRID_WIDTH) ∧
        (0 ≤ (y + j + GRID_HEIGHT).tmod GRID_HEIGHT ∧
          (y + j + GRID_HEIGHT).tmod GRID_HEIGHT < GRID_HEIGHT)) := by
  refine ⟨countNeighborsOn_eq hwf hx.1 hx.2 hy.1 hy.2, ?_, ?_, ?_⟩
  · exact List.countP_le_length _
  · rw [GRID_WIDTH_eq, GRID_HEIGHT_eq] at *
    intro p hp
    simp only [neighborOffsets, List.mem_cons, List.mem_singleton, List.not_mem_nil,
      or_false] at hp
    rcases hp with rfl | rfl | rfl | rfl | rfl | rfl | rfl | rfl <;>
      simp only [ne_eq, Prod.mk.injEq] <;> omega
  · rw [GRID_WIDTH_eq, GRID_HEIGHT_eq] at *
    intro i hi j hj
    simp only [offsets, List.mem_cons, List.mem_singleton, List.not_mem_nil, or_false] at hi hj
    have hi1 : -1 ≤ i := by omega
    have hj1 : -1 ≤ j := by omega
    rw [wrap_index hx.1 hx.2 hi1, wrap_index hy.1 hy.2 hj1]
    omega

theorem countNeighbors_counts_wrapped_neighbours_witness :
    deadGrid.WellFormed GRID_WIDTH GRID_HEIGHT ∧
    ((0 : Int) ≤ 0 ∧ (0 : Int) < GRID_WIDTH) ∧ ((0 : Int) ≤ 29 ∧ (29 : Int) < GRID_HEIGHT) ∧
    countNeighbors deadGrid 0 29
        = some (liveWrappedNeighbors GRID_WIDTH GRID_HEIGHT deadGrid 0 29 : Int) :=
  ⟨deadGrid_wellFormed, by decide, by decide,
    (countNeighbors_counts_wrapped_neighbours deadGrid 0 29 deadGrid_wellFormed
      (by decide) (by decide)).1⟩

/-- C3: on a grid of any width and height of at least 3 whose only live cell is the opposite
corner `(W-1, H-1)`, `countNeighbors(0, 0)` returns 1. -/
theorem countNeighbors_wraps_at_corner (W H : Int) (grid : Grid) (hW : 3 ≤ W) (hH : 3 ≤ H)
    (hwf : grid.WellFormed W H)
    (honly : ∀ x y : Int, 0 ≤ x → x < W → 0 ≤ y → y < H →
      (grid.read y x = some true ↔ x = W - 1 ∧ y = H - 1)) :
    countNeighborsOn W H grid 0 0 = some 1 := by
  rw [countNeighborsOn_eq hwf (le_refl 0) (by omega) (le_refl 0) (by omega)]
  have hm1W : (-1 : Int) % W = W - 1 := by
    rw [← Int.add_emod_self, Int.emod_eq_of_lt (by omega) (by omega)]; ring
  have hm1H : (-1 : Int) % H = H - 1 := by
    rw [← Int.add_emod_self, Int.emod_eq_of_lt (by omega) (by omega)]; ring
  have h0W : (0 : Int) % W = 0 := Int.zero_emod W
  have h0H : (0 : Int) % H = 0 := Int.zero_emod H
  have h1W : (1 : Int) % W = 1 := Int.emod_eq_of_lt (by omega) (by omega)
  have h1H : (1 : Int) % H = 1 := Int.emod_eq_of_lt (by omega) (by omega)
  have live : ∀ x y : Int, 0 ≤ x → x < W → 0 ≤ y → y < H →
      grid.isLive x y = decide (x = W - 1 ∧ y = H - 1) := by
    intro x y hx0 hxW hy0 hyH
    have h := honly x y hx0 hxW hy0 hyH
    by_cases hc : x = W - 1 ∧ y = H - 1
    · rw [Grid.isLive, h.2 hc, decide_eq_true hc]; rfl
    · have hne : grid.read y x ≠ some true := fun hr => hc (h.1 hr)
      simp [Grid.isLive, hne, hc]
  have e1 : grid.isLive (W - 1) (H - 1) = true := by
    rw [live _ _ (by omega) (by omega) (by omega) (by omega)]; simp
  have e2 : grid.isLive (W - 1) 0 = false := by
    rw [live _ _ (by omega) (by omega) (by omega) (by omega)]
    exact decide_eq_false (by omega)
  have e3 : grid.isLive (W - 1) 1 = false := by
    rw [live _ _ (by omega) (by omega) (by omega) (by omega)]
    exact decide_eq_false (by omega)
  have e4 : grid.isLive 0 (H - 1) = false := by
    rw [live _ _ (by omega) (by omega) (by omega) (by omega)]
    exact decide_eq_false (by omega)
  have e5 : grid.isLive 0 1 = false := by
    rw [live _ _ (by omega) (by omega) (by omega) (by omega)]
    exact decide_eq_false (by omega)
  have e6 : grid.isLive 1 (H - 1) = false := by
    rw [live _ _ (by omega) (by omega) (by omega) (by omega)]
    exact decide_eq_false (by omega)
  have e7 : grid.isLive 1 0 = false := by
    rw [live _ _ (by omega) (by omega) (by omega) (by omega)]
    exact decide_eq_false (by omega)
  have e8 : grid.isLive 1 1 = false := by
    rw [live _ _ (by omega) (by omega) (by omega) (by omega)]
    exact decide_eq_false (by omega)
  simp [liveWrappedNeighbors, neighborOffsets, List.countP_cons, hm1W, hm1H, h0W, h0H, h1W, h1H,
    e1, e2, e3, e4, e5, e6, e7, e8]

theorem countNeighbors_wraps_at_corner_witness :
    (3 : Int) ≤ 4 ∧ cornerGrid.WellFormed 4 4 ∧
    (∀ x y : Int, 0 ≤ x → x < 4 → 0 ≤ y → y < 4 →
      (cornerGrid.read y x = some true ↔ x = 4 - 1 ∧ y = 4 - 1)) ∧
    countNeighborsOn 4 4 cornerGrid 0 0 = some 1 :=
  have honly : ∀ x y : Int, 0 ≤ x → x < 4 → 0 ≤ y → y < 4 →
      (cornerGrid.read y x = some true ↔ x = 4 - 1 ∧ y = 4 - 1) := by
    intro x y hx0 hx4 hy0 hy4
    interval_cases x <;> interval_cases y <;> decide
  ⟨by decide, by decide, honly,
    countNeighbors_wraps_at_corner 4 4 cornerGrid (by decide) (by decide) (by decide) honly⟩

/-- C5: tick gating. While less than `LIFE_UPDATE_INTERVAL` has elapsed on the life clock,
`updateLife` changes nothing. Once at least the interval has elapsed, `updateLife` replaces
`grid` and `nextGrid` by the next generation of `grid` and restarts the clock, and any further
call made before another full interval has elapsed changes nothing. -/
theorem updateLife_gated_by_interval (s : Game) (now : Int)
    (hwf : s.grid.WellFormed GRID_WIDTH GRID_HEIGHT) :
    (asSeconds (now - s.lifeClock) < LIFE_UPDATE_INTERVAL → updateLife now s = some s) ∧
    (asSeconds (now - s.lifeClock) ≥ LIFE_UPDATE_INTERVAL →
      ∃ g1, lifeGenerationOn GRID_WIDTH GRID_HEIGHT s.grid = some g1 ∧
        updateLife now s = some { s with grid := g1, nextGrid := g1, lifeClock := now } ∧
        ∀ later : Int, asSeconds (later - now) < LIFE_UPDATE_INTERVAL →
          updateLife later { s with grid := g1, nextGrid := g1, lifeClock := now }
            = some { s with grid := g1, nextGrid := g1, lifeClock := now }) := by
  constructor
  · intro h
    simp [updateLife, not_le.mpr h]
  · intro h
    obtain ⟨g1, hgen, _, _⟩ := lifeGenerationOn_spec hwf (by decide : (0 : Int) ≤ GRID_WIDTH)
    refine ⟨g1, hgen, by simp [updateLife, h, hgen], ?_⟩
    intro later hlater
    simp [updateLife, not_le.mpr hlater]

theorem updateLife_gated_by_interval_witness :
    game0.grid.WellFormed GRID_WIDTH GRID_HEIGHT ∧
    updateLife 999999 game0 = some game0 ∧
    ∃ g1, lifeGenerationOn GRID_WIDTH GRID_HEIGHT game0.grid = some g1 ∧
      updateLife 1000000 game0
        = some { game0 with grid := g1, nextGrid := g1, lifeClock := 1000000 } ∧
      updateLife 1999999 { game0 with grid := g1, nextGrid := g1, lifeClock := 1000000 }
        = some { game0 with grid := g1, nextGrid := g1, lifeClock := 1000000 } :=
  ⟨deadGrid_wellFormed,
    (updateLife_gated_by_interval game0 999999 deadGrid_wellFormed).1
      (by norm_num [asSeconds, LIFE_UPDATE_INTERVAL, game0]),
    ((updateLife_gated_by_interval game0 1000000 deadGrid_wellFormed).2
      (by norm_num [asSeconds, LIFE_UPDATE_INTERVAL, game0])).imp
      fun _ h => ⟨h.1, h.2.1, h.2.2 1999999 (by norm_num [asSeconds, LIFE_UPDATE_INTERVAL])⟩⟩

theorem relRow_step (a b : Int) :
    conwayRule (relRow a b)
      (neighborOffsets.countP fun p => relRow (a + p.1) (b + p.2) : Nat) = relCol a b := by
  have key : ∀ i j : Int, relRow (a + i) (b + j) = relRow (a % 10 + i) (b % 10 + j) := by
    intro i j
    simp only [relRow]
    congr 1
    apply propext
    omega
  have keyC : relCol a b = relCol (a % 10 + 0) (b % 10 + 0) := by
    simp only [relCol]
    congr 1
    apply propext
    omega
  have e0 : relRow a b = relRow (a % 10 + 0) (b % 10 + 0) := by
    have := key 0 0
    simpa using this
  have ef : (fun p : Int × Int => relRow (a + p.1) (b + p.2))
      = fun p : Int × Int => relRow (a % 10 + p.1) (b % 10 + p.2) :=
    funext fun p => key p.1 p.2
  rw [ef, e0, keyC]
  have ha0 : 0 ≤ a % 10 := by omega
  have ha1 : a % 10 < 10 := by omega
  have hb0 : 0 ≤ b % 10 := by omega
  have hb1 : b % 10 < 10 := by omega
  generalize a % 10 = u at *
  generalize b % 10 = w at *
  interval_cases u <;> interval_cases w <;> decide

theorem relCol_step (a b : Int) :
    conwayRule (relCol a b)
      (neighborOffsets.countP fun p => relCol (a + p.1) (b + p.2) : Nat) = relRow a b := by
  have key : ∀ i j : Int, relCol (a + i) (b + j) = relCol (a % 10 + i) (b % 10 + j) := by
    intro i j
    simp only [relCol]
    congr 1
    apply propext
    omega
  have keyR : relRow a b = relRow (a % 10 + 0) (b % 10 + 0) := by
    simp only [relRow]
    congr 1
    apply propext
    omega
  have e0 : relCol a b = relCol (a % 10 + 0) (b % 10 + 0) := by
    have := key 0 0
    simpa using this
  have ef : (fun p : Int × Int => relCol (a + p.1) (b + p.2))
      = fun p : Int × Int => relCol (a % 10 + p.1) (b % 10 + p.2) :=
    funext fun p => key p.1 p.2
  rw [ef, e0, keyR]
  have ha0 : 0 ≤ a % 10 := by omega
  have ha1 : a % 10 < 10 := by omega
  have hb0 : 0 ≤ b % 10 := by omega
  have hb1 : b % 10 < 10 := by omega
  generalize a % 10 = u at *
  generalize b % 10 = w at *
  interval_cases u <;> interval_cases w <;> decide

theorem blinkerRow_isLive {cx cy : Nat} (hcx : cx < 10) (hcy : cy < 10) {x y : Int}
    (hx0 : 0 ≤ x) (hx1 : x < 10) (hy0 : 0 ≤ y) (hy1 : y < 10) :
    (blinkerRow cx cy).isLive x y = relRow (x - cx) (y - cy) := by
  rw [blinkerRow, gridOf_isLive 10 10 _ hx0 (by omega) hy0 (by omega), relRow]
  congr 1
  apply propext
  omega

theorem blinkerCol_isLive {cx cy : Nat} (hcx : cx < 10) (hcy : cy < 10) {x y : Int}
    (hx0 : 0 ≤ x) (hx1 : x < 10) (hy0 : 0 ≤ y) (hy1 : y < 10) :
    (blinkerCol cx cy).isLive x y = relCol (x - cx) (y - cy) := by
  rw [blinkerCol, gridOf_isLive 10 10 _ hx0 (by omega) hy0 (by omega), relCol]
  congr 1
  apply propext
  omega

theorem blinkerRow_neighbours {cx cy : Nat} (hcx : cx < 10) (hcy : cy < 10) (x y : Int) :
    liveWrappedNeighbors 10 10 (blinkerRow cx cy) x y
      = neighborOffsets.countP fun p => relRow (x - cx + p.1) (y - cy + p.2) := by
  unfold liveWrappedNeighbors
  congr 1
  funext p
  rw [blinkerRow_isLive hcx hcy (by omega) (by omega) (by omega) (by omega)]
  simp only [relRow]
  congr 1
  apply propext
  omega

theorem blinkerCol_neighbours {cx cy : Nat} (hcx : cx < 10) (hcy : cy < 10) (x y : Int) :
    liveWrappedNeighbors 10 10 (blinkerCol cx cy) x y
      = neighborOffsets.countP fun p => relCol (x - cx + p.1) (y - cy + p.2) := by
  unfold liveWrappedNeighbors
  congr 1
  funext p
  rw [blinkerCol_isLive hcx hcy (by omega) (by omega) (by omega) (by omega)]
  simp only [relCol]
  congr 1
  apply propext
  omega

/-- C4: blinker oscillation. On the 10x10 torus, for every centre `(cx, cy)`, one generation of
the rule of `updateLife` turns the grid whose only live cells are the three horizontally
adjacent cells centred on `(cx, cy)` into the grid whose only live cells are the three
vertically adjacent cells centred on `(cx, cy)`, and one more generation turns that grid back
into the first. -/
theorem blinker_oscillates (cx cy : Nat) (hcx : cx < 10) (hcy : cy < 10) :
    lifeGenerationOn 10 10 (blinkerRow cx cy) = some (blinkerCol cx cy) ∧
    lifeGenerationOn 10 10 (blinkerCol cx cy) = some (blinkerRow cx cy) := by
  have hR : (blinkerRow cx cy).WellFormed 10 10 := gridOf_wellFormed 10 10 _
  have hC : (blinkerCol cx cy).WellFormed 10 10 := gridOf_wellFormed 10 10 _
  constructor
  · obtain ⟨g1, hgen, hwf1, hread⟩ := lifeGenerationOn_spec hR (by decide)
    rw [hgen]
    congr 1
    apply Grid.ext_of_read hwf1 hC
    intro x y hx0 hx1 hy0 hy1
    rw [hread x y hx0 hx1 hy0 hy1, Grid.read_isSome hC hx0 hx1 hy0 hy1,
      blinkerRow_isLive hcx hcy hx0 hx1 hy0 hy1, blinkerRow_neighbours hcx hcy,
      blinkerCol_isLive hcx hcy hx0 hx1 hy0 hy1, relRow_step]
  · obtain ⟨g1, hgen, hwf1, hread⟩ := lifeGenerationOn_spec hC (by decide)
    rw [hgen]
    congr 1
    apply Grid.ext_of_read hwf1 hR
    intro x y hx0 hx1 hy0 hy1
    rw [hread x y hx0 hx1 hy0 hy1, Grid.read_isSome hR hx0 hx1 hy0 hy1,
      blinkerCol_isLive hcx hcy hx0 hx1 hy0 hy1, blinkerCol_neighbours hcx hcy,
      blinkerRow_isLive hcx hcy hx0 hx1 hy0 hy1, relCol_step]

theorem blinker_oscillates_witness :
    4 < 10 ∧ 5 < 10 ∧
    lifeGenerationOn 10 10 (blinkerRow 4 5) = some (blinkerCol 4 5) ∧
    lifeGenerationOn 10 10 (blinkerCol 4 5) = some (blinkerRow 4 5) :=
  ⟨by decide, by decide, blinker_oscillates 4 5 (by decide) (by decide)⟩

/-! ## Angle correction: claims C6 and C7 -/

theorem cos_arg_mk (x y : ℝ) (h : ¬ (x = 0 ∧ y = 0)) :
    Real.cos (Complex.arg ⟨x, y⟩) = x / Real.sqrt (x * x + y * y) := by
  have hne : (⟨x, y⟩ : ℂ) ≠ 0 := by
    intro h0
    exact h ⟨congrArg Complex.re h0, congrArg Complex.im h0⟩
  rw [Complex.cos_arg hne, Complex.abs_apply, Complex.normSq_mk]

theorem sqrt_sumsq_pos (x y : ℝ) (h : ¬ (x = 0 ∧ y = 0)) : 0 < Real.sqrt (x * x + y * y) := by
  apply Real.sqrt_pos.mpr
  by_cases hx : x = 0
  · have hy : y ≠ 0 := fun hy => h ⟨hx, hy⟩
    have := mul_self_pos.mpr hy
    nlinarith [mul_self_nonneg x]
  · have := mul_self_pos.mpr hx
    nlinarith [mul_self_nonneg y]

/-- On finite components the test of `adjustBallVelocity` is `|x| < 0.3 * speed`. -/
theorem tooVertical_val (x y : ℝ) :
    tooVertical ⟨Flt.val x, Flt.val y⟩ ↔ |x| < 3 / 10 * Real.sqrt (x * x + y * y) := by
  show |Real.cos (Complex.arg ⟨x, y⟩)| < 3 / 10 ↔ _
  by_cases h : x = 0 ∧ y = 0
  · obtain ⟨rfl, rfl⟩ := h
    have h0 : (⟨0, 0⟩ : ℂ) = 0 := rfl
    rw [h0, Complex.arg_zero, Real.cos_zero]
    norm_num
  · have hs := sqrt_sumsq_pos x y h
    rw [cos_arg_mk x y h, abs_div, abs_of_pos hs, div_lt_iff₀ hs]

theorem not_tooVertical_nan_x (y : Flt) : ¬ tooVertical ⟨Flt.nan, y⟩ := by
  cases y <;> exact fun h => h

theorem not_tooVertical_nan_y (x : Flt) : ¬ tooVertical ⟨x, Flt.nan⟩ := by
  cases x <;> exact fun h => h

theorem adjustBallVelocity_of_not_tooVertical (adjustment : ℝ) (v : Vector2f)
    (h : ¬ tooVertical v) : adjustBallVelocity adjustment v = v := by
  unfold tooVertical at h
  simp only [adjustBallVelocity, if_neg h]

/-- The correction of a finite, too vertical velocity, with `speed` and the new x-component
evaluated; the y-component is still NaN when the radicand is negative. -/
theorem adjustBallVelocity_val (adjustment x y : ℝ) (h : tooVertical ⟨Flt.val x, Flt.val y⟩) :
    adjustBallVelocity adjustment ⟨Flt.val x, Flt.val y⟩ =
      ⟨Flt.val (if 0 < x then Real.sqrt (x * x + y * y) * (3 / 10) + |adjustment|
          else -Real.sqrt (x * x + y * y) * (3 / 10) - |adjustment|),
        (if 0 < y then Flt.val 1 else Flt.val (-1)) *
          Flt.sqrt (Flt.val (Real.sqrt (x * x + y * y) * Real.sqrt (x * x + y * y)
            - (if 0 < x then Real.sqrt (x * x + y * y) * (3 / 10) + |adjustment|
                else -Real.sqrt (x * x + y * y) * (3 / 10) - |adjustment|)
              * (if 0 < x then Real.sqrt (x * x + y * y) * (3 / 10) + |adjustment|
                else -Real.sqrt (x * x + y * y) * (3 / 10) - |adjustment|)))⟩ := by
  have hnn : 0 ≤ x * x + y * y := by nlinarith [mul_self_nonneg x, mul_self_nonneg y]
  have hs : Flt.sqrt (Flt.val x * Flt.val x + Flt.val y * Flt.val y)
      = Flt.val (Real.sqrt (x * x + y * y)) := by
    show (if 0 ≤ x * x + y * y then Flt.val (Real.sqrt (x * x + y * y)) else Flt.nan) = _
    rw [if_pos hnn]
  unfold tooVertical at h
  simp only [adjustBallVelocity, if_pos h, hs]
  by_cases hx : 0 < x
  · have hx1 : Flt.lt (Flt.val 0) (Flt.val x) := hx
    by_cases hy : 0 < y
    · have hy1 : Flt.lt (Flt.val 0) (Flt.val y) := hy
      simp only [if_pos hx1, if_pos hy1, if_pos hx, if_pos hy]
      rfl
    · have hy1 : ¬ Flt.lt (Flt.val 0) (Flt.val y) := hy
      simp only [if_pos hx1, if_neg hy1, if_pos hx, if_neg hy]
      rfl
  · have hx1 : ¬ Flt.lt (Flt.val 0) (Flt.val x) := hx
    by_cases hy : 0 < y
    · have hy1 : Flt.lt (Flt.val 0) (Flt.val y) := hy
      simp only [if_neg hx1, if_pos hy1, if_neg hx, if_pos hy]
      rfl
    · have hy1 : ¬ Flt.lt (Flt.val 0) (Flt.val y) := hy
      simp only [if_neg hx1, if_neg hy1, if_neg hx, if_neg hy]
      rfl

theorem sqrt_low_speed : Real.sqrt ((0 : ℝ) * 0 + 1 / 10 * (1 / 10)) = 1 / 10 := by
  rw [show (0 : ℝ) * 0 + 1 / 10 * (1 / 10) = (1 / 10) ^ 2 by norm_num]
  exact Real.sqrt_sq (by norm_num)

/-- The correction at velocity `(0, 0.1)` with the jitter `0.2`: the radicand is negative. -/
theorem adjustBallVelocity_low_speed :
    adjustBallVelocity (1 / 5) ⟨Flt.val 0, Flt.val (1 / 10)⟩
      = ⟨Flt.val (-(23 / 100)), Flt.nan⟩ := by
  have h : tooVertical ⟨Flt.val 0, Flt.val (1 / 10)⟩ := by
    rw [tooVertical_val, sqrt_low_speed]; norm_num
  rw [adjustBallVelocity_val _ _ _ h, sqrt_low_speed]
  have hx : ¬ ((0 : ℝ) < 0) := lt_irrefl 0
  have hy : (0 : ℝ) < 1 / 10 := by norm_num
  have habs : |(1 / 5 : ℝ)| = 1 / 5 := abs_of_pos (by norm_num)
  simp only [if_neg hx, if_pos hy, habs]
  have hrad : ¬ (0 : ℝ) ≤ 1 / 10 * (1 / 10)
      - (-(1 / 10) * (3 / 10) - 1 / 5) * (-(1 / 10) * (3 / 10) - 1 / 5) := by norm_num
  have hsq : Flt.sqrt (Flt.val (1 / 10 * (1 / 10)
      - (-(1 / 10) * (3 / 10) - 1 / 5) * (-(1 / 10) * (3 / 10) - 1 / 5))) = Flt.nan := by
    show (if _ then _ else _) = _
    rw [if_neg hrad]
  rw [hsq]
  have hxv : (-(1 / 10) * (3 / 10) - 1 / 5 : ℝ) = -(23 / 100) := by norm_num
  rw [hxv]
  rfl

/-- C6: the source has no clamp. At velocity `(0, 0.1)` (speed 0.1) and jitter `0.2`, which lies
in `[-0.2, 0.2]`, the correction branch is taken, the new x-component is `-0.23`, the radicand
`speed^2 - x^2` is negative, and the y-component that `adjustBallVelocity` leaves is NaN. -/
theorem adjustBallVelocity_produces_nan :
    |(1 / 5 : ℝ)| ≤ 1 / 5 ∧
    tooVertical ⟨Flt.val 0, Flt.val (1 / 10)⟩ ∧
    (1 / 10 : ℝ) * (1 / 10) - (-(23 / 100)) * (-(23 / 100)) < 0 ∧
    (adjustBallVelocity (1 / 5) ⟨Flt.val 0, Flt.val (1 / 10)⟩).x = Flt.val (-(23 / 100)) ∧
    (adjustBallVelocity (1 / 5) ⟨Flt.val 0, Flt.val (1 / 10)⟩).y = Flt.nan := by
  refine ⟨by norm_num [abs_of_pos], ?_, by norm_num, ?_, ?_⟩
  · rw [tooVertical_val, sqrt_low_speed]; norm_num
  · rw [adjustBallVelocity_low_speed]
  · rw [adjustBallVelocity_low_speed]

/-- C7: at velocity `(0, 0.1)` and jitter `0.2` the speed before the correction is `0.1` and
the speed after it is NaN: the correction does not conserve the speed there. -/
theorem adjustBallVelocity_loses_speed :
    Vector2f.speed ⟨Flt.val 0, Flt.val (1 / 10)⟩ = Flt.val (1 / 10) ∧
    Vector2f.speed (adjustBallVelocity (1 / 5) ⟨Flt.val 0, Flt.val (1 / 10)⟩) = Flt.nan := by
  constructor
  · show (if (0 : ℝ) ≤ 0 * 0 + 1 / 10 * (1 / 10) then
      Flt.val (Real.sqrt (0 * 0 + 1 / 10 * (1 / 10))) else Flt.nan) = _
    rw [if_pos (by norm_num), sqrt_low_speed]
  · rw [adjustBallVelocity_low_speed]
    rfl

/-! ## Ball reset: claim C9 -/

/-- The launch velocity `(4u, 4)` with `|u| <= 0.3` is always too vertical, and its correction
has finite components: the x-component has magnitude `0.3 * speed + |adjustment|` and the
y-component is `sqrt(speed^2 - x^2)`, strictly between 0 and 4. -/
theorem launch_corrected (u adj : ℝ) (hu : |u| ≤ 3 / 10) (hadj : |adj| ≤ 1 / 5) :
    tooVertical ⟨Flt.val (u * 4), Flt.val 4⟩ ∧
    ∃ vx vy : ℝ, adjustBallVelocity adj ⟨Flt.val (u * 4), Flt.val 4⟩ = ⟨Flt.val vx, Flt.val vy⟩ ∧
      |vx| = 3 / 10 * Real.sqrt (u * 4 * (u * 4) + 4 * 4) + |adj| ∧
      (0 < u → 0 < vx) ∧ (u ≤ 0 → vx < 0) ∧
      vy = Real.sqrt (Real.sqrt (u * 4 * (u * 4) + 4 * 4) * Real.sqrt (u * 4 * (u * 4) + 4 * 4)
        - vx * vx) ∧
      vx * vx + vy * vy = u * 4 * (u * 4) + 4 * 4 ∧ 0 < vy ∧ vy < 4 := by
  have hnn : 0 ≤ u * 4 * (u * 4) + 4 * 4 := by nlinarith [mul_self_nonneg (u * 4)]
  have hSS : Real.sqrt (u * 4 * (u * 4) + 4 * 4) * Real.sqrt (u * 4 * (u * 4) + 4 * 4)
      = u * 4 * (u * 4) + 4 * 4 := Real.mul_self_sqrt hnn
  have hS0 : 0 ≤ Real.sqrt (u * 4 * (u * 4) + 4 * 4) := Real.sqrt_nonneg _
  have hS4 : 4 ≤ Real.sqrt (u * 4 * (u * 4) + 4 * 4) := by
    apply Real.le_sqrt_of_sq_le
    nlinarith [mul_self_nonneg (u * 4)]
  have ha0 : 0 ≤ |adj| := abs_nonneg _
  have hu2 : u * u ≤ 9 / 100 := by
    have := abs_mul_abs_self u
    nlinarith [abs_nonneg u]
  have htv : tooVertical ⟨Flt.val (u * 4), Flt.val 4⟩ := by
    rw [tooVertical_val]
    by_contra hcon
    rw [not_lt] at hcon
    have h1 := mul_self_le_mul_self (by positivity) hcon
    rw [abs_mul_abs_self] at h1
    have e : 3 / 10 * Real.sqrt (u * 4 * (u * 4) + 4 * 4)
        * (3 / 10 * Real.sqrt (u * 4 * (u * 4) + 4 * 4))
        = 9 / 100 * (Real.sqrt (u * 4 * (u * 4) + 4 * 4)
          * Real.sqrt (u * 4 * (u * 4) + 4 * 4)) := by ring
    rw [e, hSS] at h1
    nlinarith
  refine ⟨htv, ?_⟩
  rw [adjustBallVelocity_val adj (u * 4) 4 htv]
  generalize Real.sqrt (u * 4 * (u * 4) + 4 * 4) = S at hSS hS0 hS4
  have h4 : (0 : ℝ) < 4 := by norm_num
  rw [if_pos h4]
  have hx1 : (if 0 < u * 4 then S * (3 / 10) + |adj| else -S * (3 / 10) - |adj|)
        = S * (3 / 10) + |adj| ∧ 0 < u ∨
      (if 0 < u * 4 then S * (3 / 10) + |adj| else -S * (3 / 10) - |adj|)
        = -S * (3 / 10) - |adj| ∧ u ≤ 0 := by
    by_cases hx : 0 < u * 4
    · left; rw [if_pos hx]; exact ⟨rfl, by linarith⟩
    · right; rw [if_neg hx]; exact ⟨rfl, by linarith⟩
  generalize (if 0 < u * 4 then S * (3 / 10) + |adj| else -S * (3 / 10) - |adj|) = x1 at hx1
  have hsq : x1 * x1 = (S * (3 / 10) + |adj|) * (S * (3 / 10) + |adj|) := by
    rcases hx1 with ⟨h, _⟩ | ⟨h, _⟩
    · rw [h]
    · rw [h]; ring
  have hradpos : 0 < S * S - x1 * x1 := by
    rw [hsq]; nlinarith
  have hradlt : S * S - x1 * x1 < 4 ^ 2 := by
    rw [hsq]; nlinarith
  have hsqrt : Flt.sqrt (Flt.val (S * S - x1 * x1)) = Flt.val (Real.sqrt (S * S - x1 * x1)) := by
    show (if _ then _ else _) = _
    rw [if_pos hradpos.le]
  rw [hsqrt]
  refine ⟨x1, Real.sqrt (S * S - x1 * x1), ?_, ?_, ?_, ?_, rfl, ?_, Real.sqrt_pos.mpr hradpos, ?_⟩
  · show (⟨Flt.val x1, Flt.val (1 * Real.sqrt (S * S - x1 * x1))⟩ : Vector2f) = _
    rw [one_mul]
  · rcases hx1 with ⟨h, _⟩ | ⟨h, _⟩
    · rw [h, abs_of_nonneg (by positivity)]; ring
    · have hneg : -S * (3 / 10) - |adj| ≤ 0 := by nlinarith
      rw [h, abs_of_nonpos hneg]; ring
  · intro hpos
    rcases hx1 with ⟨h, _⟩ | ⟨_, h⟩
    · rw [h]; nlinarith
    · linarith
  · intro hle
    rcases hx1 with ⟨_, h⟩ | ⟨h, _⟩
    · linarith
    · rw [h]; nlinarith
  · rw [Real.mul_self_sqrt hradpos.le, ← hSS]; ring
  · exact (Real.sqrt_lt' h4).mpr hradlt

/-- C9, as the source has it: `resetBall` puts the top-left corner of the ball's bounding box at
`(WINDOW_WIDTH/2 - radius, WINDOW_HEIGHT/2 - radius)`, so that the ball's centre is the centre
`(400, 300)` of the field, and sets the velocity to the angle correction of
`(INITIAL_BALL_SPEED * u, INITIAL_BALL_SPEED)`. For every `u` in `[-0.3, 0.3]` and every jitter
in `[-0.2, 0.2]` that launch velocity is too vertical, so the correction fires: the velocity
left has finite components, an x-component of magnitude `0.3 * speed + |jitter|` with the sign
of `u` (negative for `u = 0`), and a y-component `sqrt(speed^2 - vx^2)` that is positive and
strictly below `INITIAL_BALL_SPEED`, where `speed^2 = (4u)^2 + 4^2` is unchanged. -/
theorem resetBall_centres_and_corrects (u adj : ℝ) (s : Game)
    (hu : |u| ≤ 3 / 10) (hadj : |adj| ≤ 1 / 5) :
    (resetBall u adj s).ball.x = 400 - s.ball.radius ∧
    (resetBall u adj s).ball.y = 300 - s.ball.radius ∧
    (resetBall u adj s).ball.radius = s.ball.radius ∧
    (resetBall u adj s).ball.x + (resetBall u adj s).ball.radius = (WINDOW_WIDTH : ℝ) / 2 ∧
    (resetBall u adj s).ball.y + (resetBall u adj s).ball.radius = (WINDOW_HEIGHT : ℝ) / 2 ∧
    (resetBall u adj s).ballVelocity
      = adjustBallVelocity adj ⟨Flt.val (u * INITIAL_BALL_SPEED), Flt.val INITIAL_BALL_SPEED⟩ ∧
    tooVertical ⟨Flt.val (u * INITIAL_BALL_SPEED), Flt.val INITIAL_BALL_SPEED⟩ ∧
    ∃ vx vy : ℝ, (resetBall u adj s).ballVelocity = ⟨Flt.val vx, Flt.val vy⟩ ∧
      |vx| = 3 / 10 * Real.sqrt (u * 4 * (u * 4) + 4 * 4) + |adj| ∧
      (0 < u → 0 < vx) ∧ (u ≤ 0 → vx < 0) ∧
      vx * vx + vy * vy = u * 4 * (u * 4) + 4 * 4 ∧
      0 < vy ∧ vy < INITIAL_BALL_SPEED := by
  have hW : ((WINDOW_WIDTH.tdiv 2 : Int) : ℝ) = 400 := by
    rw [show WINDOW_WIDTH.tdiv 2 = 400 by decide]; norm_num
  have hH : ((WINDOW_HEIGHT.tdiv 2 : Int) : ℝ) = 300 := by
    rw [show WINDOW_HEIGHT.tdiv 2 = 300 by decide]; norm_num
  have hWW : (WINDOW_WIDTH : ℝ) = 800 := by
    rw [show WINDOW_WIDTH = 800 by rfl]; norm_num
  have hHH : (WINDOW_HEIGHT : ℝ) = 600 := by
    rw [show WINDOW_HEIGHT = 600 by rfl]; norm_num
  obtain ⟨htv, vx, vy, hv, habs, hpos, hneg, _, hsum, hvy0, hvy4⟩ := launch_corrected u adj hu hadj
  refine ⟨?_, ?_, rfl, ?_, ?_, rfl, ?_, vx, vy, ?_, habs, hpos, hneg, hsum, hvy0, ?_⟩
  · show ((WINDOW_WIDTH.tdiv 2 : Int) : ℝ) - s.ball.radius = _
    rw [hW]
  · show ((WINDOW_HEIGHT.tdiv 2 : Int) : ℝ) - s.ball.radius = _
    rw [hH]
  · show ((WINDOW_WIDTH.tdiv 2 : Int) : ℝ) - s.ball.radius + s.ball.radius = _
    rw [hW, hWW]; norm_num
  · show ((WINDOW_HEIGHT.tdiv 2 : Int) : ℝ) - s.ball.radius + s.ball.radius = _
    rw [hH, hHH]; norm_num
  · unfold INITIAL_BALL_SPEED; exact htv
  · show adjustBallVelocity adj ⟨Flt.val (u * INITIAL_BALL_SPEED), Flt.val INITIAL_BALL_SPEED⟩ = _
    unfold INITIAL_BALL_SPEED; exact hv
  · unfold INITIAL_BALL_SPEED; exact hvy4

theorem resetBall_centres_and_corrects_witness :
    |(0 : ℝ)| ≤ 3 / 10 ∧ |(0 : ℝ)| ≤ 1 / 5 ∧
    (resetBall 0 0 game0).ball.x = 400 - game0.ball.radius ∧
    (resetBall 0 0 game0).ball.y = 300 - game0.ball.radius ∧
    ∃ vx vy : ℝ, (resetBall 0 0 game0).ballVelocity = ⟨Flt.val vx, Flt.val vy⟩ ∧
      0 < vy ∧ vy < INITIAL_BALL_SPEED :=
  have h := resetBall_centres_and_corrects 0 0 game0 (by norm_num) (by norm_num)
  ⟨by norm_num, by norm_num, h.1, h.2.1,
    h.2.2.2.2.2.2.2.imp fun _ hx => hx.imp fun _ hy => ⟨hy.1, hy.2.2.2.2.2.1, hy.2.2.2.2.2.2⟩⟩

/-- C9 as stated fails: with the draw `u = 0` and the jitter `0`, both in range, the velocity
`resetBall` leaves does not have the y-component `INITIAL_BALL_SPEED`. -/
theorem resetBall_velocity_not_initial :
    |(0 : ℝ)| ≤ 3 / 10 ∧ |(0 : ℝ)| ≤ 1 / 5 ∧
    ¬ ((resetBall 0 0 game0).ballVelocity.y = Flt.val INITIAL_BALL_SPEED ∧
      ∃ w : ℝ, |w| ≤ 3 / 10 ∧
        (resetBall 0 0 game0).ballVelocity.x = Flt.val (INITIAL_BALL_SPEED * w)) := by
  refine ⟨by norm_num, by norm_num, ?_⟩
  rintro ⟨hy, _⟩
  obtain ⟨_, vx, vy, hv, _, _, _, _, _, _, hvy4⟩ :=
    launch_corrected 0 0 (by norm_num) (by norm_num)
  have hvel : (resetBall 0 0 game0).ballVelocity = ⟨Flt.val vx, Flt.val vy⟩ := by
    show adjustBallVelocity 0 ⟨Flt.val (0 * INITIAL_BALL_SPEED), Flt.val INITIAL_BALL_SPEED⟩ = _
    unfold INITIAL_BALL_SPEED; exact hv
  rw [hvel] at hy
  have h4 : vy = INITIAL_BALL_SPEED := Flt.val.inj hy
  unfold INITIAL_BALL_SPEED at h4
  linarith

/-! ## The bounds of the ball and of a cell -/

theorem circleCos_bounds : 9944 / 10000 < circleCos ∧ circleCos < 9946 / 10000 := by
  have hpi1 := Real.pi_gt_d2
  have hpi2 := Real.pi_lt_d2
  have hx0 : 0 < Real.pi / 30 := by positivity
  have hx1 : Real.pi / 30 < 105 / 1000 := by linarith
  have hx2 : 1046 / 10000 < Real.pi / 30 := by linarith
  have habs : |Real.pi / 30| ≤ 1 := by
    rw [abs_of_pos hx0]; linarith
  have hb := Real.cos_bound habs
  rw [abs_of_pos hx0] at hb
  have hb2 := abs_le.mp hb
  have hsq1 : (Real.pi / 30) ^ 2 < (105 / 1000) ^ 2 := by
    apply pow_lt_pow_left₀ hx1 hx0.le; norm_num
  have hsq2 : (1046 / 10000 : ℝ) ^ 2 < (Real.pi / 30) ^ 2 := by
    apply pow_lt_pow_left₀ hx2 (by norm_num); norm_num
  have hq : (Real.pi / 30) ^ 4 < (105 / 1000) ^ 4 := by
    apply pow_lt_pow_left₀ hx1 hx0.le; norm_num
  unfold circleCos
  constructor
  · nlinarith [hb2.1]
  · nlinarith [hb2.2]

/-- Two rectangles of non-negative sizes intersect iff their open extents overlap on both
axes. -/
theorem FloatRect.intersects_iff (a b : FloatRect) (haw : 0 ≤ a.width) (hah : 0 ≤ a.height)
    (hbw : 0 ≤ b.width) (hbh : 0 ≤ b.height) :
    a.intersects b ↔
      (a.left < a.left + a.width ∧ a.left < b.left + b.width ∧
        b.left < a.left + a.width ∧ b.left < b.left + b.width) ∧
      (a.top < a.top + a.height ∧ a.top < b.top + b.height ∧
        b.top < a.top + a.height ∧ b.top < b.top + b.height) := by
  unfold FloatRect.intersects
  rw [min_eq_left (by linarith : a.left ≤ a.left + a.width),
    max_eq_right (by linarith : a.left ≤ a.left + a.width),
    min_eq_left (by linarith : b.left ≤ b.left + b.width),
    max_eq_right (by linarith : b.left ≤ b.left + b.width),
    min_eq_left (by linarith : a.top ≤ a.top + a.height),
    max_eq_right (by linarith : a.top ≤ a.top + a.height),
    min_eq_left (by linarith : b.top ≤ b.top + b.height),
    max_eq_right (by linarith : b.top ≤ b.top + b.height),
    max_lt_iff, max_lt_iff, lt_min_iff, lt_min_iff, lt_min_iff, lt_min_iff]
  constructor
  · rintro ⟨⟨⟨h1, h2⟩, ⟨h3, h4⟩⟩, ⟨⟨h5, h6⟩, ⟨h7, h8⟩⟩⟩
    exact ⟨⟨h1, h2, h3, h4⟩, ⟨h5, h6, h7, h8⟩⟩
  · rintro ⟨⟨h1, h2, h3, h4⟩, ⟨h5, h6, h7, h8⟩⟩
    exact ⟨⟨⟨h1, h2⟩, ⟨h3, h4⟩⟩, ⟨⟨h5, h6⟩, ⟨h7, h8⟩⟩⟩

/-- A rectangle that ends above the top of another does not intersect it. -/
theorem FloatRect.not_intersects_of_above (a b : FloatRect) (hah : 0 ≤ a.height)
    (hbh : 0 ≤ b.height) (h : a.top + a.height ≤ b.top) : ¬ a.intersects b := by
  rintro ⟨_, hv⟩
  rw [min_eq_left (by linarith : a.top ≤ a.top + a.height),
    max_eq_right (by linarith : a.top ≤ a.top + a.height),
    min_eq_left (by linarith : b.top ≤ b.top + b.height),
    max_eq_right (by linarith : b.top ≤ b.top + b.height), max_lt_iff, lt_min_iff,
    lt_min_iff] at hv
  linarith [hv.2.1]

theorem brickBounds_eq (c r : Int) : brickBounds c r = ⟨10 * (c : ℝ), 10 * (r : ℝ), 9, 9⟩ := by
  simp only [brickBounds, CELL_SIZE]
  push_cast
  norm_num
  constructor <;> ring

/-- With radius 5 the ball's bounds intersect the bounds `(10c, 10r, 9, 9)` of a cell iff the
open extents overlap on both axes. -/
theorem intersects_brick_iff (s : Game) (hr : s.ball.radius = 5) (c r : Int) :
    s.ball.getGlobalBounds.intersects (brickBounds c r) ↔
      (s.ball.x + 5 * (1 - circleCos) < 10 * (c : ℝ) + 9 ∧
        10 * (c : ℝ) < s.ball.x + 5 * (1 - circleCos) + 10 * circleCos) ∧
      (s.ball.y < 10 * (r : ℝ) + 9 ∧ 10 * (r : ℝ) < s.ball.y + 10) := by
  obtain ⟨hc1, hc2⟩ := circleCos_bounds
  have hb : s.ball.getGlobalBounds
      = ⟨s.ball.x + 5 * (1 - circleCos), s.ball.y, 10 * circleCos, 10⟩ := by
    unfold Ball.getGlobalBounds
    rw [hr]
    norm_num
  rw [hb, brickBounds_eq,
    FloatRect.intersects_iff _ _ (by show (0 : ℝ) ≤ 10 * circleCos; linarith)
      (by show (0 : ℝ) ≤ 10; norm_num) (by show (0 : ℝ) ≤ 9; norm_num)
      (by show (0 : ℝ) ≤ 9; norm_num)]
  constructor
  · rintro ⟨⟨_, h1, h2, _⟩, ⟨_, h3, h4, _⟩⟩
    exact ⟨⟨h1, h2⟩, ⟨h3, h4⟩⟩
  · rintro ⟨⟨h1, h2⟩, ⟨h3, h4⟩⟩
    refine ⟨⟨?_, h1, h2, ?_⟩, ⟨?_, h3, h4, ?_⟩⟩
    · show s.ball.x + 5 * (1 - circleCos) < s.ball.x + 5 * (1 - circleCos) + 10 * circleCos
      linarith
    · show 10 * (c : ℝ) < 10 * (c : ℝ) + 9
      linarith
    · show s.ball.y < s.ball.y + 10
      linarith
    · show 10 * (r : ℝ) < 10 * (r : ℝ) + 9
      linarith

/-- With radius 5 the square `(px, py, 10, 10)` intersects the bounds of a cell iff the open
extents overlap on both axes. -/
theorem square_intersects_brick_iff (s : Game) (hr : s.ball.radius = 5) (c r : Int) :
    s.ball.boundingSquare.intersects (brickBounds c r) ↔
      (s.ball.x < 10 * (c : ℝ) + 9 ∧ 10 * (c : ℝ) < s.ball.x + 10) ∧
      (s.ball.y < 10 * (r : ℝ) + 9 ∧ 10 * (r : ℝ) < s.ball.y + 10) := by
  have hb : s.ball.boundingSquare = ⟨s.ball.x, s.ball.y, 10, 10⟩ := by
    unfold Ball.boundingSquare
    rw [hr]
    norm_num
  rw [hb, brickBounds_eq,
    FloatRect.intersects_iff _ _ (by show (0 : ℝ) ≤ 10; norm_num)
      (by show (0 : ℝ) ≤ 10; norm_num) (by show (0 : ℝ) ≤ 9; norm_num)
      (by show (0 : ℝ) ≤ 9; norm_num)]
  constructor
  · rintro ⟨⟨_, h1, h2, _⟩, ⟨_, h3, h4, _⟩⟩
    exact ⟨⟨h1, h2⟩, ⟨h3, h4⟩⟩
  · rintro ⟨⟨h1, h2⟩, ⟨h3, h4⟩⟩
    refine ⟨⟨?_, h1, h2, ?_⟩, ⟨?_, h3, h4, ?_⟩⟩
    · show s.ball.x < s.ball.x + 10
      linarith
    · show 10 * (c : ℝ) < 10 * (c : ℝ) + 9
      linarith
    · show s.ball.y < s.ball.y + 10
      linarith
    · show 10 * (r : ℝ) < 10 * (r : ℝ) + 9
      linarith

/-! ## Hits of the scan window -/

theorem isHit_inRange {s : Game} {gridX gridY : Int} {p : Int × Int}
    (h : isHit s gridX gridY p = true) :
    (0 ≤ gridX + p.2 ∧ gridX + p.2 < GRID_WIDTH ∧ 0 ≤ gridY + p.1 ∧ gridY + p.1 < GRID_HEIGHT) ∧
      s.grid.isLive (gridX + p.2) (gridY + p.1) = true ∧
      s.ball.getGlobalBounds.intersects (brickBounds (gridX + p.2) (gridY + p.1)) := by
  unfold isHit at h
  rw [Bool.and_eq_true, Bool.and_eq_true, decide_eq_true_eq, decide_eq_true_eq] at h
  exact ⟨h.1.1, h.1.2, h.2⟩

/-! ## Brick destruction: claim C10 -/

/-- The brick scan over any part of the window: it succeeds, and clears exactly the first hit
of that part, if there is one. -/
theorem brickScan_spec (adj : ℝ) (s : Game) (v : Vector2f) (gridX gridY : Int)
    (hwf : s.grid.WellFormed GRID_WIDTH GRID_HEIGHT)
    (hwfn : s.nextGrid.WellFormed GRID_WIDTH GRID_HEIGHT) (l : List (Int × Int)) :
    ∃ s1, brickScan adj s v gridX gridY l = some s1 ∧
      ClearsOnly s.grid s1.grid
        ((l.find? (isHit s gridX gridY)).map fun p => (gridX + p.2, gridY + p.1)) := by
  induction l with
  | nil => exact ⟨{ s with ballVelocity := v }, rfl, rfl⟩
  | cons p rest ih =>
    obtain ⟨dy, dx⟩ := p
    obtain ⟨s1, hs1, hc1⟩ := ih
    by_cases hr : gridX + dx ≥ 0 ∧ gridX + dx < GRID_WIDTH ∧
        gridY + dy ≥ 0 ∧ gridY + dy < GRID_HEIGHT
    · obtain ⟨hx0, hxW, hy0, hyH⟩ := hr
      have hread := Grid.read_isSome hwf hx0 hxW hy0 hyH
      by_cases hhit : s.grid.isLive (gridX + dx) (gridY + dy) = true ∧
          s.ball.getGlobalBounds.intersects (brickBounds (gridX + dx) (gridY + dy))
      · obtain ⟨hlive, hint⟩ := hhit
        have hisHit : isHit s gridX gridY (dy, dx) = true := by
          simp [isHit, hx0, hxW, hy0, hyH, hlive, hint]
        obtain ⟨g1, hw1, _, hr1⟩ := Grid.write_spec hwf hx0 hxW hy0 hyH false
        obtain ⟨n1, hw2, _, _⟩ := Grid.write_spec hwfn hx0 hxW hy0 hyH false
        rw [hlive] at hread
        have hbh : ∃ s2, brickHit adj s v (gridX + dx) (gridY + dy) = some s2 ∧
            s2.grid = g1 := by
          simp only [brickHit, hw1, hw2, Option.bind_eq_bind, Option.some_bind]
          exact ⟨_, rfl, rfl⟩
        obtain ⟨s2, hs2, hg2⟩ := hbh
        refine ⟨s2, ?_, ?_⟩
        · rw [← hs2]
          simp only [brickScan, hx0, hxW, hy0, hyH, and_self, if_true, hread, hint]
        · rw [List.find?_cons, hisHit, hg2]
          refine ⟨hread, ?_, ?_⟩
          · rw [hr1, if_pos ⟨rfl, rfl⟩]
          · intro x y hne
            rw [hr1, if_neg (fun h => hne ⟨h.2, h.1⟩)]
      · have hisHit : isHit s gridX gridY (dy, dx) = false := by
          rw [not_and_or] at hhit
          rcases hhit with h | h
          · simp [isHit, h]
          · simp [isHit, h]
        refine ⟨s1, ?_, ?_⟩
        · rw [← hs1]
          cases hlive : s.grid.isLive (gridX + dx) (gridY + dy)
          · rw [hlive] at hread
            simp only [brickScan, hx0, hxW, hy0, hyH, and_self, if_true, hread]
          · rw [hlive] at hread
            have hint : ¬ s.ball.getGlobalBounds.intersects
                (brickBounds (gridX + dx) (gridY + dy)) := fun h => hhit ⟨hlive, h⟩
            simp only [brickScan, hx0, hxW, hy0, hyH, and_self, if_true, hread, hint, if_false]
        · rw [List.find?_cons, hisHit]
          exact hc1
    · have hisHit : isHit s gridX gridY (dy, dx) = false := by
        have : ¬ (0 ≤ gridX + dx ∧ gridX + dx < GRID_WIDTH ∧
            0 ≤ gridY + dy ∧ gridY + dy < GRID_HEIGHT) := hr
        simp [isHit, this]
      refine ⟨s1, ?_, ?_⟩
      · rw [← hs1]
        simp only [brickScan, if_neg hr]
      · rw [List.find?_cons, hisHit]
        exact hc1

theorem scanWindow_eq :
    scanWindow = [(-1, -1), (-1, 0), (-1, 1), (0, -1), (0, 0), (0, 1), (1, -1), (1, 0), (1, 1)] := by
  decide

/-- C10: on well-formed grids one call of `checkCollisions` succeeds and changes the grid in at
most one cell: when no entry of the 3x3 window is a live in-range cell whose bounds intersect
the ball's, the grid is unchanged; otherwise exactly the first such cell in scan order (`dy`
outermost, `dx` innermost) goes from live to dead and every other cell keeps its value, however
many live cells the ball overlaps. -/
theorem checkCollisions_destroys_one_brick (d : Draws) (s : Game)
    (hwf : s.grid.WellFormed GRID_WIDTH GRID_HEIGHT)
    (hwfn : s.nextGrid.WellFormed GRID_WIDTH GRID_HEIGHT) :
    ∃ s1, checkCollisions d s = some s1 ∧
      ClearsOnly s.grid s1.grid (firstHitCell s) ∧
      ((∃ p ∈ scanWindow, isHit s (truncToInt (s.ball.x / (CELL_SIZE : ℝ)))
          (truncToInt (s.ball.y / (CELL_SIZE : ℝ))) p = true) →
        ∃ c, firstHitCell s = some c) ∧
      ((∀ p ∈ scanWindow, isHit s (truncToInt (s.ball.x / (CELL_SIZE : ℝ)))
          (truncToInt (s.ball.y / (CELL_SIZE : ℝ))) p = false) → s1.grid = s.grid) ∧
      (∀ x y x1 y1 : Int, s1.grid.read y x ≠ s.grid.read y x →
        s1.grid.read y1 x1 ≠ s.grid.read y1 x1 → x = x1 ∧ y = y1) := by
  obtain ⟨s1, hs1, hc⟩ := brickScan_spec d.brick s (paddleStage d s (wallStage d s))
    (truncToInt (s.ball.x / (CELL_SIZE : ℝ))) (truncToInt (s.ball.y / (CELL_SIZE : ℝ)))
    hwf hwfn scanWindow
  have hc1 : ClearsOnly s.grid s1.grid (firstHitCell s) := hc
  refine ⟨s1, hs1, hc1, ?_, ?_, ?_⟩
  · rintro ⟨p, hp, hhit⟩
    have hsome : (firstHit s).isSome = true := by
      rw [firstHit, List.find?_isSome]
      exact ⟨p, hp, hhit⟩
    obtain ⟨q, hq⟩ := Option.isSome_iff_exists.mp hsome
    exact ⟨_, by rw [firstHitCell, hq]; rfl⟩
  · intro hnone
    have hf : firstHit s = none := by
      rw [firstHit, List.find?_eq_none]
      intro p hp
      rw [hnone p hp]
      decide
    rw [firstHitCell, hf] at hc1
    exact hc1
  · intro x y x1 y1 h1 h2
    cases hcell : firstHitCell s with
    | none =>
      rw [hcell] at hc1
      have hg : s1.grid = s.grid := hc1
      rw [hg] at h1
      exact absurd rfl h1
    | some c =>
      obtain ⟨cx, cy⟩ := c
      rw [hcell] at hc1
      obtain ⟨_, _, hother⟩ := hc1
      have e1 : x = cx ∧ y = cy := by
        by_contra hne
        exact h1 (hother x y hne)
      have e2 : x1 = cx ∧ y1 = cy := by
        by_contra hne
        exact h2 (hother x1 y1 hne)
      exact ⟨e1.1.trans e2.1.symm, e1.2.trans e2.2.symm⟩

theorem game1_wellFormed :
    game1.grid.WellFormed GRID_WIDTH GRID_HEIGHT ∧
    game1.nextGrid.WellFormed GRID_WIDTH GRID_HEIGHT := by
  rw [GRID_WIDTH_eq, GRID_HEIGHT_eq]
  exact ⟨gridOf_wellFormed 80 30 _, gridOf_wellFormed 80 30 _⟩

theorem game1_gridX : truncToInt (game1.ball.x / (CELL_SIZE : ℝ)) = 10 := by
  have h : game1.ball.x / (CELL_SIZE : ℝ) = 21 / 2 := by
    show (105 : ℝ) / ((10 : Int) : ℝ) = 21 / 2
    norm_num
  rw [h, truncToInt, if_pos (by norm_num), Int.floor_eq_iff]
  norm_num

theorem game1_gridY : truncToInt (game1.ball.y / (CELL_SIZE : ℝ)) = 10 := by
  have h : game1.ball.y / (CELL_SIZE : ℝ) = 10 := by
    show (100 : ℝ) / ((10 : Int) : ℝ) = 10
    norm_num
  rw [h, truncToInt, if_pos (by norm_num), Int.floor_eq_iff]
  norm_num

theorem game1_isLive (x y : Int) (hx0 : 0 ≤ x) (hx1 : x < 80) (hy0 : 0 ≤ y) (hy1 : y < 30) :
    game1.grid.isLive x y = decide (y.toNat = 10 ∧ (x.toNat = 10 ∨ x.toNat = 11)) :=
  gridOf_isLive 80 30 _ hx0 (by omega) hy0 (by omega)

theorem game1_intersects (cx : Int) (h : cx = 10 ∨ cx = 11) :
    game1.ball.getGlobalBounds.intersects (brickBounds cx 10) := by
  obtain ⟨hc1, hc2⟩ := circleCos_bounds
  rw [intersects_brick_iff game1 rfl]
  have hx : game1.ball.x = 105 := rfl
  have hy : game1.ball.y = 100 := rfl
  rw [hx, hy]
  rcases h with rfl | rfl
  · refine ⟨⟨?_, ?_⟩, ⟨?_, ?_⟩⟩ <;> push_cast <;> linarith
  · refine ⟨⟨?_, ?_⟩, ⟨?_, ?_⟩⟩ <;> push_cast <;> linarith

theorem game1_firstHitCell :
    isHit game1 10 10 (0, 0) = true ∧ isHit game1 10 10 (0, 1) = true ∧
    firstHitCell game1 = some (10, 10) := by
  have h00 : isHit game1 10 10 (0, 0) = true := by
    have hl := game1_isLive (10 + 0) (10 + 0) (by decide) (by decide) (by decide) (by decide)
    have hi : game1.ball.getGlobalBounds.intersects (brickBounds (10 + 0) (10 + 0)) :=
      game1_intersects (10 + 0) (Or.inl (by decide))
    simp only [isHit, hl, GRID_WIDTH_eq, GRID_HEIGHT_eq]
    rw [decide_eq_true hi]
    decide
  have h01 : isHit game1 10 10 (0, 1) = true := by
    have hl := game1_isLive (10 + 1) (10 + 0) (by decide) (by decide) (by decide) (by decide)
    have hi : game1.ball.getGlobalBounds.intersects (brickBounds (10 + 1) (10 + 0)) :=
      game1_intersects (10 + 1) (Or.inr (by decide))
    simp only [isHit, hl, GRID_WIDTH_eq, GRID_HEIGHT_eq]
    rw [decide_eq_true hi]
    decide
  have hdead : ∀ p : Int × Int, p = (-1, -1) ∨ p = (-1, 0) ∨ p = (-1, 1) ∨ p = (0, -1) →
      isHit game1 10 10 p = false := by
    intro p hp
    have hl : game1.grid.isLive (10 + p.2) (10 + p.1) = false := by
      rcases hp with rfl | rfl | rfl | rfl <;>
        (rw [game1_isLive _ _ (by decide) (by decide) (by decide) (by decide)]; decide)
    simp only [isHit, hl, Bool.and_false, Bool.false_and]
  refine ⟨h00, h01, ?_⟩
  rw [firstHitCell, firstHit, game1_gridX, game1_gridY, scanWindow_eq,
    List.find?_cons, hdead _ (Or.inl rfl), List.find?_cons, hdead _ (Or.inr (Or.inl rfl)),
    List.find?_cons, hdead _ (Or.inr (Or.inr (Or.inl rfl))),
    List.find?_cons, hdead _ (Or.inr (Or.inr (Or.inr rfl))), List.find?_cons, h00]
  rfl

theorem gameEdge_wellFormed :
    gameEdge.grid.WellFormed GRID_WIDTH GRID_HEIGHT ∧
    gameEdge.nextGrid.WellFormed GRID_WIDTH GRID_HEIGHT := by
  rw [GRID_WIDTH_eq, GRID_HEIGHT_eq]
  exact ⟨gridOf_wellFormed 80 30 _, gridOf_wellFormed 80 30 _⟩

theorem gameEdge_isLive (x y : Int) (hx0 : 0 ≤ x) (hx1 : x < 80) (hy0 : 0 ≤ y) (hy1 : y < 30) :
    gameEdge.grid.isLive x y = decide (y.toNat = 10 ∧ x.toNat = 10) :=
  gridOf_isLive 80 30 _ hx0 (by omega) hy0 (by omega)

theorem gameEdge_read : gameEdge.grid.read 10 10 = some true := by
  have h := Grid.read_isSome gameEdge_wellFormed.1 (by decide : (0 : Int) ≤ 10)
    (by decide : (10 : Int) < GRID_WIDTH) (by decide : (0 : Int) ≤ 10)
    (by decide : (10 : Int) < GRID_HEIGHT)
  rw [h, gameEdge_isLive 10 10 (by decide) (by decide) (by decide) (by decide)]
  rfl

/-- In `gameEdge` the ball's bounds start right of the right edge `x = 109` of the one live
cell, so no window entry is a hit. -/
theorem gameEdge_no_hit (p : Int × Int) :
    isHit gameEdge (truncToInt (gameEdge.ball.x / (CELL_SIZE : ℝ)))
      (truncToInt (gameEdge.ball.y / (CELL_SIZE : ℝ))) p = false := by
  obtain ⟨hc1, hc2⟩ := circleCos_bounds
  by_contra hne
  obtain ⟨⟨hx0, hxW, hy0, hyH⟩, hlive, hint⟩ :=
    isHit_inRange (Bool.eq_true_of_not_eq_false hne)
  rw [GRID_WIDTH_eq] at hxW
  rw [GRID_HEIGHT_eq] at hyH
  rw [gameEdge_isLive _ _ hx0 hxW hy0 hyH, decide_eq_true_eq] at hlive
  have hx : truncToInt (gameEdge.ball.x / (CELL_SIZE : ℝ)) + p.2 = 10 := by omega
  have hy : truncToInt (gameEdge.ball.y / (CELL_SIZE : ℝ)) + p.1 = 10 := by omega
  rw [hx, hy, intersects_brick_iff gameEdge rfl] at hint
  have h1 := hint.1.1
  have hbx : gameEdge.ball.x = 10899 / 100 := rfl
  rw [hbx] at h1
  push_cast at h1
  linarith

theorem checkCollisions_destroys_one_brick_witness :
    (game1.grid.WellFormed GRID_WIDTH GRID_HEIGHT ∧
      game1.nextGrid.WellFormed GRID_WIDTH GRID_HEIGHT ∧
      ∃ s1, checkCollisions draws0 game1 = some s1 ∧
        ClearsOnly game1.grid s1.grid (some (10, 10)) ∧
        (∀ x y x1 y1 : Int, s1.grid.read y x ≠ game1.grid.read y x →
          s1.grid.read y1 x1 ≠ game1.grid.read y1 x1 → x = x1 ∧ y = y1)) ∧
    (gameEdge.grid.WellFormed GRID_WIDTH GRID_HEIGHT ∧
      gameEdge.nextGrid.WellFormed GRID_WIDTH GRID_HEIGHT ∧
      gameEdge.grid.read 10 10 = some true ∧
      ∃ s1, checkCollisions draws0 gameEdge = some s1 ∧ s1.grid = gameEdge.grid) :=
  ⟨⟨game1_wellFormed.1, game1_wellFormed.2,
      (checkCollisions_destroys_one_brick draws0 game1 game1_wellFormed.1
        game1_wellFormed.2).imp
        fun _ h => ⟨h.1, game1_firstHitCell.2.2 ▸ h.2.1, h.2.2.2.2⟩⟩,
    ⟨gameEdge_wellFormed.1, gameEdge_wellFormed.2, gameEdge_read,
      (checkCollisions_destroys_one_brick draws0 gameEdge gameEdge_wellFormed.1
        gameEdge_wellFormed.2).imp
        fun _ h => ⟨h.1, h.2.2.2.1 (fun p _ => gameEdge_no_hit p)⟩⟩⟩

/-! ## Method calls, their frames and the reachable states -/

theorem brickHit_eq (adjustment : ℝ) (s : Game) (v : Vector2f) (checkX checkY : Int) :
    brickHit adjustment s v checkX checkY =
      (s.grid.write checkY checkX false).bind fun grid =>
        (s.nextGrid.write checkY checkX false).bind fun nextGrid =>
          some { s with grid := grid, nextGrid := nextGrid,
                        ballVelocity := adjustBallVelocity adjustment (brickBounce s v checkX checkY) } :=
  rfl

theorem WINDOW_WIDTH_cast : ((WINDOW_WIDTH : Int) : ℝ) = 800 := by
  rw [show WINDOW_WIDTH = 800 by rfl]; norm_num

theorem WINDOW_HEIGHT_cast : ((WINDOW_HEIGHT : Int) : ℝ) = 600 := by
  rw [show WINDOW_HEIGHT = 600 by rfl]; norm_num

theorem paddle_row_cast : ((WINDOW_HEIGHT - 30 : Int) : ℝ) = 570 := by
  rw [show WINDOW_HEIGHT - 30 = 570 by decide]; norm_num

/-- The paddle after `updatePaddle`, key by key. -/
theorem updatePaddle_paddle (left right : Bool) (s : Game) :
    (updatePaddle left right s).paddle =
      if right then
        { (if left then { s.paddle with x := max 0 (s.paddle.x - 7), y := 570 } else s.paddle) with
          x := min ((if left then max 0 (s.paddle.x - 7) else s.paddle.x) + 7)
            (800 - s.paddle.width),
          y := 570 }
      else if left then { s.paddle with x := max 0 (s.paddle.x - 7), y := 570 } else s.paddle := by
  cases left <;> cases right <;>
    simp [updatePaddle, paddleSpeed, WINDOW_WIDTH_cast, WINDOW_HEIGHT_cast] <;> norm_num

theorem updatePaddle_preserves (left right : Bool) (s : Game) (h : PaddleInv s.paddle) :
    PaddleInv (updatePaddle left right s).paddle := by
  obtain ⟨hw, hx0, hx1, hy⟩ := h
  rw [updatePaddle_paddle]
  cases left <;> cases right <;> simp only [PaddleInv, if_true, if_false, Bool.false_eq_true, hw]
  · exact ⟨trivial, hx0, hx1, hy⟩
  · refine ⟨trivial, ?_, ?_, trivial⟩
    · exact le_min (by linarith) (by norm_num)
    · exact (min_le_right _ _).trans (by norm_num)
  · refine ⟨trivial, le_max_left _ _, max_le (by norm_num) (by linarith), trivial⟩
  · refine ⟨trivial, ?_, ?_, trivial⟩
    · exact le_min (by linarith [le_max_left (0 : ℝ) (s.paddle.x - 7)]) (by norm_num)
    · exact (min_le_right _ _).trans (by norm_num)

theorem Grid.write_wellFormed {W H : Int} {g g1 : Grid} {x y : Int} {v : Bool}
    (h : g.write y x v = some g1) (hwf : g.WellFormed W H) : g1.WellFormed W H := by
  obtain ⟨hlen, hrows⟩ := hwf
  unfold Grid.write at h
  split at h
  · split at h
    · rename_i row hrow
      split at h
      · cases h
        refine ⟨by simpa using hlen, ?_⟩
        intro r hmem
        rcases List.mem_or_eq_of_mem_set hmem with hr | hr
        · exact hrows _ hr
        · rw [hr, List.length_set]
          exact hrows _ (List.getElem?_mem hrow)
      · cases h
    · cases h
  · cases h

/-- The inner loop of `initializeGrid` over the first `k` columns of row `y`. -/
theorem seedRow_spec {W H : Int} (f : Nat → Bool) (y : Nat) (hy : (y : Int) < H)
    (k : Nat) (hk : (k : Int) ≤ W) (g : Grid) (hwf : g.WellFormed W H) :
    ∃ g1, (List.range k).foldlM (fun (grid : Grid) (x : Nat) => grid.write y x (f x)) g
      = some g1 ∧ g1.WellFormed W H := by
  induction k with
  | zero => exact ⟨g, by simp, hwf⟩
  | succ k ih =>
    obtain ⟨g1, hfold, hwf1⟩ := ih (by omega)
    obtain ⟨g2, hw2, hwf2, _⟩ := Grid.write_spec hwf1 (by omega : (0 : Int) ≤ k)
      (by omega : (k : Int) < W) (by omega : (0 : Int) ≤ y) hy (f k)
    refine ⟨g2, ?_, hwf2⟩
    rw [List.range_succ, List.foldlM_append, hfold]
    simpa using hw2

/-- The two loops of `initializeGrid` over the first `m` rows. -/
theorem seedRows_spec {W H : Int} (f : Nat → Nat → Bool) (hW : 0 ≤ W)
    (m : Nat) (hm : (m : Int) ≤ H) (g : Grid) (hwf : g.WellFormed W H) :
    ∃ g1, (List.range m).foldlM (fun (grid : Grid) (y : Nat) =>
        (List.range W.toNat).foldlM (fun (grid : Grid) (x : Nat) => grid.write y x (f y x)) grid) g
      = some g1 ∧ g1.WellFormed W H := by
  induction m with
  | zero => exact ⟨g, by simp, hwf⟩
  | succ m ih =>
    obtain ⟨g1, hfold, hwf1⟩ := ih (by omega)
    obtain ⟨g2, hrow, hwf2⟩ := seedRow_spec (f m) m (by omega) W.toNat (by omega) g1 hwf1
    refine ⟨g2, ?_, hwf2⟩
    rw [List.range_succ, List.foldlM_append, hfold]
    simpa using hrow

/-- On a grid of the program's dimensions `initializeGrid` succeeds; it changes only the two
grids, which it leaves well-formed and equal. -/
theorem initializeGrid_spec (dis : Nat → Nat → Int) (s : Game)
    (hwf : s.grid.WellFormed GRID_WIDTH GRID_HEIGHT) :
    ∃ g1, initializeGrid dis s = some { s with grid := g1, nextGrid := g1 } ∧
      g1.WellFormed GRID_WIDTH GRID_HEIGHT := by
  obtain ⟨g1, hfold, hwf1⟩ := seedRows_spec (fun y x => decide (dis y x < 15))
    (by decide : (0 : Int) ≤ GRID_WIDTH) GRID_HEIGHT.toNat (by decide) s.grid hwf
  refine ⟨g1, ?_, hwf1⟩
  unfold initializeGrid
  rw [hfold]
  rfl

theorem resized_wellFormed :
    Grid.WellFormed GRID_WIDTH GRID_HEIGHT
      (List.replicate GRID_HEIGHT.toNat (List.replicate GRID_WIDTH.toNat false)) := by
  refine ⟨by simp, ?_⟩
  intro row hrow
  rw [List.eq_of_mem_replicate hrow]
  simp

/-- The constructor succeeds, and the state it builds has equal well-formed grids, the paddle of
size `(100, 10)` at `(350, 570)` and a ball of radius 5. -/
theorem construct_spec (dis : Nat → Nat → Int) (randomAngle adjustment : ℝ) (startTime : Int) :
    ∃ s0, construct dis randomAngle adjustment startTime = some s0 ∧ GridInv s0 ∧
      s0.paddle = ⟨350, 570, 100, 10⟩ ∧ s0.ball.radius = 5 ∧ s0.lifeClock = startTime := by
  obtain ⟨g1, hinit, hwf1⟩ := initializeGrid_spec dis
    { grid := List.replicate GRID_HEIGHT.toNat (List.replicate GRID_WIDTH.toNat false),
      nextGrid := List.replicate GRID_HEIGHT.toNat (List.replicate GRID_WIDTH.toNat false),
      paddle := ⟨0, 0, 0, 0⟩, ball := ⟨0, 0, 0⟩,
      ballVelocity := ⟨Flt.val 0, Flt.val 0⟩, lifeClock := startTime } resized_wellFormed
  unfold construct
  simp only [hinit, Option.map_some']
  refine ⟨_, rfl, ⟨?_, ?_, ?_⟩, ?_, ?_, ?_⟩
  · exact hwf1
  · exact hwf1
  · rfl
  · show (⟨((WINDOW_WIDTH.tdiv 2 - 50 : Int) : ℝ), ((WINDOW_HEIGHT - 30 : Int) : ℝ), 100, 10⟩
      : Paddle) = _
    rw [paddle_row_cast, show WINDOW_WIDTH.tdiv 2 - 50 = 350 by decide]
    norm_num
  · rfl
  · rfl

/-- A brick hit changes only the two grids and the velocity, and keeps the grids' invariant. -/
theorem brickHit_frame {adj : ℝ} {s s1 : Game} {v : Vector2f} {checkX checkY : Int}
    (h : brickHit adj s v checkX checkY = some s1) :
    s1.paddle = s.paddle ∧ s1.ball = s.ball ∧ s1.lifeClock = s.lifeClock ∧
      s1.ballVelocity = adjustBallVelocity adj (brickBounce s v checkX checkY) ∧
      (GridInv s → GridInv s1) := by
  rw [brickHit_eq] at h
  cases hg : s.grid.write checkY checkX false with
  | none => rw [hg] at h; cases h
  | some g1 =>
    cases hn : s.nextGrid.write checkY checkX false with
    | none => rw [hg, hn] at h; cases h
    | some n1 =>
      rw [hg, hn] at h
      cases h
      refine ⟨rfl, rfl, rfl, rfl, ?_⟩
      rintro ⟨hwf, hwfn, heq⟩
      refine ⟨Grid.write_wellFormed hg hwf, Grid.write_wellFormed hn hwfn, ?_⟩
      show n1 = g1
      rw [heq, hg] at hn
      exact (Option.some.inj hn).symm

/-- The brick scan changes only the two grids and the velocity, and keeps the grids'
invariant. -/
theorem brickScan_frame (adj : ℝ) (s : Game) (v : Vector2f) (gridX gridY : Int)
    (l : List (Int × Int)) (s1 : Game) (h : brickScan adj s v gridX gridY l = some s1) :
    s1.paddle = s.paddle ∧ s1.ball = s.ball ∧ s1.lifeClock = s.lifeClock ∧
      (GridInv s → GridInv s1) := by
  induction l with
  | nil =>
    cases h
    exact ⟨rfl, rfl, rfl, fun hi => hi⟩
  | cons p rest ih =>
    obtain ⟨dy, dx⟩ := p
    unfold brickScan at h
    simp only at h
    split at h
    · split at h
      · cases h
      · split at h
        · obtain ⟨h1, h2, h3, _, h5⟩ := brickHit_frame h
          exact ⟨h1, h2, h3, h5⟩
        · exact ih h
      · exact ih h
    · exact ih h

theorem checkCollisions_frame {d : Draws} {s s1 : Game} (h : checkCollisions d s = some s1) :
    s1.paddle = s.paddle ∧ s1.ball = s.ball ∧ s1.lifeClock = s.lifeClock ∧
      (GridInv s → GridInv s1) :=
  brickScan_frame _ _ _ _ _ _ _ h

theorem updateLife_frame {now : Int} {s s1 : Game} (h : updateLife now s = some s1) :
    s1.paddle = s.paddle ∧ s1.ball = s.ball ∧ s1.ballVelocity = s.ballVelocity ∧
      (GridInv s → GridInv s1) := by
  unfold updateLife at h
  split at h
  · cases hg : lifeGenerationOn GRID_WIDTH GRID_HEIGHT s.grid with
    | none => rw [hg] at h; cases h
    | some g1 =>
      rw [hg] at h
      cases h
      refine ⟨rfl, rfl, rfl, ?_⟩
      rintro ⟨hwf, _, _⟩
      obtain ⟨g2, hg2, hwf2, _⟩ := lifeGenerationOn_spec hwf (by decide : (0 : Int) ≤ GRID_WIDTH)
      rw [hg] at hg2
      cases hg2
      exact ⟨hwf2, hwf2, rfl⟩
  · cases h
    exact ⟨rfl, rfl, rfl, fun hi => hi⟩

theorem moveBall_frame {s s1 : Game} (h : moveBall s = some s1) :
    s1.paddle = s.paddle ∧ s1.grid = s.grid ∧ s1.nextGrid = s.nextGrid ∧
      s1.ball.radius = s.ball.radius := by
  unfold moveBall at h
  split at h
  · cases h
    exact ⟨rfl, rfl, rfl, rfl⟩
  · cases h

theorem checkBallLost_frame (randomAngle adjustment : ℝ) (s : Game) :
    (checkBallLost randomAngle adjustment s).paddle = s.paddle ∧
      (checkBallLost randomAngle adjustment s).grid = s.grid ∧
      (checkBallLost randomAngle adjustment s).nextGrid = s.nextGrid ∧
      (checkBallLost randomAngle adjustment s).ball.radius = s.ball.radius := by
  unfold checkBallLost
  split
  · exact ⟨rfl, rfl, rfl, rfl⟩
  · exact ⟨rfl, rfl, rfl, rfl⟩

/-- Every method call keeps the paddle's invariant and the grids' invariant. -/
theorem Step.preserves {s s1 : Game} (h : Step s s1) :
    (PaddleInv s.paddle → PaddleInv s1.paddle) ∧ (GridInv s → GridInv s1) := by
  rcases h with ⟨dis, h⟩ | ⟨left, right, h⟩ | h | ⟨d, h⟩ | ⟨ra, adj, h⟩ | ⟨now, h⟩
  · constructor
    · intro hp
      unfold initializeGrid at h
      cases hf : (List.range GRID_HEIGHT.toNat).foldlM (fun (grid : Grid) (y : Nat) =>
          (List.range GRID_WIDTH.toNat).foldlM (fun (grid : Grid) (x : Nat) =>
            grid.write y x (decide (dis y x < 15))) grid) s.grid with
      | none => rw [hf] at h; cases h
      | some g1 => rw [hf] at h; cases h; exact hp
    · rintro ⟨hwf, _, _⟩
      obtain ⟨g1, hg1, hwf1⟩ := initializeGrid_spec dis s hwf
      rw [hg1] at h
      cases h
      exact ⟨hwf1, hwf1, rfl⟩
  · subst h
    exact ⟨updatePaddle_preserves left right s, fun hi => hi⟩
  · obtain ⟨h1, h2, h3, _⟩ := moveBall_frame h
    constructor
    · intro hp; rw [h1]; exact hp
    · rintro ⟨hwf, hwfn, heq⟩
      exact ⟨h2 ▸ hwf, h3 ▸ hwfn, by rw [h2, h3]; exact heq⟩
  · obtain ⟨h1, _, _, h4⟩ := checkCollisions_frame h
    exact ⟨fun hp => h1 ▸ hp, h4⟩
  · subst h
    obtain ⟨h1, h2, h3, _⟩ := checkBallLost_frame ra adj s
    constructor
    · intro hp; rw [h1]; exact hp
    · rintro ⟨hwf, hwfn, heq⟩
      exact ⟨h2 ▸ hwf, h3 ▸ hwfn, by rw [h2, h3]; exact heq⟩
  · obtain ⟨h1, _, _, h4⟩ := updateLife_frame h
    exact ⟨fun hp => h1 ▸ hp, h4⟩

/-- Every reachable state satisfies the paddle's invariant and the grids' invariant. -/
theorem Reachable.invariants {s : Game} (h : Reachable s) : PaddleInv s.paddle ∧ GridInv s := by
  obtain ⟨dis, ra, adj, t, s0, hc, hsteps⟩ := h
  obtain ⟨s0', hc', hgi, hp, _, _⟩ := construct_spec dis ra adj t
  rw [hc] at hc'
  cases hc'
  induction hsteps with
  | refl =>
    refine ⟨?_, hgi⟩
    rw [hp]
    refine ⟨rfl, ?_, ?_, rfl⟩ <;> norm_num
  | tail _ hstep ih =>
    exact ⟨(Step.preserves hstep).1 ih.1, (Step.preserves hstep).2 ih.2⟩

/-! ## The paddle: claims C11 and C17 -/

theorem construct_reachable (dis : Nat → Nat → Int) (randomAngle adjustment : ℝ)
    (startTime : Int) :
    ∃ s0, construct dis randomAngle adjustment startTime = some s0 ∧ Reachable s0 := by
  obtain ⟨s0, hc, _⟩ := construct_spec dis randomAngle adjustment startTime
  exact ⟨s0, hc, dis, randomAngle, adjustment, startTime, s0, hc, Relation.ReflTransGen.refl⟩

/-- C11: the paddle's clamp invariant. With the paddle's width 100, `updatePaddle` maps an
`x` in `[0, 700]` to an `x` in `[0, 700]` for every combination of the two keys and keeps
`y = WINDOW_HEIGHT - 30 = 570`; the constructor succeeds and puts the paddle of width 100 at
`(350, 570)`; hence in every reachable state `0 <= x <= WINDOW_WIDTH - width` and
`y = WINDOW_HEIGHT - 30`. -/
theorem paddle_clamp_invariant :
    (∀ (left right : Bool) (s : Game), s.paddle.width = 100 → 0 ≤ s.paddle.x →
      s.paddle.x ≤ 700 → s.paddle.y = 570 →
        0 ≤ (updatePaddle left right s).paddle.x ∧ (updatePaddle left right s).paddle.x ≤ 700 ∧
        (updatePaddle left right s).paddle.y = 570 ∧
        (updatePaddle left right s).paddle.width = 100) ∧
    (∀ (dis : Nat → Nat → Int) (randomAngle adjustment : ℝ) (startTime : Int),
      ∃ s0, construct dis randomAngle adjustment startTime = some s0 ∧
        s0.paddle.x = 350 ∧ s0.paddle.y = 570 ∧ s0.paddle.width = 100) ∧
    (∀ s : Game, Reachable s →
      0 ≤ s.paddle.x ∧ s.paddle.x ≤ (WINDOW_WIDTH : ℝ) - s.paddle.width ∧
      s.paddle.y = (WINDOW_HEIGHT : ℝ) - 30) := by
  refine ⟨?_, ?_, ?_⟩
  · intro left right s hw hx0 hx1 hy
    obtain ⟨h1, h2, h3, h4⟩ := updatePaddle_preserves left right s ⟨hw, hx0, hx1, hy⟩
    exact ⟨h2, h3, h4, h1⟩
  · intro dis ra adj t
    obtain ⟨s0, hc, _, hp, _⟩ := construct_spec dis ra adj t
    exact ⟨s0, hc, by rw [hp], by rw [hp], by rw [hp]⟩
  · intro s hs
    obtain ⟨⟨hw, hx0, hx1, hy⟩, _⟩ := hs.invariants
    rw [WINDOW_WIDTH_cast, WINDOW_HEIGHT_cast, hw, hy]
    refine ⟨hx0, ?_, ?_⟩
    · linarith
    · norm_num

theorem paddle_clamp_invariant_witness :
    (0 ≤ (updatePaddle true false game0).paddle.x ∧
      (updatePaddle true false game0).paddle.x ≤ 700 ∧
      (updatePaddle true false game0).paddle.y = 570 ∧
      (updatePaddle true false game0).paddle.width = 100) ∧
    ∃ s0, construct (fun _ _ => 0) 0 0 0 = some s0 ∧ Reachable s0 ∧
      0 ≤ s0.paddle.x ∧ s0.paddle.x ≤ (WINDOW_WIDTH : ℝ) - s0.paddle.width ∧
      s0.paddle.y = (WINDOW_HEIGHT : ℝ) - 30 :=
  ⟨paddle_clamp_invariant.1 true false game0 rfl (by norm_num [game0]) (by norm_num [game0]) rfl,
    (construct_reachable (fun _ _ => 0) 0 0 0).imp
      fun s0 h => ⟨h.1, h.2, paddle_clamp_invariant.2.2 s0 h.2⟩⟩

/-- C17: with both keys pressed `updatePaddle` applies the left move first and the right move
second: for a paddle of width 100 with `x <= 700` (in particular `x` in `[0, 700]`) the new `x` is
`min(max(0, x - 7) + 7, 700)`, which is `x` itself when `7 <= x` and is 7 when `x < 7`. -/
theorem updatePaddle_both_keys (s : Game) (hw : s.paddle.width = 100)
    (hx1 : s.paddle.x ≤ 700) :
    (updatePaddle true true s).paddle.x = min (max 0 (s.paddle.x - 7) + 7) 700 ∧
    (updatePaddle true true s).paddle.x
      = (updatePaddle false true (updatePaddle true false s)).paddle.x ∧
    (7 ≤ s.paddle.x → (updatePaddle true true s).paddle.x = s.paddle.x) ∧
    (s.paddle.x < 7 → (updatePaddle true true s).paddle.x = 7) := by
  have hx : (updatePaddle true true s).paddle.x = min (max 0 (s.paddle.x - 7) + 7) 700 := by
    rw [updatePaddle_paddle]
    simp only [if_true, hw]
    norm_num
  have hseq : (updatePaddle false true (updatePaddle true false s)).paddle.x
      = min (max 0 (s.paddle.x - 7) + 7) 700 := by
    rw [updatePaddle_paddle, updatePaddle_paddle]
    simp only [if_true, if_false, Bool.false_eq_true, hw]
    norm_num
  refine ⟨hx, by rw [hx, hseq], ?_, ?_⟩
  · intro h7
    rw [hx, max_eq_right (by linarith), min_eq_left (by linarith)]
    ring
  · intro h7
    rw [hx, max_eq_left (by linarith), min_eq_left (by norm_num)]
    ring

theorem updatePaddle_both_keys_witness :
    game0.paddle.width = 100 ∧ game0.paddle.x ≤ 700 ∧
    (updatePaddle true true game0).paddle.x = game0.paddle.x :=
  ⟨rfl, by norm_num [game0],
    (updatePaddle_both_keys game0 rfl (by norm_num [game0])).2.2.1 (by norm_num [game0])⟩

/-! ## The two grids: claim C19 -/

/-- C19: in every reachable state `grid` and `nextGrid` both have `GRID_HEIGHT` rows of
`GRID_WIDTH` cells and `nextGrid` equals `grid`; in particular every method call from such a
state keeps the two grids in that shape and equal. -/
theorem grids_keep_shape_and_agree (s : Game) (h : Reachable s) :
    s.grid.WellFormed GRID_WIDTH GRID_HEIGHT ∧ s.nextGrid.WellFormed GRID_WIDTH GRID_HEIGHT ∧
    s.nextGrid = s.grid ∧
    s.grid.length = 30 ∧ (∀ row ∈ s.grid, row.length = 80) ∧
    (∀ x y : Int, s.nextGrid.read y x = s.grid.read y x) := by
  obtain ⟨_, hwf, hwfn, heq⟩ := h.invariants
  refine ⟨hwf, hwfn, heq, ?_, ?_, ?_⟩
  · exact hwf.1
  · exact hwf.2
  · intro x y
    rw [heq]

theorem grids_keep_shape_and_agree_witness :
    ∃ s0, construct (fun y x => if (x + y) % 7 = 0 then 3 else 50) 0 0 0 = some s0 ∧
      Reachable s0 ∧ s0.nextGrid = s0.grid ∧ s0.grid.length = 30 ∧
      (∀ row ∈ s0.grid, row.length = 80) :=
  (construct_reachable (fun y x => if (x + y) % 7 = 0 then 3 else 50) 0 0 0).imp
    fun s0 h => ⟨h.1, h.2, (grids_keep_shape_and_agree s0 h.2).2.2.1,
      (grids_keep_shape_and_agree s0 h.2).2.2.2.1, (grids_keep_shape_and_agree s0 h.2).2.2.2.2.1⟩

/-! ## Negation and the least of four numbers -/

theorem Flt.neg_mul_neg (a : Flt) : -a * -a = a * a := by
  cases a with
  | nan => rfl
  | val r =>
    show Flt.val (-r * -r) = Flt.val (r * r)
    congr 1
    ring

theorem min4_cases (a b c e : ℝ) :
    min (min (min a b) c) e = a ∨ min (min (min a b) c) e = b ∨
      min (min (min a b) c) e = c ∨ min (min (min a b) c) e = e := by
  rcases min_choice (min (min a b) c) e with h | h
  · rcases min_choice (min a b) c with h1 | h1
    · rcases min_choice a b with h2 | h2
      · left; rw [h, h1, h2]
      · right; left; rw [h, h1, h2]
    · right; right; left; rw [h, h1]
  · right; right; right; exact h

/-! ## Shape of the angle correction: claim C15 -/

/-- A too vertical finite velocity has a non-zero y-component and a positive speed. -/
theorem tooVertical_ne_zero {x y : ℝ} (h : tooVertical ⟨Flt.val x, Flt.val y⟩) :
    y ≠ 0 ∧ 0 < Real.sqrt (x * x + y * y) := by
  rw [tooVertical_val] at h
  constructor
  · rintro rfl
    rw [mul_zero, add_zero, Real.sqrt_mul_self_eq_abs] at h
    nlinarith [abs_nonneg x]
  · by_contra hs
    have h0 : Real.sqrt (x * x + y * y) = 0 := le_antisymm (not_lt.mp hs) (Real.sqrt_nonneg _)
    rw [h0] at h
    nlinarith [abs_nonneg x]

/-- The y-component that `adjustBallVelocity` leaves is never positive when the y-component it
is given is not positive. -/
theorem adjustBallVelocity_y_not_pos (adj : ℝ) (v : Vector2f) (h : ¬ Flt.lt (Flt.val 0) v.y) :
    ¬ Flt.lt (Flt.val 0) (adjustBallVelocity adj v).y := by
  by_cases hv : tooVertical v
  · obtain ⟨vx, vy⟩ := v
    cases vx with
    | nan => exact absurd hv (not_tooVertical_nan_x _)
    | val x =>
      cases vy with
      | nan => exact absurd hv (not_tooVertical_nan_y _)
      | val y =>
        have hy : ¬ (0 < y) := h
        rw [adjustBallVelocity_val adj x y hv]
        simp only [if_neg hy]
        generalize (Real.sqrt (x * x + y * y) * Real.sqrt (x * x + y * y)
          - (if 0 < x then Real.sqrt (x * x + y * y) * (3 / 10) + |adj|
              else -Real.sqrt (x * x + y * y) * (3 / 10) - |adj|)
            * (if 0 < x then Real.sqrt (x * x + y * y) * (3 / 10) + |adj|
              else -Real.sqrt (x * x + y * y) * (3 / 10) - |adj|)) = rad
        by_cases hrad : 0 ≤ rad
        · have hsq : Flt.sqrt (Flt.val rad) = Flt.val (Real.sqrt rad) := by
            show (if _ then _ else _) = _
            rw [if_pos hrad]
          rw [hsq]
          show ¬ (0 < -1 * Real.sqrt rad)
          have := Real.sqrt_nonneg rad
          linarith
        · have hsq : Flt.sqrt (Flt.val rad) = Flt.nan := by
            show (if _ then _ else _) = _
            rw [if_neg hrad]
          rw [hsq]
          exact fun hlt => hlt
  · rw [adjustBallVelocity_of_not_tooVertical adj v hv]
    exact h

theorem Flt.neg_abs_not_pos (a : Flt) : ¬ Flt.lt (Flt.val 0) (-Flt.abs a) := by
  cases a with
  | nan => exact fun h => h
  | val r =>
    show ¬ (0 < -|r|)
    have := abs_nonneg r
    linarith

theorem tooVertical_straight_down : tooVertical ⟨Flt.val 0, Flt.val 4⟩ := by
  rw [tooVertical_val]
  have h4 : Real.sqrt ((0 : ℝ) * 0 + 4 * 4) = 4 := by
    rw [zero_mul, zero_add]
    exact Real.sqrt_mul_self (by norm_num)
  rw [h4]
  norm_num

/-- C15 as stated fails: the velocity `(0, 4)` is too vertical, and with the jitter `0` its
corrected x-component is `-1.2`, which does not have the sign of the x-component `0`
before. -/
theorem adjustBallVelocity_sign_of_zero :
    tooVertical ⟨Flt.val 0, Flt.val 4⟩ ∧ |(0 : ℝ)| ≤ 1 / 5 ∧
    (adjustBallVelocity 0 ⟨Flt.val 0, Flt.val 4⟩).x = Flt.val (-(6 / 5)) ∧
    ¬ sameSign 0 (-(6 / 5)) := by
  refine ⟨tooVertical_straight_down, by norm_num, ?_, ?_⟩
  · rw [adjustBallVelocity_val 0 0 4 tooVertical_straight_down]
    have h4 : Real.sqrt ((0 : ℝ) * 0 + 4 * 4) = 4 := by
      rw [zero_mul, zero_add]
      exact Real.sqrt_mul_self (by norm_num)
    rw [h4, if_neg (lt_irrefl 0)]
    show Flt.val _ = Flt.val _
    congr 1
    norm_num
  · rintro ⟨_, h2⟩
    have : (0 : ℝ) < 0 := h2.2 (by norm_num)
    exact lt_irrefl 0 this

/-- C15, as the source has it. For every too vertical velocity `(x, y)` with finite components,
of speed `S`, and every jitter `j`, the corrected x-component `x1` has magnitude exactly
`0.3 * S + |j|`, is positive when `x > 0` and negative when `x <= 0` (a zero `x` goes to the
negative side), and satisfies `|x1| >= 0.3 * S`; `y` is not zero; and when the radicand
`S^2 - x1^2` is positive the corrected y-component has the sign of `y` and magnitude
`sqrt(S^2 - x1^2)`. -/
theorem adjustBallVelocity_shape (x y j : ℝ) (h : tooVertical ⟨Flt.val x, Flt.val y⟩) :
    ∃ x1 : ℝ, (adjustBallVelocity j ⟨Flt.val x, Flt.val y⟩).x = Flt.val x1 ∧
      |x1| = 3 / 10 * Real.sqrt (x * x + y * y) + |j| ∧
      (0 < x → 0 < x1) ∧ (x ≤ 0 → x1 < 0) ∧
      |x1| ≥ 3 / 10 * Real.sqrt (x * x + y * y) ∧
      y ≠ 0 ∧
      (0 < Real.sqrt (x * x + y * y) * Real.sqrt (x * x + y * y) - x1 * x1 →
        ∃ y1 : ℝ, (adjustBallVelocity j ⟨Flt.val x, Flt.val y⟩).y = Flt.val y1 ∧
          |y1| = Real.sqrt (Real.sqrt (x * x + y * y) * Real.sqrt (x * x + y * y) - x1 * x1) ∧
          sameSign y y1) := by
  obtain ⟨hy0, hSpos⟩ := tooVertical_ne_zero h
  rw [adjustBallVelocity_val j x y h]
  generalize Real.sqrt (x * x + y * y) = S at hSpos
  have hj : 0 ≤ |j| := abs_nonneg j
  have hx1 : (if 0 < x then S * (3 / 10) + |j| else -S * (3 / 10) - |j|)
        = S * (3 / 10) + |j| ∧ 0 < x ∨
      (if 0 < x then S * (3 / 10) + |j| else -S * (3 / 10) - |j|)
        = -S * (3 / 10) - |j| ∧ x ≤ 0 := by
    by_cases hx : 0 < x
    · left; rw [if_pos hx]; exact ⟨rfl, hx⟩
    · right; rw [if_neg hx]; exact ⟨rfl, not_lt.mp hx⟩
  generalize (if 0 < x then S * (3 / 10) + |j| else -S * (3 / 10) - |j|) = x1 at hx1
  have habs : |x1| = 3 / 10 * S + |j| := by
    rcases hx1 with ⟨e, _⟩ | ⟨e, _⟩
    · rw [e, abs_of_nonneg (by positivity)]; ring
    · have hneg : -S * (3 / 10) - |j| ≤ 0 := by nlinarith
      rw [e, abs_of_nonpos hneg]; ring
  refine ⟨x1, rfl, habs, ?_, ?_, by rw [habs]; linarith, hy0, ?_⟩
  · intro hpos
    rcases hx1 with ⟨e, _⟩ | ⟨_, e⟩
    · rw [e]; nlinarith
    · linarith
  · intro hle
    rcases hx1 with ⟨_, e⟩ | ⟨e, _⟩
    · linarith
    · rw [e]; nlinarith
  · intro hrad
    have hsq : Flt.sqrt (Flt.val (S * S - x1 * x1)) = Flt.val (Real.sqrt (S * S - x1 * x1)) := by
      show (if _ then _ else _) = _
      rw [if_pos hrad.le]
    have hpos : 0 < Real.sqrt (S * S - x1 * x1) := Real.sqrt_pos.mpr hrad
    rw [hsq]
    by_cases hy : 0 < y
    · rw [if_pos hy]
      refine ⟨1 * Real.sqrt (S * S - x1 * x1), rfl, ?_, ?_⟩
      · rw [one_mul, abs_of_pos hpos]
      · rw [one_mul]
        exact ⟨⟨fun _ => hpos, fun _ => hy⟩, ⟨fun hlt => absurd hy (not_lt.mpr hlt.le),
          fun hlt => absurd hpos (not_lt.mpr hlt.le)⟩⟩
    · rw [if_neg hy]
      have hyneg : y < 0 := lt_of_le_of_ne (not_lt.mp hy) hy0
      refine ⟨-1 * Real.sqrt (S * S - x1 * x1), rfl, ?_, ?_⟩
      · rw [neg_one_mul, abs_neg, abs_of_pos hpos]
      · rw [neg_one_mul]
        exact ⟨⟨fun hlt => absurd hlt hy, fun hlt => by linarith⟩,
          ⟨fun _ => by linarith, fun _ => hyneg⟩⟩

theorem adjustBallVelocity_shape_witness :
    tooVertical ⟨Flt.val 0, Flt.val 4⟩ ∧
    ∃ x1 : ℝ, (adjustBallVelocity (1 / 10) ⟨Flt.val 0, Flt.val 4⟩).x = Flt.val x1 ∧
      |x1| = 3 / 10 * Real.sqrt (0 * 0 + 4 * 4) + |(1 / 10 : ℝ)| ∧ x1 < 0 :=
  ⟨tooVertical_straight_down,
    (adjustBallVelocity_shape 0 4 (1 / 10) tooVertical_straight_down).imp
      fun _ hx => ⟨hx.1, hx.2.1, hx.2.2.2.1 (le_refl 0)⟩⟩

/-! ## The brick scan without a hit -/

/-- An out-of-range window entry is skipped. -/
theorem brickScan_skip (adj : ℝ) (s : Game) (v : Vector2f) (gridX gridY : Int) (dy dx : Int)
    (rest : List (Int × Int))
    (h : ¬ (0 ≤ gridX + dx ∧ gridX + dx < GRID_WIDTH ∧ 0 ≤ gridY + dy ∧ gridY + dy < GRID_HEIGHT)) :
    brickScan adj s v gridX gridY ((dy, dx) :: rest) = brickScan adj s v gridX gridY rest := by
  have h1 : ¬ (gridX + dx ≥ 0 ∧ gridX + dx < GRID_WIDTH ∧
      gridY + dy ≥ 0 ∧ gridY + dy < GRID_HEIGHT) := h
  rw [brickScan]
  simp only [if_neg h1]

/-- With no hit among the entries, the scan on a well-formed grid returns the state with the
velocity it was given. -/
theorem brickScan_no_hit (adj : ℝ) (s : Game) (v : Vector2f) (gridX gridY : Int)
    (hwf : s.grid.WellFormed GRID_WIDTH GRID_HEIGHT) (l : List (Int × Int))
    (hno : ∀ p ∈ l, isHit s gridX gridY p = false) :
    brickScan adj s v gridX gridY l = some { s with ballVelocity := v } := by
  induction l with
  | nil => rfl
  | cons p rest ih =>
    obtain ⟨dy, dx⟩ := p
    have hrest := ih (fun q hq => hno q (List.mem_cons_of_mem _ hq))
    have hp := hno (dy, dx) (List.mem_cons_self _ _)
    by_cases hr : 0 ≤ gridX + dx ∧ gridX + dx < GRID_WIDTH ∧
        0 ≤ gridY + dy ∧ gridY + dy < GRID_HEIGHT
    · obtain ⟨hx0, hxW, hy0, hyH⟩ := hr
      have hread := Grid.read_isSome hwf hx0 hxW hy0 hyH
      have hx0' : gridX + dx ≥ 0 := hx0
      have hy0' : gridY + dy ≥ 0 := hy0
      cases hlive : s.grid.isLive (gridX + dx) (gridY + dy)
      · rw [hlive] at hread
        rw [← hrest]
        simp only [brickScan, hx0', hxW, hy0', hyH, and_self, if_true, hread]
      · rw [hlive] at hread
        have hint : ¬ s.ball.getGlobalBounds.intersects
            (brickBounds (gridX + dx) (gridY + dy)) := by
          intro hi
          simp [isHit, hx0, hxW, hy0, hyH, hlive, hi] at hp
        rw [← hrest]
        simp only [brickScan, hx0', hxW, hy0', hyH, and_self, if_true, hread, hint, if_false]
    · rw [brickScan_skip adj s v gridX gridY dy dx rest hr]
      exact hrest

/-! ## The all-dead grid -/

theorem deadGrid_isHit (s : Game) (hg : s.grid = deadGrid) (gridX gridY : Int) (p : Int × Int) :
    isHit s gridX gridY p = false := by
  by_contra hne
  obtain ⟨⟨hx0, hxW, hy0, hyH⟩, hlive, _⟩ := isHit_inRange (Bool.eq_true_of_not_eq_false hne)
  rw [GRID_WIDTH_eq] at hxW
  rw [GRID_HEIGHT_eq] at hyH
  rw [hg, deadGrid, gridOf_isLive 80 30 _ hx0 (by omega) hy0 (by omega)] at hlive
  exact Bool.false_ne_true hlive

/-! ## Brick bounce: claim C13 -/

/-- A window entry that is not a hit is passed over. -/
theorem brickScan_cons_no_hit (adj : ℝ) (s : Game) (v : Vector2f) (gridX gridY : Int)
    (hwf : s.grid.WellFormed GRID_WIDTH GRID_HEIGHT) (p : Int × Int) (rest : List (Int × Int))
    (hp : isHit s gridX gridY p = false) :
    brickScan adj s v gridX gridY (p :: rest) = brickScan adj s v gridX gridY rest := by
  obtain ⟨dy, dx⟩ := p
  by_cases hr : 0 ≤ gridX + dx ∧ gridX + dx < GRID_WIDTH ∧
      0 ≤ gridY + dy ∧ gridY + dy < GRID_HEIGHT
  · obtain ⟨hx0, hxW, hy0, hyH⟩ := hr
    have hread := Grid.read_isSome hwf hx0 hxW hy0 hyH
    have hx0' : gridX + dx ≥ 0 := hx0
    have hy0' : gridY + dy ≥ 0 := hy0
    cases hlive : s.grid.isLive (gridX + dx) (gridY + dy)
    · rw [hlive] at hread
      simp only [brickScan, hx0', hxW, hy0', hyH, and_self, if_true, hread]
    · rw [hlive] at hread
      have hint : ¬ s.ball.getGlobalBounds.intersects
          (brickBounds (gridX + dx) (gridY + dy)) := by
        intro hi
        simp [isHit, hx0, hxW, hy0, hyH, hlive, hi] at hp
      simp only [brickScan, hx0', hxW, hy0', hyH, and_self, if_true, hread, hint, if_false]
  · exact brickScan_skip adj s v gridX gridY dy dx rest hr

/-- A window entry that is a hit ends the scan with `brickHit` on its cell. -/
theorem brickScan_cons_hit (adj : ℝ) (s : Game) (v : Vector2f) (gridX gridY : Int)
    (hwf : s.grid.WellFormed GRID_WIDTH GRID_HEIGHT) (p : Int × Int) (rest : List (Int × Int))
    (hp : isHit s gridX gridY p = true) :
    brickScan adj s v gridX gridY (p :: rest)
      = brickHit adj s v (gridX + p.2) (gridY + p.1) := by
  obtain ⟨dy, dx⟩ := p
  obtain ⟨⟨hx0, hxW, hy0, hyH⟩, hlive, hint⟩ := isHit_inRange hp
  have hread := Grid.read_isSome hwf hx0 hxW hy0 hyH
  rw [hlive] at hread
  have hx0' : gridX + dx ≥ 0 := hx0
  have hy0' : gridY + dy ≥ 0 := hy0
  have hint' : s.ball.getGlobalBounds.intersects (brickBounds (gridX + dx) (gridY + dy)) := hint
  have hread' : s.grid.read (gridY + dy) (gridX + dx) = some true := hread
  simp only [brickScan, hx0', hxW, hy0', hyH, and_self, if_true, hread', hint']

/-- The velocity after a brick scan that finds a hit: the angle correction of the bounce off
the first hit. -/
theorem brickScan_velocity (adj : ℝ) (s : Game) (v : Vector2f) (gridX gridY : Int)
    (hwf : s.grid.WellFormed GRID_WIDTH GRID_HEIGHT)
    (hwfn : s.nextGrid.WellFormed GRID_WIDTH GRID_HEIGHT) (l : List (Int × Int))
    (p : Int × Int) (hf : l.find? (isHit s gridX gridY) = some p) :
    ∃ s1, brickScan adj s v gridX gridY l = some s1 ∧
      s1.ballVelocity
        = adjustBallVelocity adj (brickBounce s v (gridX + p.2) (gridY + p.1)) := by
  induction l with
  | nil => cases hf
  | cons q rest ih =>
    cases hq : isHit s gridX gridY q with
    | false =>
      rw [List.find?_cons, hq] at hf
      rw [brickScan_cons_no_hit adj s v gridX gridY hwf q rest hq]
      exact ih hf
    | true =>
      rw [List.find?_cons, hq] at hf
      cases hf
      rw [brickScan_cons_hit adj s v gridX gridY hwf p rest hq, brickHit_eq]
      obtain ⟨hrange, _, _⟩ := isHit_inRange hq
      obtain ⟨g1, hg1, _⟩ := Grid.write_spec hwf hrange.1 hrange.2.1 hrange.2.2.1
        hrange.2.2.2 false
      obtain ⟨n1, hn1, _⟩ := Grid.write_spec hwfn hrange.1 hrange.2.1 hrange.2.2.1
        hrange.2.2.2 false
      rw [hg1, hn1]
      exact ⟨_, rfl, rfl⟩

/-- C13: the bounce of a brick hit, before the angle correction. With `m` the least of the four
overlaps, the x-velocity is negated iff `m` is `overlapLeft` or `overlapRight` and the
y-velocity is negated iff `m` is `overlapTop` or `overlapBottom`; `m` is one of the four, so at
least one component is negated; both are negated when a horizontal and a vertical overlap tie
for the least; the speed is the same before and after; a successful `brickHit` leaves the
angle correction of that bounced velocity; and when `checkCollisions` on well-formed grids
finds a first hit, it returns with the angle correction of the bounce, off the cell of that
hit, of the velocity that the wall and paddle stages left. -/
theorem brick_bounce_axis (adj : ℝ) (s : Game) (v : Vector2f) (checkX checkY : Int) :
    (brickBounce s v checkX checkY).x
      = (if minOverlap s checkX checkY = overlapLeft s checkX checkY ∨
            minOverlap s checkX checkY = overlapRight s checkX checkY then -v.x else v.x) ∧
    (brickBounce s v checkX checkY).y
      = (if minOverlap s checkX checkY = overlapTop s checkX checkY ∨
            minOverlap s checkX checkY = overlapBottom s checkX checkY then -v.y else v.y) ∧
    ((minOverlap s checkX checkY = overlapLeft s checkX checkY ∨
        minOverlap s checkX checkY = overlapRight s checkX checkY) ∨
      (minOverlap s checkX checkY = overlapTop s checkX checkY ∨
        minOverlap s checkX checkY = overlapBottom s checkX checkY)) ∧
    ((minOverlap s checkX checkY = overlapLeft s checkX checkY ∨
        minOverlap s checkX checkY = overlapRight s checkX checkY) →
      (minOverlap s checkX checkY = overlapTop s checkX checkY ∨
        minOverlap s checkX checkY = overlapBottom s checkX checkY) →
      brickBounce s v checkX checkY = ⟨-v.x, -v.y⟩) ∧
    (brickBounce s v checkX checkY).speed = v.speed ∧
    (∀ s1, brickHit adj s v checkX checkY = some s1 →
      s1.ballVelocity = adjustBallVelocity adj (brickBounce s v checkX checkY)) ∧
    (∀ (d : Draws) (p : Int × Int), s.grid.WellFormed GRID_WIDTH GRID_HEIGHT →
      s.nextGrid.WellFormed GRID_WIDTH GRID_HEIGHT → firstHit s = some p →
      ∃ s1, checkCollisions d s = some s1 ∧
        s1.ballVelocity = adjustBallVelocity d.brick
          (brickBounce s (paddleStage d s (wallStage d s))
            (truncToInt (s.ball.x / (CELL_SIZE : ℝ)) + p.2)
            (truncToInt (s.ball.y / (CELL_SIZE : ℝ)) + p.1))) := by
  have hb : brickBounce s v checkX checkY =
      ⟨(if minOverlap s checkX checkY = overlapLeft s checkX checkY ∨
            minOverlap s checkX checkY = overlapRight s checkX checkY then -v.x else v.x),
        (if minOverlap s checkX checkY = overlapTop s checkX checkY ∨
            minOverlap s checkX checkY = overlapBottom s checkX checkY then -v.y else v.y)⟩ := by
    show (if minOverlap s checkX checkY = overlapTop s checkX checkY ∨
          minOverlap s checkX checkY = overlapBottom s checkX checkY then
        ({ (if minOverlap s checkX checkY = overlapLeft s checkX checkY ∨
              minOverlap s checkX checkY = overlapRight s checkX checkY then
            ({ v with x := -v.x } : Vector2f) else v) with
          y := -(if minOverlap s checkX checkY = overlapLeft s checkX checkY ∨
              minOverlap s checkX checkY = overlapRight s checkX checkY then
            ({ v with x := -v.x } : Vector2f) else v).y } : Vector2f)
      else (if minOverlap s checkX checkY = overlapLeft s checkX checkY ∨
              minOverlap s checkX checkY = overlapRight s checkX checkY then
            ({ v with x := -v.x } : Vector2f) else v)) = _
    by_cases h1 : minOverlap s checkX checkY = overlapLeft s checkX checkY ∨
        minOverlap s checkX checkY = overlapRight s checkX checkY
    · by_cases h2 : minOverlap s checkX checkY = overlapTop s checkX checkY ∨
          minOverlap s checkX checkY = overlapBottom s checkX checkY
      · rw [if_pos h1, if_pos h2, if_pos h1, if_pos h2]
      · rw [if_pos h1, if_neg h2, if_pos h1, if_neg h2]
    · by_cases h2 : minOverlap s checkX checkY = overlapTop s checkX checkY ∨
          minOverlap s checkX checkY = overlapBottom s checkX checkY
      · rw [if_neg h1, if_pos h2, if_neg h1, if_pos h2]
      · rw [if_neg h1, if_neg h2, if_neg h1, if_neg h2]
  refine ⟨by rw [hb], by rw [hb], ?_, ?_, ?_, ?_, ?_⟩
  · rcases min4_cases (overlapLeft s checkX checkY) (overlapRight s checkX checkY)
      (overlapTop s checkX checkY) (overlapBottom s checkX checkY) with h | h | h | h
    · exact Or.inl (Or.inl h)
    · exact Or.inl (Or.inr h)
    · exact Or.inr (Or.inl h)
    · exact Or.inr (Or.inr h)
  · intro h1 h2
    rw [hb, if_pos h1, if_pos h2]
  · rw [hb]
    unfold Vector2f.speed
    by_cases h1 : minOverlap s checkX checkY = overlapLeft s checkX checkY ∨
        minOverlap s checkX checkY = overlapRight s checkX checkY <;>
      by_cases h2 : minOverlap s checkX checkY = overlapTop s checkX checkY ∨
        minOverlap s checkX checkY = overlapBottom s checkX checkY <;>
      simp only [if_pos, if_neg, h1, h2, not_false_eq_true, Flt.neg_mul_neg]
  · intro s1 hs1
    exact (brickHit_frame hs1).2.2.2.1
  · intro d p hwf hwfn hf
    exact brickScan_velocity d.brick s (paddleStage d s (wallStage d s))
      (truncToInt (s.ball.x / (CELL_SIZE : ℝ))) (truncToInt (s.ball.y / (CELL_SIZE : ℝ)))
      hwf hwfn scanWindow p hf

theorem game2_gridY : truncToInt (game2.ball.y / (CELL_SIZE : ℝ)) = 10 := by
  have h : game2.ball.y / (CELL_SIZE : ℝ) = 21 / 2 := by
    show (105 : ℝ) / ((10 : Int) : ℝ) = 21 / 2
    norm_num
  rw [h, truncToInt, if_pos (by norm_num), Int.floor_eq_iff]
  norm_num

theorem game2_firstHit : firstHit game2 = some (0, 0) := by
  obtain ⟨hc1, hc2⟩ := circleCos_bounds
  have hgx : truncToInt (game2.ball.x / (CELL_SIZE : ℝ)) = 10 := game1_gridX
  have h00 : isHit game2 10 10 (0, 0) = true := by
    have hl : game2.grid.isLive (10 + 0) (10 + 0) = _ :=
      game1_isLive (10 + 0) (10 + 0) (by decide) (by decide) (by decide) (by decide)
    have hi : game2.ball.getGlobalBounds.intersects (brickBounds (10 + 0) (10 + 0)) := by
      rw [intersects_brick_iff game2 rfl]
      have hx : game2.ball.x = 105 := rfl
      have hy : game2.ball.y = 105 := rfl
      rw [hx, hy]
      refine ⟨⟨?_, ?_⟩, ⟨?_, ?_⟩⟩ <;> push_cast <;> linarith
    simp only [isHit, hl, GRID_WIDTH_eq, GRID_HEIGHT_eq]
    rw [decide_eq_true hi]
    decide
  have hdead : ∀ p : Int × Int, p = (-1, -1) ∨ p = (-1, 0) ∨ p = (-1, 1) ∨ p = (0, -1) →
      isHit game2 10 10 p = false := by
    intro p hp
    have hl : game2.grid.isLive (10 + p.2) (10 + p.1) = false := by
      show game1.grid.isLive (10 + p.2) (10 + p.1) = false
      rcases hp with rfl | rfl | rfl | rfl <;>
        (rw [game1_isLive _ _ (by decide) (by decide) (by decide) (by decide)]; decide)
    simp only [isHit, hl, Bool.and_false, Bool.false_and]
  rw [firstHit, hgx, game2_gridY, scanWindow_eq,
    List.find?_cons, hdead _ (Or.inl rfl), List.find?_cons, hdead _ (Or.inr (Or.inl rfl)),
    List.find?_cons, hdead _ (Or.inr (Or.inr (Or.inl rfl))),
    List.find?_cons, hdead _ (Or.inr (Or.inr (Or.inr rfl))), List.find?_cons, h00]

/-- The four overlaps of the ball of `game2` with the cell `(10, 10)`; the right one,
`5 * cos (pi / 30) - 1`, is the least, and it is less than the top and the bottom one. -/
theorem game2_overlaps :
    minOverlap game2 10 10 = overlapRight game2 10 10 ∧
    minOverlap game2 10 10 ≠ overlapTop game2 10 10 ∧
    minOverlap game2 10 10 ≠ overlapBottom game2 10 10 := by
  obtain ⟨hc1, hc2⟩ := circleCos_bounds
  have hL : overlapLeft game2 10 10 = 10 + 5 * circleCos := by
    simp only [overlapLeft, Ball.getGlobalBounds, brickBounds_eq, game2]
    norm_num
    ring
  have hR : overlapRight game2 10 10 = 5 * circleCos - 1 := by
    simp only [overlapRight, Ball.getGlobalBounds, brickBounds_eq, game2]
    norm_num
    ring
  have hT : overlapTop game2 10 10 = 15 := by
    simp only [overlapTop, Ball.getGlobalBounds, brickBounds_eq, game2]
    norm_num
  have hB : overlapBottom game2 10 10 = 4 := by
    simp only [overlapBottom, Ball.getGlobalBounds, brickBounds_eq, game2]
    norm_num
  have hm : minOverlap game2 10 10 = 5 * circleCos - 1 := by
    rw [minOverlap, hL, hR, hT, hB, min_eq_right (by linarith : 5 * circleCos - 1 ≤ 10 + 5 * circleCos),
      min_eq_left (by linarith : 5 * circleCos - 1 ≤ 15),
      min_eq_left (by linarith : 5 * circleCos - 1 ≤ 4)]
  rw [hm, hR, hT, hB]
  exact ⟨rfl, by intro h; linarith, by intro h; linarith⟩

theorem not_tooVertical_three_four : ¬ tooVertical ⟨Flt.val (-3), Flt.val (-4)⟩ := by
  rw [tooVertical_val]
  have h5 : Real.sqrt ((-3 : ℝ) * (-3) + (-4) * (-4)) = 5 := by
    rw [show ((-3 : ℝ) * (-3) + (-4) * (-4)) = 5 * 5 by norm_num]
    exact Real.sqrt_mul_self (by norm_num)
  rw [h5]
  norm_num

theorem game2_stages : paddleStage draws0 game2 (wallStage draws0 game2) = ⟨Flt.val 3, Flt.val (-4)⟩ := by
  obtain ⟨hc1, hc2⟩ := circleCos_bounds
  have hw : wallStage draws0 game2 = ⟨Flt.val 3, Flt.val (-4)⟩ := by
    have hx : ¬ (game2.ball.x ≤ 0 ∨ game2.ball.x ≥ (WINDOW_WIDTH : ℝ) - game2.ball.radius * 2) := by
      rw [WINDOW_WIDTH_cast]
      norm_num [game2]
    have hy : ¬ (game2.ball.y ≤ 0) := by norm_num [game2]
    unfold wallStage
    simp only [if_neg hx, if_neg hy]
    rfl
  have hp : ¬ game2.ball.getGlobalBounds.intersects game2.paddle.getGlobalBounds := by
    apply FloatRect.not_intersects_of_above
    · show (0 : ℝ) ≤ 2 * 5
      norm_num
    · show (0 : ℝ) ≤ 10
      norm_num
    · show (105 : ℝ) + 2 * 5 ≤ 570
      norm_num
  unfold paddleStage
  rw [if_neg hp, hw]

theorem brick_bounce_axis_witness :
    game2.grid.WellFormed GRID_WIDTH GRID_HEIGHT ∧
    game2.nextGrid.WellFormed GRID_WIDTH GRID_HEIGHT ∧
    firstHit game2 = some (0, 0) ∧
    (brickBounce game2 ⟨Flt.val 3, Flt.val (-4)⟩ 10 10).x = Flt.val (-3) ∧
    (brickBounce game2 ⟨Flt.val 3, Flt.val (-4)⟩ 10 10).y = Flt.val (-4) ∧
    ∃ s1, checkCollisions draws0 game2 = some s1 ∧
      s1.ballVelocity = ⟨Flt.val (-3), Flt.val (-4)⟩ :=
  have hB := brick_bounce_axis 0 game2 ⟨Flt.val 3, Flt.val (-4)⟩ 10 10
  have hx : (brickBounce game2 ⟨Flt.val 3, Flt.val (-4)⟩ 10 10).x = Flt.val (-3) := by
    rw [hB.1, if_pos (Or.inr game2_overlaps.1)]
    rfl
  have hy : (brickBounce game2 ⟨Flt.val 3, Flt.val (-4)⟩ 10 10).y = Flt.val (-4) := by
    rw [hB.2.1, if_neg (fun h => h.elim game2_overlaps.2.1 game2_overlaps.2.2)]
  ⟨game1_wellFormed.1, game1_wellFormed.2, game2_firstHit, hx, hy, by
    obtain ⟨s1, hs1, hv⟩ := hB.2.2.2.2.2.2 draws0 (0, 0) game1_wellFormed.1
      game1_wellFormed.2 game2_firstHit
    refine ⟨s1, hs1, ?_⟩
    have hgx : truncToInt (game2.ball.x / (CELL_SIZE : ℝ)) = 10 := game1_gridX
    have hbb : brickBounce game2 ⟨Flt.val 3, Flt.val (-4)⟩ 10 10
        = ⟨Flt.val (-3), Flt.val (-4)⟩ := by
      have he : brickBounce game2 ⟨Flt.val 3, Flt.val (-4)⟩ 10 10
          = ⟨(brickBounce game2 ⟨Flt.val 3, Flt.val (-4)⟩ 10 10).x,
            (brickBounce game2 ⟨Flt.val 3, Flt.val (-4)⟩ 10 10).y⟩ := rfl
      rw [he, hx, hy]
    rw [hv, game2_stages, hgx, game2_gridY]
    show adjustBallVelocity draws0.brick (brickBounce game2 ⟨Flt.val 3, Flt.val (-4)⟩ 10 10) = _
    rw [hbb, adjustBallVelocity_of_not_tooVertical _ _ not_tooVertical_three_four]⟩

/-! ## Paddle bounce: claim C14 -/

/-- The paddle stage on a ball whose bounds intersect the paddle's: the angle correction of
`((ballCenter - paddleCenter) * (0.08 + j), -|vy|)`. -/
theorem paddleStage_of_intersects (d : Draws) (s : Game) (v : Vector2f)
    (hint : s.ball.getGlobalBounds.intersects s.paddle.getGlobalBounds) :
    paddleStage d s v = adjustBallVelocity d.paddle
      ⟨Flt.val ((s.ball.x + s.ball.radius - (s.paddle.x + s.paddle.width / 2))
        * (8 / 100 + d.paddleFactor)), -Flt.abs v.y⟩ := by
  unfold paddleStage
  rw [if_pos hint]

theorem sqrt_low_speed_up : Real.sqrt ((0 : ℝ) * 0 + -(1 / 10) * -(1 / 10)) = 1 / 10 := by
  rw [show (0 : ℝ) * 0 + -(1 / 10) * -(1 / 10) = (1 / 10) ^ 2 by norm_num]
  exact Real.sqrt_sq (by norm_num)

/-- The correction at velocity `(0, -0.1)` with the jitter `-0.2`: the radicand is negative. -/
theorem adjustBallVelocity_low_speed_up :
    adjustBallVelocity (-(1 / 5)) ⟨Flt.val 0, Flt.val (-(1 / 10))⟩
      = ⟨Flt.val (-(23 / 100)), Flt.nan⟩ := by
  have h : tooVertical ⟨Flt.val 0, Flt.val (-(1 / 10))⟩ := by
    rw [tooVertical_val, sqrt_low_speed_up]; norm_num
  rw [adjustBallVelocity_val _ _ _ h, sqrt_low_speed_up]
  have hx : ¬ ((0 : ℝ) < 0) := lt_irrefl 0
  have hy : ¬ ((0 : ℝ) < -(1 / 10)) := by norm_num
  have habs : |(-(1 / 5) : ℝ)| = 1 / 5 := by rw [abs_neg]; exact abs_of_pos (by norm_num)
  simp only [if_neg hx, if_neg hy, habs]
  have hrad : ¬ (0 : ℝ) ≤ 1 / 10 * (1 / 10)
      - (-(1 / 10) * (3 / 10) - 1 / 5) * (-(1 / 10) * (3 / 10) - 1 / 5) := by norm_num
  have hsq : Flt.sqrt (Flt.val (1 / 10 * (1 / 10)
      - (-(1 / 10) * (3 / 10) - 1 / 5) * (-(1 / 10) * (3 / 10) - 1 / 5))) = Flt.nan := by
    show (if _ then _ else _) = _
    rw [if_neg hrad]
  rw [hsq]
  have hxv : (-(1 / 10) * (3 / 10) - 1 / 5 : ℝ) = -(23 / 100) := by norm_num
  rw [hxv]
  rfl

theorem gamePaddle_intersects :
    gamePaddle.ball.getGlobalBounds.intersects gamePaddle.paddle.getGlobalBounds := by
  obtain ⟨hc1, hc2⟩ := circleCos_bounds
  have hb : gamePaddle.ball.getGlobalBounds
      = ⟨395 + 5 * (1 - circleCos), 565, 2 * 5 * circleCos, 2 * 5⟩ := rfl
  have hq : gamePaddle.paddle.getGlobalBounds = ⟨350, 570, 100, 10⟩ := rfl
  rw [hb, hq, FloatRect.intersects_iff _ _ (by show (0 : ℝ) ≤ 2 * 5 * circleCos; linarith)
    (by show (0 : ℝ) ≤ 2 * 5; norm_num) (by show (0 : ℝ) ≤ 100; norm_num)
    (by show (0 : ℝ) ≤ 10; norm_num)]
  refine ⟨⟨?_, ?_, ?_, ?_⟩, ⟨?_, ?_, ?_, ?_⟩⟩
  · show (395 : ℝ) + 5 * (1 - circleCos) < 395 + 5 * (1 - circleCos) + 2 * 5 * circleCos
    linarith
  · show (395 : ℝ) + 5 * (1 - circleCos) < 350 + 100
    linarith
  · show (350 : ℝ) < 395 + 5 * (1 - circleCos) + 2 * 5 * circleCos
    linarith
  · show (350 : ℝ) < 350 + 100
    norm_num
  · show (565 : ℝ) < 565 + 2 * 5
    norm_num
  · show (565 : ℝ) < 570 + 10
    norm_num
  · show (570 : ℝ) < 565 + 2 * 5
    norm_num
  · show (570 : ℝ) < 570 + 10
    norm_num

/-- C14: the paddle bounce can leave a y-velocity that is not a number. In the state
`gameSlow` the ball's bounds intersect the paddle's, the ball is over the paddle's centre and
falls with the velocity `(0, 0.1)`; with the jitter `0` of the factor and the adjustment `-0.2`
the paddle stage remaps the velocity to `(0, -0.1)`, the angle correction takes the square root
of a negative radicand, and the stage leaves `(-0.23, NaN)`: the y-velocity is not non-positive,
and `checkCollisions` returns with that velocity. -/
theorem paddle_bounce_leaves_nan :
    gameSlow.ball.getGlobalBounds.intersects gameSlow.paddle.getGlobalBounds ∧
    |drawsSlow.paddleFactor| ≤ 2 / 100 ∧ |drawsSlow.paddle| ≤ 1 / 5 ∧
    wallStage drawsSlow gameSlow = ⟨Flt.val 0, Flt.val (1 / 10)⟩ ∧
    paddleStage drawsSlow gameSlow (wallStage drawsSlow gameSlow)
      = ⟨Flt.val (-(23 / 100)), Flt.nan⟩ ∧
    ¬ Flt.le (paddleStage drawsSlow gameSlow (wallStage drawsSlow gameSlow)).y (Flt.val 0) ∧
    checkCollisions drawsSlow gameSlow
      = some { gameSlow with ballVelocity := ⟨Flt.val (-(23 / 100)), Flt.nan⟩ } := by
  have hw : wallStage drawsSlow gameSlow = ⟨Flt.val 0, Flt.val (1 / 10)⟩ := by
    have hx : ¬ (gameSlow.ball.x ≤ 0 ∨
        gameSlow.ball.x ≥ (WINDOW_WIDTH : ℝ) - gameSlow.ball.radius * 2) := by
      rw [WINDOW_WIDTH_cast]
      norm_num [gameSlow, gamePaddle]
    have hy : ¬ (gameSlow.ball.y ≤ 0) := by norm_num [gameSlow, gamePaddle]
    unfold wallStage
    simp only [if_neg hx, if_neg hy]
    rfl
  have hint : gameSlow.ball.getGlobalBounds.intersects gameSlow.paddle.getGlobalBounds :=
    gamePaddle_intersects
  have hp : paddleStage drawsSlow gameSlow (wallStage drawsSlow gameSlow)
      = ⟨Flt.val (-(23 / 100)), Flt.nan⟩ := by
    rw [paddleStage_of_intersects _ _ _ hint, hw]
    have hv : (⟨Flt.val ((gameSlow.ball.x + gameSlow.ball.radius
          - (gameSlow.paddle.x + gameSlow.paddle.width / 2)) * (8 / 100 + drawsSlow.paddleFactor)),
        -Flt.abs (Flt.val (1 / 10))⟩ : Vector2f) = ⟨Flt.val 0, Flt.val (-(1 / 10))⟩ := by
      have h1 : (gameSlow.ball.x + gameSlow.ball.radius
          - (gameSlow.paddle.x + gameSlow.paddle.width / 2)) * (8 / 100 + drawsSlow.paddleFactor)
          = 0 := by
        show ((395 : ℝ) + 5 - (350 + 100 / 2)) * (8 / 100 + 0) = 0
        norm_num
      have h2 : -Flt.abs (Flt.val (1 / 10)) = Flt.val (-(1 / 10)) := by
        show Flt.val (-|(1 / 10 : ℝ)|) = _
        rw [abs_of_pos (by norm_num)]
      rw [h1, h2]
    show adjustBallVelocity drawsSlow.paddle _ = _
    rw [hv]
    exact adjustBallVelocity_low_speed_up
  refine ⟨hint, ?_, ?_, hw, hp, ?_, ?_⟩
  · show |(0 : ℝ)| ≤ 2 / 100
    norm_num
  · show |(-(1 / 5) : ℝ)| ≤ 1 / 5
    rw [abs_neg, abs_of_pos (by norm_num)]
  · rw [hp]
    exact fun h => h
  · unfold checkCollisions
    simp only []
    rw [brickScan_no_hit drawsSlow.brick gameSlow _ _ _ deadGrid_wellFormed scanWindow
      (fun p _ => deadGrid_isHit gameSlow rfl _ _ p), hp]

/-! ## Walls and the frame without a collision: claim C16 -/

/-- The call of `checkCollisions` on a well-formed grid when the ball's bounds do not intersect
the paddle's and no window entry is a hit: only the velocity changes, to that of the wall
stage. -/
theorem checkCollisions_no_paddle_no_hit (d : Draws) (s : Game)
    (hwf : s.grid.WellFormed GRID_WIDTH GRID_HEIGHT)
    (hp : ¬ s.ball.getGlobalBounds.intersects s.paddle.getGlobalBounds)
    (hno : ∀ p ∈ scanWindow, isHit s (truncToInt (s.ball.x / (CELL_SIZE : ℝ)))
      (truncToInt (s.ball.y / (CELL_SIZE : ℝ))) p = false) :
    checkCollisions d s = some { s with ballVelocity := wallStage d s } := by
  unfold checkCollisions
  simp only []
  rw [brickScan_no_hit d.brick s _ _ _ hwf scanWindow hno]
  unfold paddleStage
  rw [if_neg hp]

/-- C16: the walls and the frame without a collision. On a well-formed grid, when the ball's
bounds do not intersect the paddle's and no entry of the scan window is a hit,
`checkCollisions` returns the state with only the velocity changed: unchanged when neither
wall test holds; with the x-component negated once, then the angle corrected, when only the
side-wall test (`x <= 0` or `x >= WINDOW_WIDTH - 2 * radius`) holds; with the y-component
negated, then the angle corrected, when only the top-wall test (`y <= 0`) holds; and with the
x-component negated and the angle corrected, then the y-component negated and the angle
corrected, when both hold. For every state, the velocity that the wall stage hands on is given
by the same four cases. -/
theorem walls_and_quiet_frame (d : Draws) (s : Game) :
    (s.grid.WellFormed GRID_WIDTH GRID_HEIGHT →
      ¬ s.ball.getGlobalBounds.intersects s.paddle.getGlobalBounds →
      (∀ p ∈ scanWindow, isHit s (truncToInt (s.ball.x / (CELL_SIZE : ℝ)))
        (truncToInt (s.ball.y / (CELL_SIZE : ℝ))) p = false) →
      (¬ atSideWall s → ¬ atTopWall s → checkCollisions d s = some s) ∧
      (atSideWall s → ¬ atTopWall s →
        checkCollisions d s = some { s with
          ballVelocity := adjustBallVelocity d.wallX ⟨-s.ballVelocity.x, s.ballVelocity.y⟩ }) ∧
      (¬ atSideWall s → atTopWall s →
        checkCollisions d s = some { s with
          ballVelocity := adjustBallVelocity d.wallY ⟨s.ballVelocity.x, -s.ballVelocity.y⟩ }) ∧
      (atSideWall s → atTopWall s →
        checkCollisions d s = some { s with
          ballVelocity := adjustBallVelocity d.wallY
            ⟨(adjustBallVelocity d.wallX ⟨-s.ballVelocity.x, s.ballVelocity.y⟩).x,
              -(adjustBallVelocity d.wallX ⟨-s.ballVelocity.x, s.ballVelocity.y⟩).y⟩ })) ∧
    (¬ atSideWall s → ¬ atTopWall s → wallStage d s = s.ballVelocity) ∧
    (atSideWall s → ¬ atTopWall s →
      wallStage d s = adjustBallVelocity d.wallX ⟨-s.ballVelocity.x, s.ballVelocity.y⟩) ∧
    (¬ atSideWall s → atTopWall s →
      wallStage d s = adjustBallVelocity d.wallY ⟨s.ballVelocity.x, -s.ballVelocity.y⟩) ∧
    (atSideWall s → atTopWall s →
      wallStage d s = adjustBallVelocity d.wallY
        ⟨(adjustBallVelocity d.wallX ⟨-s.ballVelocity.x, s.ballVelocity.y⟩).x,
          -(adjustBallVelocity d.wallX ⟨-s.ballVelocity.x, s.ballVelocity.y⟩).y⟩) := by
  have h00 : ¬ atSideWall s → ¬ atTopWall s → wallStage d s = s.ballVelocity := by
    intro hx hy
    unfold atSideWall at hx
    unfold atTopWall at hy
    unfold wallStage
    simp only [if_neg hx, if_neg hy]
  have h10 : atSideWall s → ¬ atTopWall s →
      wallStage d s = adjustBallVelocity d.wallX ⟨-s.ballVelocity.x, s.ballVelocity.y⟩ := by
    intro hx hy
    unfold atSideWall at hx
    unfold atTopWall at hy
    unfold wallStage
    simp only [if_pos hx, if_neg hy]
  have h01 : ¬ atSideWall s → atTopWall s →
      wallStage d s = adjustBallVelocity d.wallY ⟨s.ballVelocity.x, -s.ballVelocity.y⟩ := by
    intro hx hy
    unfold atSideWall at hx
    unfold atTopWall at hy
    unfold wallStage
    simp only [if_neg hx, if_pos hy]
  have h11 : atSideWall s → atTopWall s →
      wallStage d s = adjustBallVelocity d.wallY
        ⟨(adjustBallVelocity d.wallX ⟨-s.ballVelocity.x, s.ballVelocity.y⟩).x,
          -(adjustBallVelocity d.wallX ⟨-s.ballVelocity.x, s.ballVelocity.y⟩).y⟩ := by
    intro hx hy
    unfold atSideWall at hx
    unfold atTopWall at hy
    unfold wallStage
    simp only [if_pos hx, if_pos hy]
  refine ⟨?_, h00, h10, h01, h11⟩
  intro hwf hp hno
  have hcc := checkCollisions_no_paddle_no_hit d s hwf hp hno
  refine ⟨?_, ?_, ?_, ?_⟩
  · intro hx hy
    rw [hcc, h00 hx hy]
  · intro hx hy
    rw [hcc, h10 hx hy]
  · intro hx hy
    rw [hcc, h01 hx hy]
  · intro hx hy
    rw [hcc, h11 hx hy]

theorem gameEdge_no_paddle :
    ¬ gameEdge.ball.getGlobalBounds.intersects gameEdge.paddle.getGlobalBounds := by
  apply FloatRect.not_intersects_of_above
  · show (0 : ℝ) ≤ 2 * 5
    norm_num
  · show (0 : ℝ) ≤ 10
    norm_num
  · show (100 : ℝ) + 2 * 5 ≤ 570
    norm_num

theorem gameEdge_no_wall : ¬ atSideWall gameEdge ∧ ¬ atTopWall gameEdge := by
  constructor
  · unfold atSideWall
    rw [WINDOW_WIDTH_cast]
    norm_num [gameEdge]
  · unfold atTopWall
    norm_num [gameEdge]

theorem gameWall_no_hit (p : Int × Int) (hp : p ∈ scanWindow) :
    isHit gameWall (truncToInt (gameWall.ball.x / (CELL_SIZE : ℝ)))
      (truncToInt (gameWall.ball.y / (CELL_SIZE : ℝ))) p = false := by
  have hgy : truncToInt (gameWall.ball.y / (CELL_SIZE : ℝ)) = 40 := by
    have h : gameWall.ball.y / (CELL_SIZE : ℝ) = 40 := by
      show (400 : ℝ) / ((10 : Int) : ℝ) = 40
      norm_num
    rw [h, truncToInt, if_pos (by norm_num), Int.floor_eq_iff]
    norm_num
  by_contra hne
  obtain ⟨⟨_, _, _, hyH⟩, _, _⟩ := isHit_inRange (Bool.eq_true_of_not_eq_false hne)
  rw [hgy, GRID_HEIGHT_eq] at hyH
  rw [scanWindow_eq] at hp
  simp only [List.mem_cons, List.mem_singleton, List.not_mem_nil, or_false] at hp
  rcases hp with rfl | rfl | rfl | rfl | rfl | rfl | rfl | rfl | rfl <;> simp at hyH

theorem not_tooVertical_three_four_down : ¬ tooVertical ⟨Flt.val 3, Flt.val 4⟩ := by
  rw [tooVertical_val]
  have h5 : Real.sqrt ((3 : ℝ) * 3 + 4 * 4) = 5 := by
    rw [show ((3 : ℝ) * 3 + 4 * 4) = 5 * 5 by norm_num]
    exact Real.sqrt_mul_self (by norm_num)
  rw [h5]
  norm_num

theorem walls_and_quiet_frame_witness :
    (gameWall.grid.WellFormed GRID_WIDTH GRID_HEIGHT ∧
      ¬ gameWall.ball.getGlobalBounds.intersects gameWall.paddle.getGlobalBounds ∧
      atSideWall gameWall ∧ ¬ atTopWall gameWall ∧
      gameWall.ballVelocity = ⟨Flt.val (-3), Flt.val 4⟩ ∧
      checkCollisions draws0 gameWall
        = some { gameWall with ballVelocity := ⟨Flt.val 3, Flt.val 4⟩ }) ∧
    (gameEdge.grid.WellFormed GRID_WIDTH GRID_HEIGHT ∧
      ¬ gameEdge.ball.getGlobalBounds.intersects gameEdge.paddle.getGlobalBounds ∧
      ¬ atSideWall gameEdge ∧ ¬ atTopWall gameEdge ∧
      gameEdge.grid.read 10 10 = some true ∧
      checkCollisions draws0 gameEdge = some gameEdge) :=
  have hpw : ¬ gameWall.ball.getGlobalBounds.intersects gameWall.paddle.getGlobalBounds := by
    apply FloatRect.not_intersects_of_above
    · show (0 : ℝ) ≤ 2 * 5
      norm_num
    · show (0 : ℝ) ≤ 10
      norm_num
    · show (400 : ℝ) + 2 * 5 ≤ 570
      norm_num
  have hxw : atSideWall gameWall := by
    unfold atSideWall
    left
    norm_num [gameWall]
  have hyw : ¬ atTopWall gameWall := by
    unfold atTopWall
    norm_num [gameWall]
  ⟨⟨game1_wellFormed.1, hpw, hxw, hyw, rfl, by
      rw [((walls_and_quiet_frame draws0 gameWall).1 game1_wellFormed.1 hpw
        gameWall_no_hit).2.1 hxw hyw]
      have hv : (⟨-gameWall.ballVelocity.x, gameWall.ballVelocity.y⟩ : Vector2f)
          = ⟨Flt.val 3, Flt.val 4⟩ := by
        show (⟨Flt.val (- -3), Flt.val 4⟩ : Vector2f) = _
        rw [neg_neg]
      rw [hv, adjustBallVelocity_of_not_tooVertical _ _ not_tooVertical_three_four_down]⟩,
    ⟨gameEdge_wellFormed.1, gameEdge_no_paddle, gameEdge_no_wall.1, gameEdge_no_wall.2, by
      exact gameEdge_read,
      ((walls_and_quiet_frame draws0 gameEdge).1 gameEdge_wellFormed.1 gameEdge_no_paddle
        (fun p _ => gameEdge_no_hit p)).1 gameEdge_no_wall.1 gameEdge_no_wall.2⟩⟩

/-! ## Index safety of the brick scan: claim C12 -/

/-- C12: for every ball position, on grids of the program's dimensions `checkCollisions`
succeeds, that is no index it reads or writes in `grid` or `nextGrid` is out of range; every
window entry whose cell is outside `0 <= checkX < GRID_WIDTH`, `0 <= checkY < GRID_HEIGHT` is
skipped; and a cell that the call changes is a cell `(gridX + dx, gridY + dy)` of the window
that lies in that range, not a cell wrapped to the opposite edge. -/
theorem brick_scan_indices_in_range (d : Draws) (s : Game)
    (hwf : s.grid.WellFormed GRID_WIDTH GRID_HEIGHT)
    (hwfn : s.nextGrid.WellFormed GRID_WIDTH GRID_HEIGHT) :
    (∃ s1, checkCollisions d s = some s1 ∧
      ∀ x y : Int, s1.grid.read y x ≠ s.grid.read y x →
        (0 ≤ x ∧ x < GRID_WIDTH ∧ 0 ≤ y ∧ y < GRID_HEIGHT) ∧
        ∃ p ∈ scanWindow, x = truncToInt (s.ball.x / (CELL_SIZE : ℝ)) + p.2 ∧
          y = truncToInt (s.ball.y / (CELL_SIZE : ℝ)) + p.1) ∧
    (∀ (adj : ℝ) (v : Vector2f) (gridX gridY dy dx : Int) (rest : List (Int × Int)),
      ¬ (0 ≤ gridX + dx ∧ gridX + dx < GRID_WIDTH ∧
          0 ≤ gridY + dy ∧ gridY + dy < GRID_HEIGHT) →
      brickScan adj s v gridX gridY ((dy, dx) :: rest) = brickScan adj s v gridX gridY rest) := by
  refine ⟨?_, fun adj v gridX gridY dy dx rest h => brickScan_skip adj s v gridX gridY dy dx rest h⟩
  obtain ⟨s1, hs1, hc⟩ := brickScan_spec d.brick s (paddleStage d s (wallStage d s))
    (truncToInt (s.ball.x / (CELL_SIZE : ℝ))) (truncToInt (s.ball.y / (CELL_SIZE : ℝ)))
    hwf hwfn scanWindow
  refine ⟨s1, hs1, ?_⟩
  intro x y hne
  cases hf : scanWindow.find? (isHit s (truncToInt (s.ball.x / (CELL_SIZE : ℝ)))
      (truncToInt (s.ball.y / (CELL_SIZE : ℝ)))) with
  | none =>
    rw [hf] at hc
    have hg : s1.grid = s.grid := hc
    rw [hg] at hne
    exact absurd rfl hne
  | some p =>
    rw [hf] at hc
    obtain ⟨_, _, hother⟩ := hc
    have hxy : x = truncToInt (s.ball.x / (CELL_SIZE : ℝ)) + p.2 ∧
        y = truncToInt (s.ball.y / (CELL_SIZE : ℝ)) + p.1 := by
      by_contra hcon
      exact hne (hother x y hcon)
    obtain ⟨hrange, _, _⟩ := isHit_inRange (List.find?_some hf)
    rw [hxy.1, hxy.2]
    exact ⟨hrange, p, List.mem_of_find?_eq_some hf, rfl, rfl⟩

theorem gameOutside_no_hit (p : Int × Int) (hp : p ∈ scanWindow) :
    isHit gameOutside (truncToInt (gameOutside.ball.x / (CELL_SIZE : ℝ)))
      (truncToInt (gameOutside.ball.y / (CELL_SIZE : ℝ))) p = false := by
  have hgx : truncToInt (gameOutside.ball.x / (CELL_SIZE : ℝ)) = -5 := by
    have h : gameOutside.ball.x / (CELL_SIZE : ℝ) = -5 := by
      show (-50 : ℝ) / ((10 : Int) : ℝ) = -5
      norm_num
    rw [h, truncToInt, if_neg (by norm_num), Int.ceil_eq_iff]
    norm_num
  by_contra hne
  obtain ⟨⟨hx0, _, _, _⟩, _, _⟩ := isHit_inRange (Bool.eq_true_of_not_eq_false hne)
  rw [hgx] at hx0
  rw [scanWindow_eq] at hp
  simp only [List.mem_cons, List.mem_singleton, List.not_mem_nil, or_false] at hp
  rcases hp with rfl | rfl | rfl | rfl | rfl | rfl | rfl | rfl | rfl <;> simp at hx0

theorem gameOutside_wellFormed :
    gameOutside.grid.WellFormed GRID_WIDTH GRID_HEIGHT ∧
    gameOutside.nextGrid.WellFormed GRID_WIDTH GRID_HEIGHT :=
  game1_wellFormed

theorem brick_scan_indices_in_range_witness :
    gameOutside.grid.WellFormed GRID_WIDTH GRID_HEIGHT ∧
    gameOutside.nextGrid.WellFormed GRID_WIDTH GRID_HEIGHT ∧
    ∃ s1, checkCollisions draws0 gameOutside = some s1 ∧ s1.grid = gameOutside.grid :=
  ⟨gameOutside_wellFormed.1, gameOutside_wellFormed.2,
    (brick_scan_indices_in_range draws0 gameOutside gameOutside_wellFormed.1
      gameOutside_wellFormed.2).1.imp fun s1 h => ⟨h.1, by
        have hb := brickScan_no_hit draws0.brick gameOutside
          (paddleStage draws0 gameOutside (wallStage draws0 gameOutside)) _ _
          gameOutside_wellFormed.1 scanWindow gameOutside_no_hit
        have hc : checkCollisions draws0 gameOutside = _ := hb
        rw [hc] at h
        rw [← Option.some.inj h.1]⟩⟩

/-! ## Completeness of the scan window: claim C20 -/

/-- A cell index `c >= 0` whose interval `(10c, 10c + 9)` overlaps `(x, x + 10)` is the
truncation of `x / 10` or the next index. -/
theorem overlap_index (x : ℝ) (c : Int) (hc : 0 ≤ c) (h1 : x < 10 * (c : ℝ) + 9)
    (h2 : 10 * (c : ℝ) < x + 10) :
    c = truncToInt (x / ((CELL_SIZE : Int) : ℝ)) ∨
      c = truncToInt (x / ((CELL_SIZE : Int) : ℝ)) + 1 := by
  have hcell : ((CELL_SIZE : Int) : ℝ) = 10 := by
    rw [show CELL_SIZE = 10 by rfl]; norm_num
  rw [hcell]
  unfold truncToInt
  by_cases hx : 0 ≤ x / 10
  · rw [if_pos hx]
    have hf1 : ((⌊x / 10⌋ : Int) : ℝ) ≤ x / 10 := Int.floor_le _
    have hf2 : x / 10 < ((⌊x / 10⌋ : Int) : ℝ) + 1 := Int.lt_floor_add_one _
    have k1 : (10 * ⌊x / 10⌋ : ℝ) < 10 * (c : ℝ) + 9 := by linarith
    have k2 : (10 * (c : ℝ)) < 10 * (⌊x / 10⌋ : ℝ) + 20 := by linarith
    have k1' : 10 * ⌊x / 10⌋ < 10 * c + 9 := by exact_mod_cast k1
    have k2' : 10 * c < 10 * ⌊x / 10⌋ + 20 := by exact_mod_cast k2
    omega
  · rw [if_neg hx]
    have hxneg : x / 10 < 0 := not_le.mp hx
    have hc1 : ((⌈x / 10⌉ : Int) : ℝ) < x / 10 + 1 := Int.ceil_lt_add_one _
    have hc2 : x / 10 ≤ ((⌈x / 10⌉ : Int) : ℝ) := Int.le_ceil _
    have k0 : (10 * (c : ℝ)) < 10 := by linarith
    have k0' : 10 * c < 10 := by exact_mod_cast k0
    have hc0 : c = 0 := by omega
    have k1 : ((⌈x / 10⌉ : Int) : ℝ) < 1 := by linarith
    have k1' : ⌈x / 10⌉ < 1 := by exact_mod_cast k1
    have hcr : (c : ℝ) = 0 := by rw [hc0]; norm_num
    have k2 : (-1 : ℝ) < ((⌈x / 10⌉ : Int) : ℝ) := by
      rw [hcr] at h2
      linarith
    have k2' : (-1 : Int) < ⌈x / 10⌉ := by exact_mod_cast k2
    omega

/-- C20 as stated fails: in `gameEdge` the ball has radius 5, the grids are well formed, the
cell `(10, 10)` is live and in range and its bounds intersect the square
`(108.99, 100, 10, 10)`, yet `checkCollisions` returns the state unchanged, the cell still
live. -/
theorem scan_window_misses_edge_overlap :
    gameEdge.ball.radius = 5 ∧
    gameEdge.grid.WellFormed GRID_WIDTH GRID_HEIGHT ∧
    gameEdge.nextGrid.WellFormed GRID_WIDTH GRID_HEIGHT ∧
    gameEdge.grid.read 10 10 = some true ∧
    gameEdge.ball.boundingSquare.intersects (brickBounds 10 10) ∧
    ¬ gameEdge.ball.getGlobalBounds.intersects (brickBounds 10 10) ∧
    checkCollisions draws0 gameEdge = some gameEdge := by
  obtain ⟨hc1, hc2⟩ := circleCos_bounds
  have hbx : gameEdge.ball.x = 10899 / 100 := rfl
  have hby : gameEdge.ball.y = 100 := rfl
  refine ⟨rfl, gameEdge_wellFormed.1, gameEdge_wellFormed.2, gameEdge_read, ?_, ?_, ?_⟩
  · rw [square_intersects_brick_iff gameEdge rfl, hbx, hby]
    refine ⟨⟨?_, ?_⟩, ⟨?_, ?_⟩⟩ <;> push_cast <;> norm_num
  · rw [intersects_brick_iff gameEdge rfl, hbx, hby]
    intro h
    have h1 := h.1.1
    push_cast at h1
    linarith
  · rw [checkCollisions_no_paddle_no_hit draws0 gameEdge gameEdge_wellFormed.1
      gameEdge_no_paddle (fun p _ => gameEdge_no_hit p)]
    have hw : wallStage draws0 gameEdge = gameEdge.ballVelocity := by
      have hx := gameEdge_no_wall.1
      have hy := gameEdge_no_wall.2
      unfold atSideWall at hx
      unfold atTopWall at hy
      unfold wallStage
      simp only [if_neg hx, if_neg hy]
    rw [hw]

/-- C20, as the source has it. With radius 5, every cell `(c, r)` with `c, r >= 0` whose bounds
intersect the square `(px, py, 10, 10)` has `c` equal to `gridX` or `gridX + 1` and `r` equal to
`gridY` or `gridY + 1`, so it is an entry of the scan window; the ball's bounds, those of its
30-point polygon, lie in that square, so a cell whose bounds intersect them intersects the
square as well; hence, on grids of the program's dimensions, when `checkCollisions` returns
with the grid unchanged, no live in-range cell has bounds that intersect the ball's bounds. -/
theorem scan_window_complete (s : Game) (hr : s.ball.radius = 5) :
    (∀ c r : Int, 0 ≤ c → 0 ≤ r → s.ball.boundingSquare.intersects (brickBounds c r) →
      (c = truncToInt (s.ball.x / (CELL_SIZE : ℝ)) ∨
        c = truncToInt (s.ball.x / (CELL_SIZE : ℝ)) + 1) ∧
      (r = truncToInt (s.ball.y / (CELL_SIZE : ℝ)) ∨
        r = truncToInt (s.ball.y / (CELL_SIZE : ℝ)) + 1) ∧
      ∃ p ∈ scanWindow, c = truncToInt (s.ball.x / (CELL_SIZE : ℝ)) + p.2 ∧
        r = truncToInt (s.ball.y / (CELL_SIZE : ℝ)) + p.1) ∧
    (∀ c r : Int, s.ball.getGlobalBounds.intersects (brickBounds c r) →
      s.ball.boundingSquare.intersects (brickBounds c r)) ∧
    (∀ (d : Draws) (s1 : Game), s.grid.WellFormed GRID_WIDTH GRID_HEIGHT →
      s.nextGrid.WellFormed GRID_WIDTH GRID_HEIGHT →
      checkCollisions d s = some s1 → s1.grid = s.grid →
      ∀ c r : Int, 0 ≤ c → c < GRID_WIDTH → 0 ≤ r → r < GRID_HEIGHT →
        s.grid.read r c = some true →
        ¬ s.ball.getGlobalBounds.intersects (brickBounds c r)) := by
  obtain ⟨hc1, hc2⟩ := circleCos_bounds
  have hsq : ∀ c r : Int, s.ball.getGlobalBounds.intersects (brickBounds c r) →
      s.ball.boundingSquare.intersects (brickBounds c r) := by
    intro c r hint
    rw [intersects_brick_iff s hr] at hint
    rw [square_intersects_brick_iff s hr]
    obtain ⟨⟨h1, h2⟩, h34⟩ := hint
    exact ⟨⟨by linarith, by linarith⟩, h34⟩
  have hwin : ∀ c r : Int, 0 ≤ c → 0 ≤ r →
      s.ball.boundingSquare.intersects (brickBounds c r) →
      (c = truncToInt (s.ball.x / (CELL_SIZE : ℝ)) ∨
        c = truncToInt (s.ball.x / (CELL_SIZE : ℝ)) + 1) ∧
      (r = truncToInt (s.ball.y / (CELL_SIZE : ℝ)) ∨
        r = truncToInt (s.ball.y / (CELL_SIZE : ℝ)) + 1) ∧
      ∃ p ∈ scanWindow, c = truncToInt (s.ball.x / (CELL_SIZE : ℝ)) + p.2 ∧
        r = truncToInt (s.ball.y / (CELL_SIZE : ℝ)) + p.1 := by
    intro c r hc0 hr0 hint
    rw [square_intersects_brick_iff s hr] at hint
    obtain ⟨⟨h1, h2⟩, ⟨h3, h4⟩⟩ := hint
    have hx := overlap_index s.ball.x c hc0 h1 h2
    have hy := overlap_index s.ball.y r hr0 h3 h4
    refine ⟨hx, hy, ?_⟩
    rw [scanWindow_eq]
    rcases hx with hx | hx <;> rcases hy with hy | hy
    · exact ⟨(0, 0), by simp, by rw [hx]; simp, by rw [hy]; simp⟩
    · exact ⟨(1, 0), by simp, by rw [hx]; simp, by rw [hy]⟩
    · exact ⟨(0, 1), by simp, by rw [hx], by rw [hy]; simp⟩
    · exact ⟨(1, 1), by simp, by rw [hx], by rw [hy]⟩
  refine ⟨hwin, hsq, ?_⟩
  intro d s1 hwf hwfn hcc hsame c r hc0 hcW hr0 hrH hlive hint
  obtain ⟨s2, hs2, hclear⟩ := brickScan_spec d.brick s (paddleStage d s (wallStage d s))
    (truncToInt (s.ball.x / (CELL_SIZE : ℝ))) (truncToInt (s.ball.y / (CELL_SIZE : ℝ)))
    hwf hwfn scanWindow
  have hcc2 : checkCollisions d s = some s2 := hs2
  rw [hcc] at hcc2
  cases hcc2
  cases hf : scanWindow.find? (isHit s (truncToInt (s.ball.x / (CELL_SIZE : ℝ)))
      (truncToInt (s.ball.y / (CELL_SIZE : ℝ)))) with
  | some q =>
    rw [hf] at hclear
    obtain ⟨hq1, hq2, _⟩ := hclear
    rw [hsame, hq1] at hq2
    cases hq2
  | none =>
    obtain ⟨_, _, p, hp, hpx, hpy⟩ := hwin c r hc0 hr0 (hsq c r hint)
    have hno := List.find?_eq_none.mp hf p hp
    apply hno
    unfold isHit
    rw [← hpx, ← hpy]
    simp [hc0, hcW, hr0, hrH, Grid.isLive, hlive, hint]

theorem scan_window_complete_witness :
    game1.ball.radius = 5 ∧
    game1.ball.boundingSquare.intersects (brickBounds 11 10) ∧
    ((11 : Int) = truncToInt (game1.ball.x / (CELL_SIZE : ℝ)) ∨
      (11 : Int) = truncToInt (game1.ball.x / (CELL_SIZE : ℝ)) + 1) ∧
    ∀ s1, checkCollisions draws0 gameEdge = some s1 → s1.grid = gameEdge.grid →
      ¬ gameEdge.ball.getGlobalBounds.intersects (brickBounds 10 10) :=
  ⟨rfl, (scan_window_complete game1 rfl).2.1 11 10 (game1_intersects 11 (Or.inr rfl)),
    ((scan_window_complete game1 rfl).1 11 10 (by decide) (by decide)
      ((scan_window_complete game1 rfl).2.1 11 10 (game1_intersects 11 (Or.inr rfl)))).1,
    fun s1 hcc hsame => (scan_window_complete gameEdge rfl).2.2 draws0 s1
      gameEdge_wellFormed.1 gameEdge_wellFormed.2 hcc hsame 10 10 (by decide) (by decide)
      (by decide) (by decide) gameEdge_read⟩

/-! ## Cell colour: claim C18 -/

theorem liveGrid_wellFormed : liveGrid.WellFormed GRID_WIDTH GRID_HEIGHT := by
  rw [GRID_WIDTH_eq, GRID_HEIGHT_eq]
  exact gridOf_wellFormed 80 30 _

theorem liveGrid_neighbours : countNeighbors liveGrid 5 5 = some 8 := by
  have h := countNeighborsOn_eq liveGrid_wellFormed (x := 5) (y := 5)
    (by decide) (by decide) (by decide) (by decide)
  have hl : ∀ x y : Int, 0 ≤ x → x < 80 → 0 ≤ y → y < 30 → liveGrid.isLive x y = true :=
    fun x y hx0 hx1 hy0 hy1 => gridOf_isLive 80 30 _ hx0 (by omega) hy0 (by omega)
  have hn : liveWrappedNeighbors GRID_WIDTH GRID_HEIGHT liveGrid 5 5 = 8 := by
    rw [GRID_WIDTH_eq, GRID_HEIGHT_eq]
    simp only [liveWrappedNeighbors, neighborOffsets, List.countP_cons, List.countP_nil]
    rw [hl _ _ (by decide) (by decide) (by decide) (by decide),
      hl _ _ (by decide) (by decide) (by decide) (by decide),
      hl _ _ (by decide) (by decide) (by decide) (by decide),
      hl _ _ (by decide) (by decide) (by decide) (by decide),
      hl _ _ (by decide) (by decide) (by decide) (by decide),
      hl _ _ (by decide) (by decide) (by decide) (by decide),
      hl _ _ (by decide) (by decide) (by decide) (by decide),
      hl _ _ (by decide) (by decide) (by decide) (by decide)]
    rfl
  rw [countNeighbors, h, hn]
  rfl

/-- The colour `draw` computes for a live in-range cell of a well-formed grid. -/
theorem drawCellColor_live (grid : Grid) (x y : Int)
    (hwf : grid.WellFormed GRID_WIDTH GRID_HEIGHT) (hx0 : 0 ≤ x) (hxW : x < GRID_WIDTH)
    (hy0 : 0 ≤ y) (hyH : y < GRID_HEIGHT) (hlive : grid.read y x = some true) :
    drawCellColor grid x y
      = some (some (cellColor (liveWrappedNeighbors GRID_WIDTH GRID_HEIGHT grid x y : Int))) := by
  unfold drawCellColor countNeighbors
  rw [hlive, countNeighborsOn_eq hwf hx0 hxW hy0 hyH]
  rfl

/-- C18: the colour of a live cell has red and blue 0 and green `150 + 15 * n` reduced to 8
bits, with `n` the cell's neighbour count. For `n` from 0 to 7 the green channel is
`150 + 15 * n` and strictly increasing, but for `n = 8` the value 270 does not fit in 8 bits
and the green channel is 14, below every other value: the live cell `(5, 5)` of the all-live
grid, which has 8 live neighbours, gets the colour `(0, 14, 0)`. -/
theorem green_channel_wraps_at_eight :
    (∀ n : Int, cellColor n = (0, (150 + n * 15) % 256, 0)) ∧
    (∀ n : Int, 0 ≤ n → n ≤ 7 → (cellColor n).2.1 = 150 + 15 * n) ∧
    (∀ m n : Int, 0 ≤ m → m < n → n ≤ 7 → (cellColor m).2.1 < (cellColor n).2.1) ∧
    (cellColor 7).2.1 = 255 ∧ (cellColor 8).2.1 = 14 ∧
    (∀ n : Int, 0 ≤ n → n ≤ 7 → (cellColor 8).2.1 < (cellColor n).2.1) ∧
    liveGrid.read 5 5 = some true ∧ countNeighbors liveGrid 5 5 = some 8 ∧
    drawCellColor liveGrid 5 5 = some (some (0, 14, 0)) := by
  have hg : ∀ n : Int, 0 ≤ n → n ≤ 7 → (cellColor n).2.1 = 150 + 15 * n := by
    intro n h0 h7
    show (150 + n * 15) % 256 = 150 + 15 * n
    omega
  have hread : liveGrid.read 5 5 = some true := by
    rw [Grid.read_isSome liveGrid_wellFormed (x := 5) (y := 5)
      (by decide) (by decide) (by decide) (by decide),
      show liveGrid.isLive 5 5 = true from
        gridOf_isLive 80 30 _ (by decide) (by decide) (by decide) (by decide)]
  refine ⟨fun n => rfl, hg, ?_, by decide, by decide, ?_, hread, liveGrid_neighbours, ?_⟩
  · intro m n hm hmn hn
    rw [hg m hm (by omega), hg n (by omega) hn]
    omega
  · intro n h0 h7
    rw [hg n h0 h7, show (cellColor 8).2.1 = 14 by decide]
    omega
  · unfold drawCellColor
    rw [hread, liveGrid_neighbours]
    decide

end LifeBreakout
